import Mathlib

/-!
# Stack deployers, target-group manager, targets builder and cloud tags of the
Lattice gateway controller

Shallow embedding of `pkg/deploy/stack_deployer.go`, of the target-group
manager exercised by `pkg/deploy/lattice/target_group_manager_test.go`, of
`pkg/gateway/model_build_targets.go`, of `pkg/aws/cloud.go`, of
`buildAndDeployModel` in `controllers/serviceexport_controller.go` and of the
service synthesizer exercised by `pkg/deploy/lattice/service_synthesizer_test.go`.

Go methods with side effects are state-passing functions `σ → Option ε × σ`:
the first component is the returned `error` (`none` is `nil`), the second the
state of the world after the call.  Every run also carries the list of the
calls it made, each with the value the call returned.
-/

namespace LatticeGateway

/-! ## Definitions: `pkg/deploy/stack_deployer.go` -/

namespace StackDeployer

/-- The `ResourceSynthesizer` interface: two methods, each returning an `error`
and acting on the world. -/
structure ResourceSynthesizer (σ ε : Type) where
  Synthesize : σ → Option ε × σ
  PostSynthesize : σ → Option ε × σ

/-- A method invocation made by `deploy`; the number is the index of the
receiver in the `synthesizers` slice (0-based). -/
inductive Call where
  | Synthesize (i : Nat)
  | PostSynthesize (i : Nat)
  deriving DecidableEq, Repr

/-- One invocation together with the `error` it returned. -/
structure Invocation (ε : Type) where
  call : Call
  result : Option ε
  deriving DecidableEq, Repr

/-- Outcome of a run: the returned `error`, the final world, the invocations
made, in order. -/
structure Run (σ ε : Type) where
  err : Option ε
  state : σ
  log : List (Invocation ε)

/-- First loop of `deploy`: `for _, synthesizer := range synthesizers`, started
at index `i`; a non-nil error ends the run. -/
def synthesizeLoop {σ ε : Type} :
    List (ResourceSynthesizer σ ε) → Nat → σ → Run σ ε
  | [], _, st => ⟨none, st, []⟩
  | s :: rest, i, st =>
    match s.Synthesize st with
    | (some e, st1) => ⟨some e, st1, [⟨Call.Synthesize i, some e⟩]⟩
    | (none, st1) =>
      let r := synthesizeLoop rest (i + 1) st1
      ⟨r.err, r.state, ⟨Call.Synthesize i, none⟩ :: r.log⟩

/-- Second loop of `deploy`: `for i := len(synthesizers) - 1; i >= 0; i--`,
with `n = i + 1` the number of synthesizers still to be visited. -/
def postSynthesizeLoop {σ ε : Type} (ss : List (ResourceSynthesizer σ ε)) :
    (n : Nat) → n ≤ ss.length → σ → Run σ ε
  | 0, _, st => ⟨none, st, []⟩
  | n + 1, h, st =>
    match (ss.get ⟨n, h⟩).PostSynthesize st with
    | (some e, st1) => ⟨some e, st1, [⟨Call.PostSynthesize n, some e⟩]⟩
    | (none, st1) =>
      let r := postSynthesizeLoop ss n (Nat.le_of_succ_le h) st1
      ⟨r.err, r.state, ⟨Call.PostSynthesize n, none⟩ :: r.log⟩

/-- The function `deploy(ctx, stack, synthesizers)`. -/
def deploy {σ ε : Type} (synthesizers : List (ResourceSynthesizer σ ε)) (st : σ) :
    Run σ ε :=
  let r := synthesizeLoop synthesizers 0 st
  match r.err with
  | some e => ⟨some e, r.state, r.log⟩
  | none =>
    let p := postSynthesizeLoop synthesizers synthesizers.length (Nat.le_refl _) r.state
    ⟨p.err, p.state, r.log ++ p.log⟩

/-- The call sequence `s1.Synthesize, ..., sn.Synthesize, sn.PostSynthesize,
..., s1.PostSynthesize` of a slice of `n` synthesizers. -/
def pipeline (n : Nat) : List Call :=
  (List.range n).map Call.Synthesize ++ (List.range n).reverse.map Call.PostSynthesize

/-- A run over the call sequence `seq` that stops at the first call returning
an error: either every call of `seq` was made and returned nil, or the calls made
are the first `k + 1` of `seq`, the first `k` returned nil, and the last one
returned the error the run returns. -/
def StopsAtFirstError {ε : Type} (seq : List Call) (err : Option ε)
    (log : List (Invocation ε)) : Prop :=
  (err = none ∧ log = seq.map (fun c => ⟨c, none⟩)) ∨
    ∃ k c e, seq[k]? = some c ∧ err = some e ∧
      log = (seq.take k).map (fun c => ⟨c, none⟩) ++ [⟨c, some e⟩]

/-- Two synthesizers that always succeed; each adds to a counter. -/
def succeedingSynthesizers : List (ResourceSynthesizer Nat String) :=
  [⟨fun x => (none, x + 1), fun x => (none, x + 10)⟩,
   ⟨fun x => (none, x + 2), fun x => (none, x + 20)⟩]

/-- Three synthesizers; the `PostSynthesize` of the second one fails. -/
def failingSynthesizers : List (ResourceSynthesizer Nat String) :=
  [⟨fun x => (none, x + 1), fun x => (none, x + 10)⟩,
   ⟨fun x => (none, x + 2), fun x => (some "post failed", x + 20)⟩,
   ⟨fun x => (none, x + 3), fun x => (none, x + 30)⟩]

end StackDeployer

namespace latticeServiceStackDeployer

/-- The seven stages of `latticeServiceStackDeployer.Deploy`, in source order. -/
inductive Stage where
  | SynthesizeTriggeredTargetGroupsCreation
  | TargetsSynthesize
  | ServiceSynthesize
  | ListenerSynthesize
  | RuleSynthesize
  | SynthesizeTriggeredTargetGroupsDeletion
  | SynthesizeSDKTargetGroups
  deriving DecidableEq, Repr

/-- A stage invocation together with the `error` it returned. -/
structure StageCall (ε : Type) where
  stage : Stage
  result : Option ε
  deriving DecidableEq, Repr

/-- Outcome of `Deploy`: returned `error`, final world, stage invocations. -/
structure Run (σ ε : Type) where
  err : Option ε
  state : σ
  log : List (StageCall ε)

/-- The three methods of the target-group synthesizer that `Deploy` uses. -/
structure TargetGroupSynthesizer (σ ε : Type) where
  SynthesizeTriggeredTargetGroupsCreation : σ → Option ε × σ
  SynthesizeTriggeredTargetGroupsDeletion : σ → Option ε × σ
  SynthesizeSDKTargetGroups : σ → Option ε × σ

/-- A synthesizer of which `Deploy` uses only `Synthesize`. -/
structure Synthesizer (σ ε : Type) where
  Synthesize : σ → Option ε × σ

/-- The five synthesizers constructed at the top of `Deploy`. -/
structure Synthesizers (σ ε : Type) where
  targetGroupSynthesizer : TargetGroupSynthesizer σ ε
  targetsSynthesizer : Synthesizer σ ε
  serviceSynthesizer : Synthesizer σ ε
  listenerSynthesizer : Synthesizer σ ε
  ruleSynthesizer : Synthesizer σ ε

/-- One statement `if err := f(ctx); err != nil { return err }` executed after
`r`: nothing happens when `r` has already returned an error. -/
def andThen {σ ε : Type} (r : Run σ ε) (stage : Stage) (f : σ → Option ε × σ) :
    Run σ ε :=
  match r.err with
  | some _ => r
  | none => ⟨(f r.state).1, (f r.state).2, r.log ++ [⟨stage, (f r.state).1⟩]⟩

/-- The method `latticeServiceStackDeployer.Deploy`. -/
def Deploy {σ ε : Type} (d : Synthesizers σ ε) (st : σ) : Run σ ε :=
  let r0 : Run σ ε := ⟨none, st, []⟩
  let r1 := andThen r0 Stage.SynthesizeTriggeredTargetGroupsCreation
    d.targetGroupSynthesizer.SynthesizeTriggeredTargetGroupsCreation
  let r2 := andThen r1 Stage.TargetsSynthesize d.targetsSynthesizer.Synthesize
  let r3 := andThen r2 Stage.ServiceSynthesize d.serviceSynthesizer.Synthesize
  let r4 := andThen r3 Stage.ListenerSynthesize d.listenerSynthesizer.Synthesize
  let r5 := andThen r4 Stage.RuleSynthesize d.ruleSynthesizer.Synthesize
  let r6 := andThen r5 Stage.SynthesizeTriggeredTargetGroupsDeletion
    d.targetGroupSynthesizer.SynthesizeTriggeredTargetGroupsDeletion
  andThen r6 Stage.SynthesizeSDKTargetGroups
    d.targetGroupSynthesizer.SynthesizeSDKTargetGroups

/-- The stages in the order in which `Deploy` names them. -/
def stages : List Stage :=
  [Stage.SynthesizeTriggeredTargetGroupsCreation, Stage.TargetsSynthesize,
   Stage.ServiceSynthesize, Stage.ListenerSynthesize, Stage.RuleSynthesize,
   Stage.SynthesizeTriggeredTargetGroupsDeletion, Stage.SynthesizeSDKTargetGroups]

/-- A run over the stage sequence `seq` that stops at the first stage returning
an error: either every stage of `seq` was invoked and returned nil, or the
stages invoked are the first `k + 1` of `seq`, the first `k` returned nil, and
the last one returned the error the run returns. -/
def StopsAtFirstError {σ ε : Type} (seq : List Stage) (r : Run σ ε) : Prop :=
  (r.err = none ∧ r.log = seq.map (fun s => ⟨s, none⟩)) ∨
    ∃ k s e, seq[k]? = some s ∧ r.err = some e ∧
      r.log = (seq.take k).map (fun s => ⟨s, none⟩) ++ [⟨s, some e⟩]

/-- Synthesizers all of whose stages succeed except the garbage-collection
sweep `SynthesizeSDKTargetGroups`, which returns an error. -/
def sweepFails : Synthesizers Nat String where
  targetGroupSynthesizer :=
    { SynthesizeTriggeredTargetGroupsCreation := fun x => (none, x + 1)
      SynthesizeTriggeredTargetGroupsDeletion := fun x => (none, x + 1)
      SynthesizeSDKTargetGroups := fun x => (some "sweep failed", x + 1) }
  targetsSynthesizer := ⟨fun x => (none, x + 1)⟩
  serviceSynthesizer := ⟨fun x => (none, x + 1)⟩
  listenerSynthesizer := ⟨fun x => (none, x + 1)⟩
  ruleSynthesizer := ⟨fun x => (none, x + 1)⟩

/-- The seven guarded calls of `Deploy` in source order (lines 114, 119, 124,
129, 134, 139, 145), each paired with the stage it is. -/
def stageCalls {σ ε : Type} (d : Synthesizers σ ε) : List (Stage × (σ → Option ε × σ)) :=
  [(Stage.SynthesizeTriggeredTargetGroupsCreation,
      d.targetGroupSynthesizer.SynthesizeTriggeredTargetGroupsCreation),
   (Stage.TargetsSynthesize, d.targetsSynthesizer.Synthesize),
   (Stage.ServiceSynthesize, d.serviceSynthesizer.Synthesize),
   (Stage.ListenerSynthesize, d.listenerSynthesizer.Synthesize),
   (Stage.RuleSynthesize, d.ruleSynthesizer.Synthesize),
   (Stage.SynthesizeTriggeredTargetGroupsDeletion,
      d.targetGroupSynthesizer.SynthesizeTriggeredTargetGroupsDeletion),
   (Stage.SynthesizeSDKTargetGroups, d.targetGroupSynthesizer.SynthesizeSDKTargetGroups)]

/-- A list of guarded calls run in turn from the run `r`. -/
def runStages {σ ε : Type} (calls : List (Stage × (σ → Option ε × σ))) (r : Run σ ε) :
    Run σ ε :=
  calls.foldl (fun acc call => andThen acc call.1 call.2) r

/-- What each call of a list returns when the calls are made one after the
other from the world `st`, each from the world its predecessor left. -/
def threadResults {σ ε : Type} : List (Stage × (σ → Option ε × σ)) → σ → List (StageCall ε)
  | [], _ => []
  | call :: rest, st => ⟨call.1, (call.2 st).1⟩ :: threadResults rest (call.2 st).2

/-- Synthesizers whose listener stage returns an error; every other stage
succeeds, and the world counts the calls. -/
def listenerFails : Synthesizers Nat String where
  targetGroupSynthesizer :=
    { SynthesizeTriggeredTargetGroupsCreation := fun x => (none, x + 1)
      SynthesizeTriggeredTargetGroupsDeletion := fun x => (none, x + 1)
      SynthesizeSDKTargetGroups := fun x => (none, x + 1) }
  targetsSynthesizer := ⟨fun x => (none, x + 1)⟩
  serviceSynthesizer := ⟨fun x => (none, x + 1)⟩
  listenerSynthesizer := ⟨fun x => (some "listener failed", x + 1)⟩
  ruleSynthesizer := ⟨fun x => (none, x + 1)⟩

end latticeServiceStackDeployer

/-! ## Definitions: the target-group manager (`pkg/deploy/lattice`)

`target_group_manager.go` is not among the sources; the manager is modelled from
the specification (section 4.1 and the scenarios of section 8) and from the
expectations of `target_group_manager_test.go`. -/

/-- Go `error` values occurring in the manager and its tests: `errors.New(text)`
and `awserr.New(code, message, nil)`; equality is structural, as with
`assert.Equal`. -/
inductive Error where
  | New (text : String)
  | awserr (code : String) (message : String)
  deriving DecidableEq, Repr

/-- Modelled from the spec: the text of the retry sentinel `LATTICE_RETRY`,
whose declaration is not among the sources; the retryable error is
`errors.New(LATTICE_RETRY)`. -/
def LATTICE_RETRY : String := "LATTICE_RETRY"

namespace vpclattice

/-- SDK constant `vpclattice.ErrCodeResourceNotFoundException`. -/
def ErrCodeResourceNotFoundException : String := "ResourceNotFoundException"

/-- Remote states of a target group (`vpclattice.TargetGroupStatus*`). -/
inductive TargetGroupStatus where
  | CreateInProgress
  | Active
  | DeleteInProgress
  | CreateFailed
  | DeleteFailed
  deriving DecidableEq, Repr

/-- Status of a registered target (`vpclattice.TargetStatus*`). -/
inductive TargetStatus where
  | Draining
  | Unavailable
  | Healthy
  | Unhealthy
  | Initial
  | Unused
  deriving DecidableEq, Repr

/-- Protocol versions of a health check (`vpclattice.HealthCheckProtocolVersion*`). -/
inductive HealthCheckProtocolVersion where
  | HTTP1
  | HTTP2
  deriving DecidableEq, Repr

/-- The struct `vpclattice.Matcher`. -/
structure Matcher where
  HttpCode : Option String
  deriving DecidableEq, Repr

/-- The struct `vpclattice.HealthCheckConfig`; pointer fields are options. -/
structure HealthCheckConfig where
  Enabled : Option Bool
  HealthCheckIntervalSeconds : Option Int
  HealthCheckTimeoutSeconds : Option Int
  HealthyThresholdCount : Option Int
  UnhealthyThresholdCount : Option Int
  Matcher : Option Matcher
  Path : Option String
  Port : Option Int
  Protocol : Option String
  ProtocolVersion : Option HealthCheckProtocolVersion
  deriving DecidableEq, Repr

/-- The struct `vpclattice.TargetGroupSummary` (fields read through
`aws.StringValue`, so a nil string is the empty string). -/
structure TargetGroupSummary where
  Arn : String
  Id : String
  Name : String
  Status : TargetGroupStatus
  deriving DecidableEq, Repr

/-- The struct `vpclattice.CreateTargetGroupOutput`. -/
structure CreateTargetGroupOutput where
  Arn : String
  Id : String
  Name : String
  Status : TargetGroupStatus
  deriving DecidableEq, Repr

/-- The struct `vpclattice.TargetSummary`; `Status` may be nil. -/
structure TargetSummary where
  Id : String
  Port : Int
  Status : Option TargetStatus
  deriving DecidableEq, Repr

/-- The struct `vpclattice.Target`. -/
structure Target where
  Id : String
  Port : Int
  deriving DecidableEq, Repr

/-- The struct `vpclattice.TargetFailure`. -/
structure TargetFailure where
  FailureCode : Option String
  FailureMessage : Option String
  Id : String
  Port : Int
  deriving DecidableEq, Repr

/-- The struct `vpclattice.DeregisterTargetsOutput`. -/
structure DeregisterTargetsOutput where
  Successful : List Target
  Unsuccessful : List TargetFailure
  deriving DecidableEq, Repr

end vpclattice

namespace model

/-- Protocol version of a target group: unset (the empty string) or one of
`vpclattice.TargetGroupProtocolVersion{Http1,Http2,Grpc}`. -/
inductive ProtocolVersion where
  | unset
  | HTTP1
  | HTTP2
  | GRPC
  deriving DecidableEq, Repr

/-- The fields of `model.TargetGroupConfig` the manager reads. -/
structure TargetGroupConfig where
  Port : Int
  Protocol : String
  ProtocolVersion : ProtocolVersion
  HealthCheckConfig : Option vpclattice.HealthCheckConfig
  deriving DecidableEq, Repr

/-- The struct `model.TargetGroupSpec`; `TargetGroupType` is its field `Type`. -/
structure TargetGroupSpec where
  Name : String
  Config : TargetGroupConfig
  TargetGroupType : String
  IsDeleted : Bool
  LatticeID : String
  deriving DecidableEq, Repr

/-- The struct `model.TargetGroupStatus`; the empty string is the sentinel for
"not yet created" or "operation pending". -/
structure TargetGroupStatus where
  TargetGroupARN : String
  TargetGroupID : String
  deriving DecidableEq, Repr

/-- The struct `model.TargetGroup`. -/
structure TargetGroup where
  Spec : TargetGroupSpec
  Status : Option TargetGroupStatus
  deriving DecidableEq, Repr

end model

namespace defaultTargetGroupManager

/-- Remote operations the manager may issue; the update call carries the
health-check configuration it sends. -/
inductive RemoteCall where
  | ListTargetGroupsAsList
  | CreateTargetGroupWithContext
  | UpdateTargetGroupWithContext (healthCheck : vpclattice.HealthCheckConfig)
  | ListTargetsAsList
  | DeregisterTargetsWithContext
  | DeleteTargetGroupWithContext
  deriving DecidableEq, Repr

/-- Answers of the remote control plane (the mocked `services.Lattice`): what
each operation returns if the manager issues it. -/
structure Lattice where
  ListTargetGroupsAsList : Except Error (List vpclattice.TargetGroupSummary)
  CreateTargetGroupWithContext : Except Error vpclattice.CreateTargetGroupOutput
  UpdateTargetGroupWithContext : vpclattice.HealthCheckConfig → Option Error
  ListTargetsAsList : Except Error (List vpclattice.TargetSummary)
  DeregisterTargetsWithContext : Except Error vpclattice.DeregisterTargetsOutput
  DeleteTargetGroupWithContext : Option Error

/-- Result of `Create`: the returned status and `error`, and the remote calls
issued, in order. -/
structure CreateRun where
  status : model.TargetGroupStatus
  err : Option Error
  calls : List RemoteCall
  deriving DecidableEq, Repr

/-- Result of `Delete`: the returned `error` and the remote calls issued. -/
structure DeleteRun where
  err : Option Error
  calls : List RemoteCall
  deriving DecidableEq, Repr

/-- Modelled from the spec: `getDefaultHealthCheckConfig`, defined in the absent
`target_group_manager.go`.  Section 4.1: enabled for HTTP/1.1 and for an unset
protocol version, disabled for HTTP/2 and gRPC; matcher HTTP 200, path "/", all
numeric thresholds zero; protocol version mapped 1:1 except gRPC, which maps to
HTTP/1.1.  Port unset and protocol HTTP are the values the test table expects. -/
def getDefaultHealthCheckConfig (targetGroupProtocolVersion : model.ProtocolVersion) :
    vpclattice.HealthCheckConfig where
  Enabled :=
    match targetGroupProtocolVersion with
    | model.ProtocolVersion.unset => some true
    | model.ProtocolVersion.HTTP1 => some true
    | model.ProtocolVersion.HTTP2 => some false
    | model.ProtocolVersion.GRPC => some false
  HealthCheckIntervalSeconds := some 0
  HealthCheckTimeoutSeconds := some 0
  HealthyThresholdCount := some 0
  UnhealthyThresholdCount := some 0
  Matcher := some ⟨some "200"⟩
  Path := some "/"
  Port := none
  Protocol := some "HTTP"
  ProtocolVersion :=
    match targetGroupProtocolVersion with
    | model.ProtocolVersion.unset => some vpclattice.HealthCheckProtocolVersion.HTTP1
    | model.ProtocolVersion.HTTP1 => some vpclattice.HealthCheckProtocolVersion.HTTP1
    | model.ProtocolVersion.HTTP2 => some vpclattice.HealthCheckProtocolVersion.HTTP2
    | model.ProtocolVersion.GRPC => some vpclattice.HealthCheckProtocolVersion.HTTP1

/-- The status `{TargetGroupARN: "", TargetGroupID: ""}` returned with errors. -/
def emptyStatus : model.TargetGroupStatus := ⟨"", ""⟩

/-- Modelled from the spec: the health-check reconciliation of `Create` step 3,
part of the absent `target_group_manager.go`.  A nil desired configuration is
replaced by the default for the protocol version; the configuration is sent
with the remote update call (the test expects that call, and no remote read of
the current configuration, for a non-nil and for a nil desired configuration).
On success the matched summary's ARN and ID are returned; a failing update is a
remote transport error (section 7) and is returned with the empty status. -/
def update (lattice : Lattice) (targetGroup : model.TargetGroup)
    (summary : vpclattice.TargetGroupSummary) : CreateRun :=
  let healthCheckConfig :=
    match targetGroup.Spec.Config.HealthCheckConfig with
    | some hc => hc
    | none => getDefaultHealthCheckConfig targetGroup.Spec.Config.ProtocolVersion
  let calls := [RemoteCall.ListTargetGroupsAsList,
    RemoteCall.UpdateTargetGroupWithContext healthCheckConfig]
  match lattice.UpdateTargetGroupWithContext healthCheckConfig with
  | some e => ⟨emptyStatus, some e, calls⟩
  | none => ⟨⟨summary.Arn, summary.Id⟩, none, calls⟩

/-- Modelled from the spec: the remote create of `Create` steps 2 and 4, part of
the absent `target_group_manager.go`.  State `Active` returns the new ID and
ARN; `CreateInProgress`, `CreateFailed` and `DeleteInProgress` give the
retryable error; a failing call returns its error with the empty status (as the
test for a failed create expects).  The spec does not say what happens when the
output is in state `DeleteFailed`: the result is `none` there. -/
def create (lattice : Lattice) : Option CreateRun :=
  let calls := [RemoteCall.ListTargetGroupsAsList, RemoteCall.CreateTargetGroupWithContext]
  match lattice.CreateTargetGroupWithContext with
  | Except.error e => some ⟨emptyStatus, some e, calls⟩
  | Except.ok out =>
    match out.Status with
    | vpclattice.TargetGroupStatus.Active => some ⟨⟨out.Arn, out.Id⟩, none, calls⟩
    | vpclattice.TargetGroupStatus.CreateInProgress =>
      some ⟨emptyStatus, some (Error.New LATTICE_RETRY), calls⟩
    | vpclattice.TargetGroupStatus.CreateFailed =>
      some ⟨emptyStatus, some (Error.New LATTICE_RETRY), calls⟩
    | vpclattice.TargetGroupStatus.DeleteInProgress =>
      some ⟨emptyStatus, some (Error.New LATTICE_RETRY), calls⟩
    | vpclattice.TargetGroupStatus.DeleteFailed => none

/-- Modelled from the spec: `TargetGroupManager.Create`, defined in the absent
`target_group_manager.go` (section 4.1, Create algorithm, steps 1 to 5).  The
derived name is the parameter `getLatticeTGName`; the match is the first listed
summary bearing that name.  A failing listing returns its error with the empty
status (as the tests expect).  The spec gives no step for a match in state
`DeleteFailed`: the result is `none` there. -/
def Create (getLatticeTGName : model.TargetGroup → String) (lattice : Lattice)
    (targetGroup : model.TargetGroup) : Option CreateRun :=
  match lattice.ListTargetGroupsAsList with
  | Except.error e => some ⟨emptyStatus, some e, [RemoteCall.ListTargetGroupsAsList]⟩
  | Except.ok summaries =>
    match summaries.find? (fun s => s.Name == getLatticeTGName targetGroup) with
    | none => create lattice
    | some summary =>
      match summary.Status with
      | vpclattice.TargetGroupStatus.Active => some (update lattice targetGroup summary)
      | vpclattice.TargetGroupStatus.CreateFailed => create lattice
      | vpclattice.TargetGroupStatus.CreateInProgress =>
        some ⟨emptyStatus, some (Error.New LATTICE_RETRY), [RemoteCall.ListTargetGroupsAsList]⟩
      | vpclattice.TargetGroupStatus.DeleteInProgress =>
        some ⟨emptyStatus, some (Error.New LATTICE_RETRY), [RemoteCall.ListTargetGroupsAsList]⟩
      | vpclattice.TargetGroupStatus.DeleteFailed => none

/-- The not-found signature of a remote error: an `awserr.Error` whose code is
`ErrCodeResourceNotFoundException`. -/
def isResourceNotFound : Error → Bool
  | Error.awserr code _ => code == vpclattice.ErrCodeResourceNotFoundException
  | Error.New _ => false

/-- Modelled from the spec: the remote delete of `Delete` steps 4 and 5, part of
the absent `target_group_manager.go`: a "resource not found" response is
success, any other remote error is returned as is.  The argument `calls` holds
the calls already issued. -/
def deleteTargetGroup (lattice : Lattice) (calls : List RemoteCall) : DeleteRun :=
  match lattice.DeleteTargetGroupWithContext with
  | none => ⟨none, calls ++ [RemoteCall.DeleteTargetGroupWithContext]⟩
  | some e =>
    if isResourceNotFound e then ⟨none, calls ++ [RemoteCall.DeleteTargetGroupWithContext]⟩
    else ⟨some e, calls ++ [RemoteCall.DeleteTargetGroupWithContext]⟩

/-- Modelled from the spec: `TargetGroupManager.Delete`, defined in the absent
`target_group_manager.go` (section 4.1, Delete algorithm, with the order of
scenarios D and E of section 8, which the tests fix: a listed target with a
status other than Unused gives the retryable error before any deregister call;
otherwise the listed targets, those with a nil status included, are
deregistered, and unsuccessful entries give the retryable error).  A failing
listing or deregistration returns its error.  Neither the spec nor the tests say
whether a deregister call is issued for an empty listing: `deregisterEmpty`
covers both behaviours. -/
def Delete (deregisterEmpty : Bool) (lattice : Lattice) (_targetGroup : model.TargetGroup) :
    DeleteRun :=
  match lattice.ListTargetsAsList with
  | Except.error e => ⟨some e, [RemoteCall.ListTargetsAsList]⟩
  | Except.ok targets =>
    if targets.any (fun t => t.Status.isSome && t.Status != some vpclattice.TargetStatus.Unused)
    then ⟨some (Error.New LATTICE_RETRY), [RemoteCall.ListTargetsAsList]⟩
    else if targets.isEmpty && !deregisterEmpty then
      deleteTargetGroup lattice [RemoteCall.ListTargetsAsList]
    else
      let calls := [RemoteCall.ListTargetsAsList, RemoteCall.DeregisterTargetsWithContext]
      match lattice.DeregisterTargetsWithContext with
      | Except.error e => ⟨some e, calls⟩
      | Except.ok out =>
        if out.Unsuccessful.isEmpty then deleteTargetGroup lattice calls
        else ⟨some (Error.New LATTICE_RETRY), calls⟩

/-- A target group as in the tests: name "test", empty configuration, remote
identifier "123". -/
def testTargetGroup : model.TargetGroup :=
  ⟨⟨"test", ⟨0, "", model.ProtocolVersion.unset, none⟩, "IP", false, "123"⟩, none⟩

/-- A derived-name function for the examples: the logical name itself. -/
def testName (targetGroup : model.TargetGroup) : String := targetGroup.Spec.Name

/-- A remote control plane with no target group and no target, all of whose
operations succeed; a create yields an `Active` target group. -/
def quietLattice : Lattice where
  ListTargetGroupsAsList := Except.ok []
  CreateTargetGroupWithContext :=
    Except.ok ⟨"12345678912345678912", "12345678912345678912", "test",
      vpclattice.TargetGroupStatus.Active⟩
  UpdateTargetGroupWithContext := fun _ => none
  ListTargetsAsList := Except.ok []
  DeregisterTargetsWithContext := Except.ok ⟨[], []⟩
  DeleteTargetGroupWithContext := none

/-- A listing holding the target group "test" in the given remote state. -/
def listingWith (status : vpclattice.TargetGroupStatus) :
    List vpclattice.TargetGroupSummary :=
  [⟨"random-tg-arn-12345", "random-tg-id-12345", "tgrandom-1",
      vpclattice.TargetGroupStatus.CreateFailed⟩,
   ⟨"12345678912345678912", "12345678912345678912", "test", status⟩]

/-- The remote control plane of the tests in which "test" is listed in the
given state. -/
def latticeWith (status : vpclattice.TargetGroupStatus) : Lattice :=
  { quietLattice with ListTargetGroupsAsList := Except.ok (listingWith status) }

/-- The target of the delete tests, with the given status. -/
def targetWith (status : Option vpclattice.TargetStatus) : vpclattice.TargetSummary :=
  ⟨"123.456.7.890", 80, status⟩

/-- Remote control plane of `Test_DeleteTG_TargetsNonUnused`: one Healthy target. -/
def latticeHealthyTarget : Lattice :=
  { quietLattice with
    ListTargetsAsList := Except.ok [targetWith (some vpclattice.TargetStatus.Healthy)] }

/-- Remote control plane of `Test_DeleteTG_DeRegisterTargetsUnsuccessfully`: one
target without status, whose deregistration is reported unsuccessful. -/
def latticeDeregisterUnsuccessful : Lattice :=
  { quietLattice with
    ListTargetsAsList := Except.ok [targetWith none]
    DeregisterTargetsWithContext := Except.ok ⟨[], [⟨none, none, "123.456.7.890", 80⟩]⟩ }

/-- Remote control plane of the delete test in which the remote delete answers
`ResourceNotFoundException`. -/
def latticeDeleteNotFound : Lattice :=
  { quietLattice with
    ListTargetsAsList := Except.ok [targetWith none]
    DeleteTargetGroupWithContext :=
      some (Error.awserr vpclattice.ErrCodeResourceNotFoundException "") }

end defaultTargetGroupManager

/-! ## Definitions: `pkg/gateway/model_build_targets.go` -/

namespace strings

/-- Splitting at commas, as `strings.Split(s, ",")` does on the characters of
`s`: the pieces between the commas, in order; one empty piece for the empty
string. -/
def splitComma : List Char → List (List Char)
  | [] => [[]]
  | c :: cs =>
    if c = ',' then [] :: splitComma cs
    else
      match splitComma cs with
      | [] => [[c]]
      | w :: ws => (c :: w) :: ws

/-- The call `strings.Split(s, ",")`. -/
def Split (s : String) : List String :=
  (splitComma s.toList).map String.mk

end strings

namespace strconv

/-- Value of a string of decimal digits, most significant first. -/
def digitsValue (digits : List Char) : Nat :=
  digits.foldl (fun n c => n * 10 + (c.toNat - '0'.toNat)) 0

/-- The call `strconv.ParseInt(s, 10, 32)`: an optional sign followed by at
least one decimal digit, denoting a value of the signed 32-bit range; `none`
stands for a non-nil error (syntax or range). -/
def ParseInt (s : String) : Option Int :=
  let signed : Bool × List Char :=
    match s.toList with
    | '+' :: rest => (false, rest)
    | '-' :: rest => (true, rest)
    | rest => (false, rest)
  if signed.2.isEmpty then none
  else if signed.2.all (fun c => decide ('0' ≤ c ∧ c ≤ '9')) then
    let v : Int := if signed.1 then -(digitsValue signed.2 : Int) else (digitsValue signed.2 : Int)
    if -2147483648 ≤ v ∧ v ≤ 2147483647 then some v else none
  else none

end strconv

namespace types

/-- The struct `types.NamespacedName`. -/
structure NamespacedName where
  Namespace : String
  Name : String
  deriving DecidableEq, Repr

/-- The method `NamespacedName.String`, used by the `%s` verb. -/
def NamespacedName.String (n : NamespacedName) : String :=
  n.Namespace ++ "/" ++ n.Name

end types

namespace corev1

/-- The struct `corev1.ServicePort` (name and port number). -/
structure ServicePort where
  Name : String
  Port : Int
  deriving DecidableEq, Repr

/-- The fields of `corev1.Service` the builder reads.  `DeletionTimestamp` is a
`*metav1.Time`: nil, or an instant counted from the zero time. -/
structure Service where
  Name : String
  Namespace : String
  DeletionTimestamp : Option Int
  Ports : List ServicePort
  deriving DecidableEq, Repr

/-- The method `(*metav1.Time).IsZero`: true for nil and for the zero time. -/
def IsZero (t : Option Int) : Bool :=
  match t with
  | none => true
  | some instant => instant == 0

/-- The struct `corev1.EndpointPort`. -/
structure EndpointPort where
  Name : String
  Port : Int
  deriving DecidableEq, Repr

/-- The struct `corev1.EndpointAddress`. -/
structure EndpointAddress where
  IP : String
  deriving DecidableEq, Repr

/-- The struct `corev1.EndpointSubset`. -/
structure EndpointSubset where
  Addresses : List EndpointAddress
  Ports : List EndpointPort
  deriving DecidableEq, Repr

/-- The struct `corev1.Endpoints`. -/
structure Endpoints where
  Subsets : List EndpointSubset
  deriving DecidableEq, Repr

/-- The error value `corev1.ErrIntOverflowGenerated` of the Kubernetes API
package. -/
def ErrIntOverflowGenerated : Error := Error.New "proto: integer overflow"

end corev1

namespace mcsv1alpha1

/-- The struct `mcsv1alpha1.ServiceExport`, with the map
`ObjectMeta.Annotations` as a lookup function. -/
structure ServiceExport where
  Annotations : String → Option String

end mcsv1alpha1

namespace latticestore

/-- The fields of `latticestore.TargetGroup` the builder reads. -/
structure TargetGroup where
  ByBackendRef : Bool
  ByServiceExport : Bool
  deriving DecidableEq, Repr

/-- What the builder uses of the package `latticestore`, which is not among the
sources: the function `TargetGroupName(name, namespace)` and the method
`GetTargetGroup(name, routeName, isServiceImport)` of the data store, which
returns an error when the ledger has no entry for the key. -/
structure LatticeDataStore where
  TargetGroupName : String → String → String
  GetTargetGroup : String → String → Bool → Except Error TargetGroup

end latticestore

namespace model

/-- The struct `model.Target`. -/
structure Target where
  TargetIP : String
  Port : Int
  deriving DecidableEq, Repr

/-- The struct `model.TargetsSpec`. -/
structure TargetsSpec where
  Name : String
  Namespace : String
  RouteName : String
  TargetIPList : List Target
  deriving DecidableEq, Repr

/-- The resource `model.Targets`: its identifier and its spec. -/
structure Targets where
  id : String
  Spec : TargetsSpec
  deriving DecidableEq, Repr

end model

namespace core

/-- A `core.Stack` as the targets builder sees it: its identity and the
`Targets` resources added to it. -/
structure Stack where
  StackID : types.NamespacedName
  resources : List model.Targets
  deriving DecidableEq, Repr

/-- The call `core.NewDefaultStack(id)`: a stack without resources. -/
def NewDefaultStack (id : types.NamespacedName) : Stack := ⟨id, []⟩

end core

namespace model

/-- Modelled from the spec: `model.NewTargets(stack, id, spec)`, defined in the
absent package `pkg/model/lattice`: it makes the `Targets` resource with the
given identifier and spec and adds it to the stack (section 2: a stack supports
add-by-type; a builder emits a populated stack). -/
def NewTargets (stack : core.Stack) (id : String) (spec : TargetsSpec) :
    Targets × core.Stack :=
  (⟨id, spec⟩, ⟨stack.StackID, stack.resources ++ [⟨id, spec⟩]⟩)

end model

namespace gateway

/-- The constant `portAnnotationsKey`. -/
def portAnnotationsKey : String := "multicluster.x-k8s.io/port"

/-- The constant `undefinedPort`. -/
def undefinedPort : Int := 0

/-- A read of a cluster object through `client.Get`. -/
inductive ClientGet where
  | Service (key : types.NamespacedName)
  | ServiceExport (key : types.NamespacedName)
  | Endpoints (key : types.NamespacedName)
  deriving DecidableEq, Repr

/-- The cluster as `client.Client` shows it: the result of `Get` for each kind
of object the builder reads. -/
structure Client where
  GetService : types.NamespacedName → Except Error corev1.Service
  GetServiceExport : types.NamespacedName → Except Error mcsv1alpha1.ServiceExport
  GetEndpoints : types.NamespacedName → Except Error corev1.Endpoints

/-- The struct `LatticeTargetsModelBuilder` (fields used by `Build`). -/
structure LatticeTargetsModelBuilder where
  client : Client
  datastore : latticestore.LatticeDataStore

/-- The struct `latticeTargetsModelBuildTask`. -/
structure latticeTargetsModelBuildTask where
  client : Client
  tgName : String
  tgNamespace : String
  routeName : String
  backendRefPort : Int
  latticeTargets : Option model.Targets
  stack : core.Stack
  datastore : latticestore.LatticeDataStore

/-- Outcome of running a task: the returned `error`, the task as the run left
it, and the cluster reads made, in order. -/
structure TaskRun where
  err : Option Error
  task : latticeTargetsModelBuildTask
  reads : List ClientGet

/-- Lines 111 to 121: the ports named by the export's port entries; an entry
that does not parse is logged and skipped. -/
def exportDefinedPorts (serviceExport : mcsv1alpha1.ServiceExport) : List Int :=
  let portsAnnotations :=
    strings.Split ((serviceExport.Annotations portAnnotationsKey).getD "")
  portsAnnotations.foldl
    (fun definedPorts entry =>
      match strconv.ParseInt entry with
      | none => definedPorts
      | some definedPort => definedPorts ++ [definedPort])
    []

/-- Lines 103 to 125: the set `definedPorts` (as a list) and the cluster reads
made to compute it. -/
def readDefinedPorts (t : latticeTargetsModelBuildTask) (tg : latticestore.TargetGroup)
    (namespacedName : types.NamespacedName) : List Int × List ClientGet :=
  if tg.ByServiceExport then
    match t.client.GetServiceExport namespacedName with
    | Except.error _ => ([], [ClientGet.ServiceExport namespacedName])
    | Except.ok serviceExport =>
      (exportDefinedPorts serviceExport, [ClientGet.ServiceExport namespacedName])
  else if tg.ByBackendRef && t.backendRefPort != undefinedPort then
    ([t.backendRefPort], [])
  else ([], [])

/-- Lines 134 to 146: the loop over `svc.Spec.Ports`, giving the set
`servicePortNames` (as a list) and the flag `skipMatch`. -/
def servicePortsLoop (definedPorts : List Int) (ports : List corev1.ServicePort) :
    List String × Bool :=
  ports.foldl
    (fun acc port =>
      if port.Port ∈ definedPorts then
        if port.Name ≠ "" then (acc.1 ++ [port.Name], acc.2)
        else (acc.1, true)
      else acc)
    ([], false)

/-- Lines 161 to 175: the three nested loops over subsets, addresses and ports
that append to `targetList`. -/
def targetsLoop (servicePortNames : List String) (skipMatch : Bool)
    (subsets : List corev1.EndpointSubset) : List model.Target :=
  subsets.foldl
    (fun targetList endPoint =>
      endPoint.Addresses.foldl
        (fun targetList address =>
          endPoint.Ports.foldl
            (fun targetList port =>
              if port.Name ∈ servicePortNames ∨ skipMatch = true then
                targetList ++ [⟨address.IP, port.Port⟩]
              else targetList)
            targetList)
        targetList)
    []

/-- Lines 178 to 187: the spec is assembled, `model.NewTargets` is called and
its result stored in the task; the method returns nil. -/
def emitTargets (t : latticeTargetsModelBuildTask) (tgName : String)
    (targetList : List model.Target) (reads : List ClientGet) : TaskRun :=
  let spec : model.TargetsSpec :=
    { Name := t.tgName, Namespace := t.tgNamespace, RouteName := t.routeName,
      TargetIPList := targetList }
  let made := model.NewTargets t.stack tgName spec
  ⟨none, { t with latticeTargets := some made.1, stack := made.2 }, reads⟩

/-- The method `latticeTargetsModelBuildTask.buildLatticeTargets`. -/
def buildLatticeTargets (t : latticeTargetsModelBuildTask) : TaskRun :=
  let tgName := t.datastore.TargetGroupName t.tgName t.tgNamespace
  match t.datastore.GetTargetGroup tgName t.routeName false with
  | Except.error _ =>
    ⟨some (Error.New ("Build Targets failed because target group (name=" ++ t.tgName ++
      ", namespace=" ++ t.tgNamespace ++ " found not in datastore)")), t, []⟩
  | Except.ok tg =>
    if !tg.ByBackendRef && !tg.ByServiceExport then
      ⟨some (Error.New ("Build Targets failed because its target Group name=" ++ t.tgName ++
        ", namespace=" ++ t.tgNamespace ++ " is no longer referenced")), t, []⟩
    else
      let namespacedName : types.NamespacedName := ⟨t.tgNamespace, t.tgName⟩
      match t.client.GetService namespacedName with
      | Except.error _ =>
        ⟨some (Error.New ("Build Targets failed because K8S service " ++
          namespacedName.String ++ " does not exist")), t, [ClientGet.Service namespacedName]⟩
      | Except.ok svc =>
        let defined := readDefinedPorts t tg namespacedName
        let definedPorts := defined.1
        let reads := ClientGet.Service namespacedName :: defined.2
        let looped := servicePortsLoop definedPorts svc.Ports
        let servicePortNames := looped.1
        let skipMatch := if definedPorts.length = 0 then true else looped.2
        if corev1.IsZero svc.DeletionTimestamp then
          match t.client.GetEndpoints namespacedName with
          | Except.error _ =>
            ⟨some (Error.New ("build targets failed because K8S service " ++
              namespacedName.String ++ " does not exist")), t,
              reads ++ [ClientGet.Endpoints namespacedName]⟩
          | Except.ok endpoints =>
            emitTargets t tgName (targetsLoop servicePortNames skipMatch endpoints.Subsets)
              (reads ++ [ClientGet.Endpoints namespacedName])
        else emitTargets t tgName [] reads

/-- The method `latticeTargetsModelBuildTask.run`. -/
def run (t : latticeTargetsModelBuildTask) : TaskRun :=
  buildLatticeTargets t

/-- What `Build` returns: stack, targets and `error` (`none` is nil), with the
cluster reads made. -/
structure BuildResult where
  stack : Option core.Stack
  targets : Option model.Targets
  err : Option Error
  reads : List ClientGet
  deriving DecidableEq, Repr

/-- The method `LatticeTargetsModelBuilder.Build`; the task it makes leaves
`backendRefPort` at its zero value. -/
def Build (b : LatticeTargetsModelBuilder) (service : corev1.Service) (routeName : String) :
    BuildResult :=
  let stack := core.NewDefaultStack ⟨service.Namespace, service.Name⟩
  let task : latticeTargetsModelBuildTask :=
    { client := b.client, tgName := service.Name, tgNamespace := service.Namespace,
      routeName := routeName, backendRefPort := 0, latticeTargets := none, stack := stack,
      datastore := b.datastore }
  let r := run task
  match r.err with
  | some _ => ⟨none, none, some corev1.ErrIntOverflowGenerated, r.reads⟩
  | none => ⟨some r.task.stack, r.task.latticeTargets, none, r.reads⟩

/-- The (address IP, endpoint port number) pairs of the subsets whose endpoint
port satisfies `keep`, subset by subset, address by address, port by port. -/
def endpointTargets (keep : corev1.EndpointPort → Bool)
    (subsets : List corev1.EndpointSubset) : List model.Target :=
  subsets.flatMap (fun endPoint =>
    endPoint.Addresses.flatMap (fun address =>
      (endPoint.Ports.filter keep).map (fun port => ⟨address.IP, port.Port⟩)))

/-- The task that `Build` makes for a Service and a route name (lines 57 to 65);
`Build b service routeName` runs exactly this task. -/
def taskOf (b : LatticeTargetsModelBuilder) (service : corev1.Service) (routeName : String) :
    latticeTargetsModelBuildTask :=
  { client := b.client, tgName := service.Name, tgNamespace := service.Namespace,
    routeName := routeName, backendRefPort := 0, latticeTargets := none,
    stack := core.NewDefaultStack ⟨service.Namespace, service.Name⟩,
    datastore := b.datastore }

/-- A ledger for the examples: every key has the given entry, or no entry at
all when `entry` is `none`. -/
def exampleDatastore (entry : Option latticestore.TargetGroup) :
    latticestore.LatticeDataStore where
  TargetGroupName := fun name namespace_ => "k8s-" ++ name ++ "-" ++ namespace_
  GetTargetGroup := fun _ _ _ =>
    match entry with
    | some tg => Except.ok tg
    | none => Except.error (Error.New "target group not found")

/-- Endpoints for the examples: two addresses, each with the ports "http" and
"metrics". -/
def exampleEndpoints : corev1.Endpoints :=
  ⟨[⟨[⟨"10.0.0.1"⟩, ⟨"10.0.0.2"⟩], [⟨"http", 8080⟩, ⟨"metrics", 9090⟩]⟩]⟩

/-- A cluster for the examples: it holds the given Service, the Endpoints
`exampleEndpoints` and an export whose port entry is "80". -/
def exampleClient (svc : corev1.Service) : Client where
  GetService := fun _ => Except.ok svc
  GetServiceExport := fun _ =>
    Except.ok ⟨fun key => if key = portAnnotationsKey then some "80" else none⟩
  GetEndpoints := fun _ => Except.ok exampleEndpoints

/-- A task for the Service "svc" of namespace "default" and the route "route". -/
def exampleTask (svc : corev1.Service) (entry : Option latticestore.TargetGroup)
    (backendRefPort : Int) : latticeTargetsModelBuildTask where
  client := exampleClient svc
  tgName := "svc"
  tgNamespace := "default"
  routeName := "route"
  backendRefPort := backendRefPort
  latticeTargets := none
  stack := core.NewDefaultStack ⟨"default", "svc"⟩
  datastore := exampleDatastore entry

/-- A Service with the named ports "http" (80) and "metrics" (9090). -/
def namedService : corev1.Service :=
  ⟨"svc", "default", none, [⟨"http", 80⟩, ⟨"metrics", 9090⟩]⟩

/-- A Service with a single unnamed port, 80. -/
def unnamedService : corev1.Service :=
  ⟨"svc", "default", none, [⟨"", 80⟩]⟩

/-- A Service marked for deletion. -/
def deletedService : corev1.Service :=
  ⟨"svc", "default", some 1700000000, [⟨"http", 80⟩]⟩

/-- A task for `unnamedService` in a cluster whose Endpoints hold one address
with one unnamed port. -/
def unnamedTask (backendRefPort : Int) : latticeTargetsModelBuildTask :=
  { exampleTask unnamedService (some ⟨true, false⟩) backendRefPort with
    client :=
      { exampleClient unnamedService with
        GetEndpoints := fun _ => Except.ok ⟨[⟨[⟨"10.0.0.1"⟩], [⟨"", 8080⟩]⟩]⟩ } }

/-- An export whose port entry has seven comma-separated pieces: "80", a name,
a number after a blank, "+443", an empty piece, a number beyond 32 bits, "-1". -/
def mixedPortsExport : mcsv1alpha1.ServiceExport :=
  ⟨fun key =>
    if key = portAnnotationsKey then some "80,http, 81,+443,,99999999999,-1" else none⟩

/-- A task for `namedService` in a cluster whose export is `mixedPortsExport`,
with a target group referenced by a service export and a backend-reference port
of 9090. -/
def mixedPortsTask : latticeTargetsModelBuildTask :=
  { exampleTask namedService (some ⟨false, true⟩) 9090 with
    client :=
      { exampleClient namedService with
        GetServiceExport := fun _ => Except.ok mixedPortsExport } }

end gateway

/-! ## Definitions: `pkg/aws/cloud.go` -/

namespace aws

/-- The constant `TagBase`. -/
def TagBase : String := "application-networking.k8s.aws/"

/-- The constant `TagManagedBy`. -/
def TagManagedBy : String := TagBase ++ "ManagedBy"

/-- The struct `CloudConfig`. -/
structure CloudConfig where
  VpcId : String
  AccountId : String
  Region : String
  ClusterName : String
  deriving DecidableEq, Repr

/-- The type `services.Tags`, a `map[string]*string`, as a lookup function: the
outer `none` is a missing key, `some none` a key whose value is nil. -/
abbrev Tags := String → Option (Option String)

/-- What `defaultCloud` uses of `services.Lattice`: the answer of
`ListTagsForResource` for each ARN. -/
structure Lattice where
  ListTagsForResource : String → Except Error Tags

/-- The struct `defaultCloud`. -/
structure defaultCloud where
  cfg : CloudConfig
  lattice : Lattice
  managedByTag : String

/-- The function `getManagedByTag`: `fmt.Sprintf("%s/%s/%s", ...)`. -/
def getManagedByTag (cfg : CloudConfig) : String :=
  cfg.AccountId ++ "/" ++ cfg.ClusterName ++ "/" ++ cfg.VpcId

/-- The function `NewDefaultCloud`. -/
def NewDefaultCloud (lattice : Lattice) (cfg : CloudConfig) : defaultCloud :=
  { cfg := cfg, lattice := lattice, managedByTag := getManagedByTag cfg }

/-- The assignment `m[key] = value` on a map. -/
def Tags.set (m : Tags) (key : String) (value : Option String) : Tags :=
  fun k => if k = key then some value else m k

/-- The call `maps.Copy(dst, src)`: every key of `src` is assigned in `dst`. -/
def mapsCopy (dst src : Tags) : Tags :=
  fun k =>
    match src k with
    | some value => some value
    | none => dst k

/-- The method `defaultCloud.DefaultTags`. -/
def defaultCloud.DefaultTags (c : defaultCloud) : Tags :=
  Tags.set (fun _ => none) TagManagedBy (some c.managedByTag)

/-- The method `defaultCloud.DefaultTagsMergedWith`. -/
def defaultCloud.DefaultTagsMergedWith (c : defaultCloud) (tags : Tags) : Tags :=
  mapsCopy c.DefaultTags tags

/-- The method `defaultCloud.ContainsManagedBy`. -/
def defaultCloud.ContainsManagedBy (c : defaultCloud) (tags : Tags) : Bool :=
  match tags TagManagedBy with
  | none => false
  | some none => false
  | some (some tag) => tag == c.managedByTag

/-- The method `defaultCloud.IsArnManaged`, returning `(bool, error)`. -/
def defaultCloud.IsArnManaged (c : defaultCloud) (arn : String) : Bool × Option Error :=
  match c.lattice.ListTagsForResource arn with
  | Except.error _ => (false, none)
  | Except.ok tags => (c.ContainsManagedBy tags, none)

/-- A cloud configuration for the examples. -/
def exampleConfig : CloudConfig :=
  { VpcId := "vpc-1", AccountId := "111122223333", Region := "us-west-2",
    ClusterName := "mine" }

/-- A remote control plane for the examples, without tags on any resource. -/
def exampleLattice : Lattice := ⟨fun _ => Except.ok (fun _ => none)⟩

/-- A tag map carrying the managed-by tag of another cluster. -/
def foreignTags : Tags :=
  Tags.set (fun _ => none) TagManagedBy (some "444455556666/other/vpc-2")

end aws

/-! ## Definitions: `latticeTargetGroupStackDeployer` -/

namespace latticeTargetGroupStackDeployer

/-- The method `latticeTargetGroupStackDeployer.Deploy`: `deploy` on the slice
made of the target-group synthesizer (index 0) and the targets synthesizer
(index 1). -/
def Deploy {σ ε : Type} (targetGroupSynthesizer targetsSynthesizer :
    StackDeployer.ResourceSynthesizer σ ε) (st : σ) : StackDeployer.Run σ ε :=
  StackDeployer.deploy [targetGroupSynthesizer, targetsSynthesizer] st

/-- A target-group synthesizer for the examples: both methods succeed and add
to a counter. -/
def countingTargetGroupSynthesizer : StackDeployer.ResourceSynthesizer Nat String :=
  ⟨fun x => (none, x + 1), fun x => (none, x + 10)⟩

/-- A targets synthesizer for the examples: `Synthesize` succeeds,
`PostSynthesize` returns an error. -/
def failingTargetsSynthesizer : StackDeployer.ResourceSynthesizer Nat String :=
  ⟨fun x => (none, x + 2), fun x => (some "targets post failed", x + 20)⟩

end latticeTargetGroupStackDeployer

/-! ## Definitions: `latticeTargetsStackDeployer` (`pkg/deploy/stack_deployer.go`) -/

namespace latticestore

/-- The struct `latticestore.Target`. -/
structure Target where
  TargetIP : String
  TargetPort : Int
  deriving DecidableEq, Repr

end latticestore

namespace gwlog

/-- A non-nil `gwlog.Logger`. The package `gwlog` is not under the sources; a
`Logger` there is a pointer to a logger of the logging library, so a struct field
of that type which no constructor sets holds nil, and a method call such as
`Errorf` on it is a nil dereference, a run-time panic. The model writes
`Option Logger` for such a field, `none` being nil. -/
structure Logger where
  name : String
  deriving DecidableEq, Repr

end gwlog

namespace latticeTargetsStackDeployer

/-- What `Deploy` is given and uses besides the logger: the result of
`stack.ListResources` (the slice `resTargets` after the call, and the error),
`targetsManager.Create`, `latticestore.TargetGroupName` and the ledger method
`UpdateTargetsForTargetGroup`; none of them is under the sources. -/
structure Collaborators (σ ε : Type) where
  ListResources : core.Stack → List model.Targets × Option ε
  Create : model.Targets → σ → Option ε × σ
  TargetGroupName : String → String → String
  UpdateTargetsForTargetGroup : String → String → List latticestore.Target → σ → Option ε × σ

/-- The struct `latticeTargetsStackDeployer` (lines 184 to 190): the field `log`
and, gathered in `collaborators`, what stands behind `targetsManager`,
`latticeDataStore` and the stack handed to `Deploy`. -/
structure Deployer (σ ε : Type) where
  log : Option gwlog.Logger
  collaborators : Collaborators σ ε

/-- The constructor `NewTargetsStackDeployer` (lines 192 to 203). Its parameter
`log` goes to `lattice.NewTargetsManager` only; the struct literal sets
`k8sClient`, `targetsManager` and `latticeDataStore` and leaves the field `log` at
its zero value, nil. Every other constructor of the file sets `log: log`. -/
def NewTargetsStackDeployer {σ ε : Type} (_log : gwlog.Logger)
    (collaborators : Collaborators σ ε) : Deployer σ ε :=
  { log := none, collaborators := collaborators }

/-- A call made by `Deploy`, with the `error` it returned; for `d.log.Errorf`
the format string, the target-group name given to it (if any) and the error
given to it. -/
inductive Step (ε : Type) where
  | Create (targets : model.Targets) (err : Option ε)
  | UpdateTargetsForTargetGroup (tgName : String) (routeName : String)
      (targetList : List latticestore.Target) (err : Option ε)
  | Errorf (format : String) (tgName : Option String) (err : ε)
  deriving DecidableEq, Repr

/-- How a call of `Deploy` ends: it returns an `error` (`none` is nil), or the
goroutine panics on the nil `d.log`. -/
inductive Outcome (ε : Type) where
  | returned (err : Option ε)
  | panicked
  deriving DecidableEq, Repr

/-- A run of `Deploy`: how it ended, the final world, the calls made. -/
structure Run (σ ε : Type) where
  outcome : Outcome ε
  state : σ
  log : List (Step ε)

/-- Lines 220 to 227: `targetList` is declared (nil) and the loop ranges over
`targetList` itself, appending to it. -/
def copyTargets : List latticestore.Target :=
  let targetList : List latticestore.Target := []
  targetList.foldl
    (fun acc target => acc ++ [(⟨target.TargetIP, target.TargetPort⟩ : latticestore.Target)])
    targetList

/-- Lines 215 to 235: the loop over `resTargets` and the `return nil` after it.
A failing `Create` skips the resource; a failing ledger update reaches
`d.log.Errorf` (line 230), which logs and goes on when `d.log` is set and panics
when it is nil. -/
def deployLoop {σ ε : Type} (d : Deployer σ ε) : List model.Targets → σ → Run σ ε
  | [], st => ⟨Outcome.returned none, st, []⟩
  | targets :: rest, st =>
    match d.collaborators.Create targets st with
    | (some e, st1) =>
      let r := deployLoop d rest st1
      ⟨r.outcome, r.state, Step.Create targets (some e) :: r.log⟩
    | (none, st1) =>
      let tgName := d.collaborators.TargetGroupName targets.Spec.Name targets.Spec.Namespace
      let targetList := copyTargets
      let updated :=
        d.collaborators.UpdateTargetsForTargetGroup tgName targets.Spec.RouteName targetList st1
      match updated.1 with
      | none =>
        let r := deployLoop d rest updated.2
        ⟨r.outcome, r.state, Step.Create targets none ::
          Step.UpdateTargetsForTargetGroup tgName targets.Spec.RouteName targetList none ::
            r.log⟩
      | some e =>
        match d.log with
        | none =>
          ⟨Outcome.panicked, updated.2,
            [Step.Create targets none,
             Step.UpdateTargetsForTargetGroup tgName targets.Spec.RouteName targetList (some e)]⟩
        | some _ =>
          let r := deployLoop d rest updated.2
          ⟨r.outcome, r.state, Step.Create targets none ::
            Step.UpdateTargetsForTargetGroup tgName targets.Spec.RouteName targetList (some e) ::
              Step.Errorf "Failed to update targets for target group %s due to %s"
                (some tgName) e :: r.log⟩

/-- The method `latticeTargetsStackDeployer.Deploy` (lines 205 to 236). An error
of `ListResources` reaches `d.log.Errorf` (line 212): with `d.log` set it is
logged and the loop runs over `resTargets` as it is, with a nil `d.log` the call
panics. -/
def Deploy {σ ε : Type} (d : Deployer σ ε) (stack : core.Stack) (st : σ) : Run σ ε :=
  match d.collaborators.ListResources stack with
  | (resTargets, none) => deployLoop d resTargets st
  | (resTargets, some e) =>
    match d.log with
    | none => ⟨Outcome.panicked, st, []⟩
    | some _ =>
      let r := deployLoop d resTargets st
      ⟨r.outcome, r.state, Step.Errorf "Failed to list targets due to %s" none e :: r.log⟩

/-- The Targets resources on which `Create` was invoked, in the order of the
calls. -/
def createCalls {ε : Type} (log : List (Step ε)) : List model.Targets :=
  log.filterMap (fun step =>
    match step with
    | Step.Create targets _ => some targets
    | _ => none)

/-- The Targets resources whose `Create` returned nil, in the order of the
calls. -/
def created {ε : Type} (log : List (Step ε)) : List model.Targets :=
  log.filterMap (fun step =>
    match step with
    | Step.Create targets none => some targets
    | _ => none)

/-- The arguments (key, route name, target list) of the ledger updates, in the
order of the calls. -/
def ledgerUpdates {ε : Type} (log : List (Step ε)) :
    List (String × String × List latticestore.Target) :=
  log.filterMap (fun step =>
    match step with
    | Step.UpdateTargetsForTargetGroup tgName routeName targetList _ =>
      some (tgName, routeName, targetList)
    | _ => none)

/-- The ledger update that `Deploy` owes a Targets resource: the key
TargetGroupName(spec name, spec namespace), the spec's route name, no target. -/
def ledgerUpdateOf {σ ε : Type} (d : Deployer σ ε) (targets : model.Targets) :
    String × String × List latticestore.Target :=
  (d.collaborators.TargetGroupName targets.Spec.Name targets.Spec.Namespace,
    targets.Spec.RouteName, [])

/-- Collaborators for the examples: `Create` fails for the resource "bad", the
ledger update always fails, and the world counts the calls. -/
def exampleCollaborators : Collaborators Nat String where
  ListResources := fun stack => (stack.resources, none)
  Create := fun targets n =>
    (if targets.id = "bad" then some "create failed" else none, n + 1)
  TargetGroupName := fun name namespace_ => "k8s-" ++ name ++ "-" ++ namespace_
  UpdateTargetsForTargetGroup := fun _ _ _ n => (some "update failed", n + 1)

/-- Collaborators for the examples: `Create` fails for the resource "bad", the
ledger update fails for the key "k8s-svc-c-default" only, and the world counts
the calls. -/
def lastUpdateFails : Collaborators Nat String where
  ListResources := fun stack => (stack.resources, none)
  Create := fun targets n =>
    (if targets.id = "bad" then some "create failed" else none, n + 1)
  TargetGroupName := fun name namespace_ => "k8s-" ++ name ++ "-" ++ namespace_
  UpdateTargetsForTargetGroup := fun tgName _routeName _targetList n =>
    if tgName = "k8s-svc-c-default" then (some "update failed", n + 1) else (none, n + 1)

/-- Collaborators for the examples: `Create` fails for the resource "bad", every
ledger update succeeds, and the world counts the calls. -/
def createFailsForBad : Collaborators Nat String where
  ListResources := fun stack => (stack.resources, none)
  Create := fun targets n =>
    (if targets.id = "bad" then some "create failed" else none, n + 1)
  TargetGroupName := fun name namespace_ => "k8s-" ++ name ++ "-" ++ namespace_
  UpdateTargetsForTargetGroup := fun _ _ _ n => (none, n + 1)

/-- Collaborators for the examples: `ListResources` returns an error and leaves
`resTargets` empty; every other call succeeds. -/
def listingFails : Collaborators Nat String where
  ListResources := fun _ => ([], some "list failed")
  Create := fun _ n => (none, n + 1)
  TargetGroupName := fun name namespace_ => "k8s-" ++ name ++ "-" ++ namespace_
  UpdateTargetsForTargetGroup := fun _ _ _ n => (none, n + 1)

/-- A deployer whose field `log` is set, as the other constructors of the file
set theirs. -/
def loggingDeployer : Deployer Nat String :=
  { log := some ⟨"controller"⟩, collaborators := lastUpdateFails }

/-- A stack with three Targets resources, the second of which is "bad". -/
def exampleStack : core.Stack :=
  ⟨⟨"default", "svc"⟩,
    [⟨"a", ⟨"svc-a", "default", "route", [⟨"10.0.0.1", 80⟩]⟩⟩,
     ⟨"bad", ⟨"svc-b", "default", "route", [⟨"10.0.0.2", 80⟩]⟩⟩,
     ⟨"c", ⟨"svc-c", "default", "route", []⟩⟩]⟩

end latticeTargetsStackDeployer

/-! ## Definitions: `controllers/serviceexport_controller.go` -/

namespace serviceExportReconciler

/-- The constant `corev1.EventTypeWarning`. -/
def EventTypeWarning : String := "Warning"

/-- The constant `k8s.GatewayEventReasonFailedBuildModel` (`pkg/k8s/events.go`). -/
def GatewayEventReasonFailedBuildModel : String := "FailedBuildModel"

/-- The constant `k8s.ServiceExportEventReasonFailedDeployModel`. -/
def ServiceExportEventReasonFailedDeployModel : String := "FailedDeployModel"

/-- The collaborators of the reconciler that `buildAndDeployModel` uses:
`modelBuilder.Build` (stack and error; the target group is discarded),
`stackMarshaller.Marshal` (the error; the text is discarded),
`stackDeployer.Deploy`, and the method `Error()` of error values, used by the
`%s` verb. -/
structure Collaborators (σ S ε : Type) where
  Build : mcsv1alpha1.ServiceExport → σ → (S × Option ε) × σ
  Marshal : S → σ → Option ε × σ
  Deploy : S → σ → Option ε × σ
  errorText : ε → String

/-- A call or a recorded event of `buildAndDeployModel`. -/
inductive Step (S ε : Type) where
  | Build (stack : S) (err : Option ε)
  | Event (eventtype : String) (reason : String) (message : String)
  | Marshal (stack : S) (err : Option ε)
  | Deploy (stack : S) (err : Option ε)
  deriving DecidableEq, Repr

/-- Outcome of `buildAndDeployModel`: the returned `error`, the final world,
the calls and events, in order. -/
structure Run (σ S ε : Type) where
  err : Option ε
  state : σ
  log : List (Step S ε)

/-- The method `serviceExportReconciler.buildAndDeployModel`. -/
def buildAndDeployModel {σ S ε : Type} (r : Collaborators σ S ε)
    (srvExport : mcsv1alpha1.ServiceExport) (st : σ) : Run σ S ε :=
  let built := r.Build srvExport st
  let stack := built.1.1
  let buildSteps : List (Step S ε) :=
    match built.1.2 with
    | some e =>
      [Step.Build stack (some e),
       Step.Event EventTypeWarning GatewayEventReasonFailedBuildModel
        ("Failed BuildModel due to " ++ r.errorText e)]
    | none => [Step.Build stack none]
  let marshalled := r.Marshal stack built.2
  let err := marshalled.1
  let deployed := r.Deploy stack marshalled.2
  match deployed.1 with
  | some e =>
    ⟨some e, deployed.2,
      buildSteps ++ [Step.Marshal stack err, Step.Deploy stack (some e),
        Step.Event EventTypeWarning ServiceExportEventReasonFailedDeployModel
          ("Failed deploy model due to " ++ r.errorText e)]⟩
  | none =>
    ⟨err, deployed.2, buildSteps ++ [Step.Marshal stack err, Step.Deploy stack none]⟩

/-- Collaborators for the examples: `Build` fails and returns the stack 7,
`Marshal` and `Deploy` succeed. -/
def buildFails : Collaborators Nat Nat String where
  Build := fun _ n => ((7, some "build failed"), n + 1)
  Marshal := fun _ n => (none, n + 1)
  Deploy := fun _ n => (none, n + 1)
  errorText := fun e => e

/-- A service export without entries in its map. -/
def exampleExport : mcsv1alpha1.ServiceExport := ⟨fun _ => none⟩

end serviceExportReconciler

/-! ## Definitions: the service synthesizer (`pkg/deploy/lattice`) -/

namespace model

/-- The fields of `model.ServiceSpec` the service synthesizer test sets. -/
structure ServiceSpec where
  Name : String
  Namespace : String
  IsDeleted : Bool
  deriving DecidableEq, Repr

/-- The resource `model.Service`. -/
structure Service where
  Spec : ServiceSpec
  deriving DecidableEq, Repr

/-- The struct `model.ServiceStatus`. -/
structure ServiceStatus where
  Arn : String
  Id : String
  deriving DecidableEq, Repr

end model

namespace serviceSynthesizer

/-- The managers given to `NewServiceSynthesizer`: `ServiceManager.Create` and
`ServiceManager.Delete` (`service_manager_mock.go`) and
`DnsEndpointManager.Create`. -/
structure Managers (σ ε : Type) where
  Create : model.Service → σ → (model.ServiceStatus × Option ε) × σ
  Delete : model.Service → σ → Option ε × σ
  DnsCreate : model.Service → σ → Option ε × σ

/-- A manager call made by `Synthesize`. -/
inductive Call where
  | ServiceManagerCreate (service : model.Service)
  | ServiceManagerDelete (service : model.Service)
  | DnsEndpointManagerCreate
  deriving DecidableEq, Repr

/-- Outcome of `Synthesize`: the returned `error`, the final world, the manager
calls made. -/
structure Run (σ ε : Type) where
  err : Option ε
  state : σ
  calls : List Call

/-- Modelled from the spec: the treatment of one Service resource by the service
synthesizer, whose file `service_synthesizer.go` is not among the sources
(section 4.3: Synthesize applies creates, updates and deletes through its
manager and returns a failure to the caller).  The calls are those
`Test_SynthesizeService` expects: `Delete` alone for a deleted service; `Create`
otherwise, followed by the DNS `Create` when it succeeded.  The test only asks
for a non-nil error on failure; the model returns the failing call's error. -/
def synthesizeService {σ ε : Type} (m : Managers σ ε) (service : model.Service) (st : σ) :
    Run σ ε :=
  if service.Spec.IsDeleted then
    let deleted := m.Delete service st
    ⟨deleted.1, deleted.2, [Call.ServiceManagerDelete service]⟩
  else
    let createdService := m.Create service st
    match createdService.1.2 with
    | some e => ⟨some e, createdService.2, [Call.ServiceManagerCreate service]⟩
    | none =>
      let dns := m.DnsCreate service createdService.2
      ⟨dns.1, dns.2, [Call.ServiceManagerCreate service, Call.DnsEndpointManagerCreate]⟩

/-- Modelled from the spec: `serviceSynthesizer.Synthesize` on the Service
resources of its stack, defined in the absent `service_synthesizer.go`.  The
test fixes the run for a stack holding one Service; for other stacks the result
is `none`. -/
def Synthesize {σ ε : Type} (m : Managers σ ε) (services : List model.Service) (st : σ) :
    Option (Run σ ε) :=
  match services with
  | [service] => some (synthesizeService m service st)
  | _ => none

/-- Managers as in the test case "Add LatticeService, getting error registering
DNS": the service manager succeeds, the DNS manager fails. -/
def dnsFails : Managers Nat String where
  Create := fun _ n => ((⟨"arn1234", "56789"⟩, none), n + 1)
  Delete := fun _ n => (none, n + 1)
  DnsCreate := fun _ n => (some "Failed registering DNS", n + 1)

end serviceSynthesizer

/-! ## Theorems: `deploy` -/

namespace StackDeployer

theorem synthesizeLoop_all_nil {σ ε : Type} (ss : List (ResourceSynthesizer σ ε))
    (h : ∀ s ∈ ss, ∀ x, (s.Synthesize x).1 = none) (i : Nat) (st : σ) :
    (synthesizeLoop ss i st).err = none ∧
      (synthesizeLoop ss i st).log =
        (List.range' i ss.length).map (fun j => ⟨Call.Synthesize j, none⟩) := by
  induction ss generalizing i st with
  | nil => simp [synthesizeLoop]
  | cons s rest ih =>
    have hs := h s (List.mem_cons_self _ _) st
    have ih1 := ih (fun t ht => h t (List.mem_cons_of_mem _ ht)) (i + 1) (s.Synthesize st).2
    rcases hst : s.Synthesize st with ⟨e, st1⟩
    rw [hst] at hs ih1
    simp only at hs
    subst hs
    simp [synthesizeLoop, hst, ih1.1, ih1.2, List.range'_succ]

theorem postSynthesizeLoop_all_nil {σ ε : Type} (ss : List (ResourceSynthesizer σ ε))
    (h : ∀ s ∈ ss, ∀ x, (s.PostSynthesize x).1 = none) (n : Nat) (hn : n ≤ ss.length)
    (st : σ) :
    (postSynthesizeLoop ss n hn st).err = none ∧
      (postSynthesizeLoop ss n hn st).log =
        (List.range n).reverse.map (fun j => ⟨Call.PostSynthesize j, none⟩) := by
  induction n generalizing st with
  | zero => simp [postSynthesizeLoop]
  | succ n ih =>
    have hs := h (ss.get ⟨n, hn⟩) (List.get_mem _ _ _) st
    have ih1 := ih (Nat.le_of_succ_le hn) ((ss.get ⟨n, hn⟩).PostSynthesize st).2
    rcases hst : (ss.get ⟨n, hn⟩).PostSynthesize st with ⟨e, st1⟩
    rw [hst] at hs ih1
    simp only at hs
    subst hs
    rw [postSynthesizeLoop, hst]
    simp [ih1.1, ih1.2, List.range_succ]

theorem pipeline_nodup (n : Nat) : (pipeline n).Nodup := by
  unfold pipeline
  rw [List.nodup_append]
  refine ⟨?_, ?_, ?_⟩
  · exact (List.nodup_range n).map (fun a b hab => by injection hab)
  · exact (List.nodup_reverse.mpr (List.nodup_range n)).map (fun a b hab => by injection hab)
  · intro c h1 h2
    simp only [List.mem_map] at h1 h2
    obtain ⟨a, _, rfl⟩ := h1
    obtain ⟨b, _, hb⟩ := h2
    cases hb

/-- C1: if every Synthesize and every PostSynthesize call of the synthesizers
returns nil, `deploy` returns nil and the calls it makes are exactly
s1.Synthesize, ..., sn.Synthesize, sn.PostSynthesize, ..., s1.PostSynthesize in
that order, each once; for the empty list it makes no call. -/
theorem deploy_all_succeed {σ ε : Type} (ss : List (ResourceSynthesizer σ ε)) (st : σ)
    (h : ∀ s ∈ ss, ∀ x, (s.Synthesize x).1 = none ∧ (s.PostSynthesize x).1 = none) :
    (deploy ss st).err = none ∧
      (deploy ss st).log.map (fun inv => inv.call) =
        (List.range ss.length).map Call.Synthesize ++
          (List.range ss.length).reverse.map Call.PostSynthesize ∧
      ((deploy ss st).log.map (fun inv => inv.call)).Nodup ∧
      (∀ inv ∈ (deploy ss st).log, inv.result = none) ∧
      (ss = [] → (deploy ss st).log = []) := by
  have hf := synthesizeLoop_all_nil ss (fun s hs x => (h s hs x).1) 0 st
  have hp := postSynthesizeLoop_all_nil ss (fun s hs x => (h s hs x).2) ss.length
    (Nat.le_refl _) (synthesizeLoop ss 0 st).state
  have herr : (deploy ss st).err = none := by
    simp only [deploy]
    rw [hf.1]
    exact hp.1
  have hlog : (deploy ss st).log =
      (List.range ss.length).map (fun j => ⟨Call.Synthesize j, none⟩) ++
        (List.range ss.length).reverse.map (fun j => ⟨Call.PostSynthesize j, none⟩) := by
    simp only [deploy]
    rw [hf.1]
    simp only
    rw [hf.2, hp.2, List.range_eq_range']
  have hcalls : (deploy ss st).log.map (fun inv => inv.call) = pipeline ss.length := by
    rw [hlog]
    simp [pipeline, Function.comp_def]
  refine ⟨herr, ?_, ?_, ?_, ?_⟩
  · rw [hcalls]; rfl
  · rw [hcalls]; exact pipeline_nodup _
  · intro inv hinv
    rw [hlog] at hinv
    simp only [List.mem_append, List.mem_map] at hinv
    rcases hinv with ⟨j, _, rfl⟩ | ⟨j, _, rfl⟩ <;> rfl
  · intro hnil
    rw [hlog, hnil]
    rfl

/-- Witness for C1: two succeeding synthesizers. -/
theorem deploy_all_succeed_witness :
    (∀ s ∈ succeedingSynthesizers, ∀ x,
        (s.Synthesize x).1 = none ∧ (s.PostSynthesize x).1 = none) ∧
      (deploy succeedingSynthesizers 0).err = none ∧
      (deploy succeedingSynthesizers 0).log.map (fun inv => inv.call) =
        [Call.Synthesize 0, Call.Synthesize 1, Call.PostSynthesize 1, Call.PostSynthesize 0] :=
  have h : ∀ s ∈ succeedingSynthesizers, ∀ x,
      (s.Synthesize x).1 = none ∧ (s.PostSynthesize x).1 = none := by
    simp [succeedingSynthesizers]
  ⟨h, (deploy_all_succeed succeedingSynthesizers 0 h).1,
    (deploy_all_succeed succeedingSynthesizers 0 h).2.1⟩

theorem stopsAtFirstError_cons {ε : Type} (c : Call) (seq : List Call) (err : Option ε)
    (log : List (Invocation ε)) (h : StopsAtFirstError seq err log) :
    StopsAtFirstError (c :: seq) err (⟨c, none⟩ :: log) := by
  rcases h with ⟨h1, h2⟩ | ⟨k, d, e, h1, h2, h3⟩
  · exact Or.inl ⟨h1, by simp [h2]⟩
  · exact Or.inr ⟨k + 1, d, e, by simpa using h1, h2, by simp [h3]⟩

theorem stopsAtFirstError_here {ε : Type} (c : Call) (seq : List Call) (e : ε) :
    StopsAtFirstError (c :: seq) (some e) [⟨c, some e⟩] :=
  Or.inr ⟨0, c, e, by simp, rfl, by simp⟩

theorem stopsAtFirstError_append_failed {ε : Type} (seq1 seq2 : List Call) (e : ε)
    (log : List (Invocation ε)) (h : StopsAtFirstError seq1 (some e) log) :
    StopsAtFirstError (seq1 ++ seq2) (some e) log := by
  rcases h with ⟨h1, _⟩ | ⟨k, d, e1, h1, h2, h3⟩
  · cases h1
  · have hk : k < seq1.length := by
      rcases Nat.lt_or_ge k seq1.length with hlt | hge
      · exact hlt
      · rw [List.getElem?_eq_none hge] at h1
        cases h1
    refine Or.inr ⟨k, d, e1, ?_, h2, ?_⟩
    · rw [List.getElem?_append_left hk]
      exact h1
    · rw [List.take_append_of_le_length (Nat.le_of_lt hk)]
      exact h3

theorem stopsAtFirstError_append_ok {ε : Type} (seq1 seq2 : List Call) (err : Option ε)
    (log : List (Invocation ε)) (h : StopsAtFirstError seq2 err log) :
    StopsAtFirstError (seq1 ++ seq2) err (seq1.map (fun c => ⟨c, none⟩) ++ log) := by
  induction seq1 with
  | nil => simpa using h
  | cons c rest ih => exact stopsAtFirstError_cons c _ err _ ih

theorem synthesizeLoop_stops {σ ε : Type} (ss : List (ResourceSynthesizer σ ε)) (i : Nat)
    (st : σ) :
    StopsAtFirstError ((List.range' i ss.length).map Call.Synthesize)
      (synthesizeLoop ss i st).err (synthesizeLoop ss i st).log := by
  induction ss generalizing i st with
  | nil => exact Or.inl ⟨rfl, rfl⟩
  | cons s rest ih =>
    rcases hst : s.Synthesize st with ⟨_ | e, st1⟩
    · have ih1 := ih (i + 1) st1
      simp only [synthesizeLoop, hst, List.length_cons, List.range'_succ, List.map_cons]
      exact stopsAtFirstError_cons _ _ _ _ ih1
    · simp only [synthesizeLoop, hst, List.length_cons, List.range'_succ, List.map_cons]
      exact stopsAtFirstError_here _ _ e

theorem postSynthesizeLoop_stops {σ ε : Type} (ss : List (ResourceSynthesizer σ ε))
    (n : Nat) (hn : n ≤ ss.length) (st : σ) :
    StopsAtFirstError ((List.range n).reverse.map Call.PostSynthesize)
      (postSynthesizeLoop ss n hn st).err (postSynthesizeLoop ss n hn st).log := by
  induction n generalizing st with
  | zero => exact Or.inl ⟨rfl, rfl⟩
  | succ n ih =>
    have hseq : (List.range (n + 1)).reverse.map Call.PostSynthesize =
        Call.PostSynthesize n :: (List.range n).reverse.map Call.PostSynthesize := by
      simp [List.range_succ]
    rw [hseq, postSynthesizeLoop]
    rcases hst : (ss.get ⟨n, hn⟩).PostSynthesize st with ⟨_ | e, st1⟩
    · exact stopsAtFirstError_cons _ _ _ _ (ih (Nat.le_of_succ_le hn) st1)
    · exact stopsAtFirstError_here _ _ e

theorem deploy_stops {σ ε : Type} (ss : List (ResourceSynthesizer σ ε)) (st : σ) :
    StopsAtFirstError (pipeline ss.length) (deploy ss st).err (deploy ss st).log := by
  have hf := synthesizeLoop_stops ss 0 st
  rw [← List.range_eq_range'] at hf
  rcases herr : (synthesizeLoop ss 0 st).err with _ | e
  · have hp := postSynthesizeLoop_stops ss ss.length (Nat.le_refl _)
      (synthesizeLoop ss 0 st).state
    have hlog : (synthesizeLoop ss 0 st).log =
        ((List.range ss.length).map Call.Synthesize).map (fun c => ⟨c, none⟩) := by
      rw [herr] at hf
      rcases hf with ⟨_, h2⟩ | ⟨k, d, e, _, h2, _⟩
      · exact h2
      · cases h2
    simp only [deploy, herr, hlog]
    exact stopsAtFirstError_append_ok _ _ _ _ hp
  · rw [herr] at hf
    simp only [deploy, herr]
    exact stopsAtFirstError_append_failed _ _ e _ hf

theorem pipeline_synthesize_index (n k i : Nat)
    (h : (pipeline n)[k]? = some (Call.Synthesize i)) : k < n := by
  rcases Nat.lt_or_ge k n with hlt | hge
  · exact hlt
  · exfalso
    have hlen : ((List.range n).map Call.Synthesize).length ≤ k := by simpa using hge
    unfold pipeline at h
    rw [List.getElem?_append_right hlen] at h
    have hmem := List.getElem?_mem h
    simp only [List.mem_map] at hmem
    obtain ⟨j, _, hj⟩ := hmem
    cases hj

/-- C2: if some call made by `deploy` returns an error, then the calls made are
an initial segment of s1.Synthesize, ..., sn.Synthesize, sn.PostSynthesize, ...,
s1.PostSynthesize ending with the failing call `c`: every call before `c`
returned nil, `deploy` returns the error of `c`, and nothing after `c` is
invoked; when `c` is a Synthesize call no PostSynthesize is invoked at all. -/
theorem deploy_first_error {σ ε : Type} (ss : List (ResourceSynthesizer σ ε)) (st : σ)
    (h : ∃ inv ∈ (deploy ss st).log, inv.result ≠ none) :
    ∃ k c e, (pipeline ss.length)[k]? = some c ∧ (deploy ss st).err = some e ∧
      (deploy ss st).log =
        ((pipeline ss.length).take k).map (fun c => ⟨c, none⟩) ++ [⟨c, some e⟩] ∧
      ((∃ i, c = Call.Synthesize i) →
        ∀ inv ∈ (deploy ss st).log, ∃ j, inv.call = Call.Synthesize j) := by
  rcases deploy_stops ss st with ⟨_, h2⟩ | ⟨k, c, e, h1, h2, h3⟩
  · exfalso
    obtain ⟨inv, hinv, hres⟩ := h
    rw [h2] at hinv
    simp only [List.mem_map] at hinv
    obtain ⟨d, _, rfl⟩ := hinv
    exact hres rfl
  · refine ⟨k, c, e, h1, h2, h3, ?_⟩
    rintro ⟨i, rfl⟩ inv hinv
    have hk := pipeline_synthesize_index _ _ _ h1
    have hle : k ≤ ((List.range ss.length).map Call.Synthesize).length := by
      simpa using Nat.le_of_lt hk
    rw [h3] at hinv
    simp only [List.mem_append, List.mem_map, List.mem_singleton] at hinv
    rcases hinv with ⟨d, hd, rfl⟩ | rfl
    · unfold pipeline at hd
      rw [List.take_append_of_le_length hle] at hd
      have hd1 := List.mem_of_mem_take hd
      simp only [List.mem_map] at hd1
      obtain ⟨j, _, rfl⟩ := hd1
      exact ⟨j, rfl⟩
    · exact ⟨i, rfl⟩

/-- Witness for C2: the second of three synthesizers fails in PostSynthesize. -/
theorem deploy_first_error_witness :
    (∃ inv ∈ (deploy failingSynthesizers 0).log, inv.result ≠ none) ∧
      ∃ k c e, (pipeline failingSynthesizers.length)[k]? = some c ∧
        (deploy failingSynthesizers 0).err = some e ∧
        (deploy failingSynthesizers 0).log =
          ((pipeline failingSynthesizers.length).take k).map (fun c => ⟨c, none⟩) ++
            [⟨c, some e⟩] ∧
        ((∃ i, c = Call.Synthesize i) →
          ∀ inv ∈ (deploy failingSynthesizers 0).log, ∃ j, inv.call = Call.Synthesize j) :=
  have h : ∃ inv ∈ (deploy failingSynthesizers 0).log, inv.result ≠ none :=
    ⟨⟨Call.PostSynthesize 1, some "post failed"⟩, by decide, by decide⟩
  ⟨h, deploy_first_error failingSynthesizers 0 h⟩

end StackDeployer

/-! ## Theorems: `latticeServiceStackDeployer.Deploy` -/

namespace latticeServiceStackDeployer

theorem andThen_stops {σ ε : Type} (seq : List Stage) (r : Run σ ε) (stage : Stage)
    (f : σ → Option ε × σ) (h : StopsAtFirstError seq r) :
    StopsAtFirstError (seq ++ [stage]) (andThen r stage f) := by
  rcases h with ⟨h1, h2⟩ | ⟨k, s, e, h1, h2, h3⟩
  · rcases hf : (f r.state).1 with _ | e
    · left
      simp [andThen, h1, h2, hf]
    · right
      refine ⟨seq.length, stage, e, by simp, by simp [andThen, h1, hf], ?_⟩
      simp [andThen, h1, h2, hf]
  · have hk : k < seq.length := by
      rcases Nat.lt_or_ge k seq.length with hlt | hge
      · exact hlt
      · rw [List.getElem?_eq_none hge] at h1
        cases h1
    right
    refine ⟨k, s, e, ?_, by simp [andThen, h2], ?_⟩
    · rw [List.getElem?_append_left hk]
      exact h1
    · rw [List.take_append_of_le_length (Nat.le_of_lt hk)]
      simp [andThen, h2, h3]

theorem Deploy_stops {σ ε : Type} (d : Synthesizers σ ε) (st : σ) :
    StopsAtFirstError stages (Deploy d st) := by
  have h0 : StopsAtFirstError [] (⟨none, st, []⟩ : Run σ ε) := Or.inl ⟨rfl, rfl⟩
  have h1 := andThen_stops _ _ Stage.SynthesizeTriggeredTargetGroupsCreation
    d.targetGroupSynthesizer.SynthesizeTriggeredTargetGroupsCreation h0
  have h2 := andThen_stops _ _ Stage.TargetsSynthesize d.targetsSynthesizer.Synthesize h1
  have h3 := andThen_stops _ _ Stage.ServiceSynthesize d.serviceSynthesizer.Synthesize h2
  have h4 := andThen_stops _ _ Stage.ListenerSynthesize d.listenerSynthesizer.Synthesize h3
  have h5 := andThen_stops _ _ Stage.RuleSynthesize d.ruleSynthesizer.Synthesize h4
  have h6 := andThen_stops _ _ Stage.SynthesizeTriggeredTargetGroupsDeletion
    d.targetGroupSynthesizer.SynthesizeTriggeredTargetGroupsDeletion h5
  exact andThen_stops _ _ Stage.SynthesizeSDKTargetGroups
    d.targetGroupSynthesizer.SynthesizeSDKTargetGroups h6

theorem stages_index_lt (k : Nat) (s : Stage) (h : stages[k]? = some s) : k < 7 := by
  rcases Nat.lt_or_ge k 7 with hlt | hge
  · exact hlt
  · rw [List.getElem?_eq_none (by simpa [stages] using hge)] at h
    cases h

theorem runStages_failed {σ ε : Type} (calls : List (Stage × (σ → Option ε × σ)))
    (r : Run σ ε) (e : ε) (hr : r.err = some e) : runStages calls r = r := by
  induction calls with
  | nil => rfl
  | cons call rest ih =>
    have h : andThen r call.1 call.2 = r := by simp [andThen, hr]
    show runStages rest (andThen r call.1 call.2) = r
    rw [h]
    exact ih

theorem runStages_spec {σ ε : Type} (calls : List (Stage × (σ → Option ε × σ)))
    (r : Run σ ε) (hr : r.err = none) :
    ((∀ c ∈ threadResults calls r.state, c.result = none) →
        (runStages calls r).err = none ∧
          (runStages calls r).log = r.log ++ threadResults calls r.state) ∧
      (∀ k s e, (threadResults calls r.state)[k]? = some ⟨s, some e⟩ →
        (∀ c ∈ (threadResults calls r.state).take k, c.result = none) →
        (runStages calls r).err = some e ∧
          (runStages calls r).log = r.log ++ (threadResults calls r.state).take (k + 1)) := by
  induction calls generalizing r with
  | nil =>
    refine ⟨fun _ => ⟨hr, by simp [runStages, threadResults]⟩, ?_⟩
    intro k s e h
    simp [threadResults] at h
  | cons call rest ih =>
    have hstep : runStages (call :: rest) r = runStages rest (andThen r call.1 call.2) := rfl
    have hthread : threadResults (call :: rest) r.state =
        ⟨call.1, (call.2 r.state).1⟩ :: threadResults rest (call.2 r.state).2 := rfl
    have hand : andThen r call.1 call.2 =
        ⟨(call.2 r.state).1, (call.2 r.state).2, r.log ++ [⟨call.1, (call.2 r.state).1⟩]⟩ := by
      simp [andThen, hr]
    rw [hstep, hthread, hand]
    rcases hres : (call.2 r.state).1 with _ | e0
    · obtain ⟨ihA, ihB⟩ := ih ⟨none, (call.2 r.state).2, r.log ++ [⟨call.1, none⟩]⟩ rfl
      constructor
      · intro hall
        have h := ihA (fun c hc => hall c (List.mem_cons_of_mem _ hc))
        simpa using h
      · intro k s e hk hbefore
        rcases k with _ | k
        · simp at hk
        · have h := ihB k s e (by simpa using hk)
            (fun c hc => hbefore c (by simp [List.take_succ_cons, hc]))
          simpa [List.take_succ_cons] using h
    · constructor
      · intro hall
        have h := hall ⟨call.1, some e0⟩ (List.mem_cons_self _ _)
        cases h
      · intro k s e hk hbefore
        rcases k with _ | k
        · simp only [List.getElem?_cons_zero, Option.some.injEq, StageCall.mk.injEq] at hk
          obtain ⟨hs, he⟩ := hk
          cases he
          rw [runStages_failed _ _ e0 rfl]
          simp
        · have h := hbefore ⟨call.1, some e0⟩ (by simp [List.take_succ_cons])
          cases h

theorem first_failure {ε : Type} (results : List (StageCall ε)) :
    (∀ c ∈ results, c.result = none) ∨
      ∃ k s e, results[k]? = some ⟨s, some e⟩ ∧ ∀ c ∈ results.take k, c.result = none := by
  induction results with
  | nil => exact Or.inl (fun c hc => by cases hc)
  | cons c rest ih =>
    rcases c with ⟨s, _ | e⟩
    · rcases ih with h | ⟨k, s2, e, hk, hbefore⟩
      · left
        intro c hc
        rcases List.mem_cons.1 hc with rfl | hc
        · rfl
        · exact h c hc
      · right
        refine ⟨k + 1, s2, e, by simpa using hk, ?_⟩
        intro c hc
        rw [List.take_succ_cons] at hc
        rcases List.mem_cons.1 hc with rfl | hc
        · rfl
        · exact hbefore c hc
    · right
      exact ⟨0, s, e, by simp, fun c hc => by simp at hc⟩

/-- C3: let `r1` .. `r7` be what the seven stage methods of the deployer return
when called in the fixed order target-group creation, targets, service,
listener, rule, target-group deletion, garbage collection, each from the world
its predecessor left. If all seven return nil, `Deploy` returns nil and has
invoked exactly these seven stages, in that order. If stage `k` is the first to
return an error, `Deploy` has invoked exactly the stages up to `k`, in that
order, and returns that error: no later stage is invoked. `Deploy` returns nil
exactly when all seven stages return nil. In every run the stages invoked are an
initial segment of the fixed order and no stage is invoked twice. -/
theorem Deploy_stage_order {σ ε : Type} (d : Synthesizers σ ε) (st : σ)
    (r1 r2 r3 r4 r5 r6 r7 : Option ε × σ) (results : List (StageCall ε))
    (h1 : d.targetGroupSynthesizer.SynthesizeTriggeredTargetGroupsCreation st = r1)
    (h2 : d.targetsSynthesizer.Synthesize r1.2 = r2)
    (h3 : d.serviceSynthesizer.Synthesize r2.2 = r3)
    (h4 : d.listenerSynthesizer.Synthesize r3.2 = r4)
    (h5 : d.ruleSynthesizer.Synthesize r4.2 = r5)
    (h6 : d.targetGroupSynthesizer.SynthesizeTriggeredTargetGroupsDeletion r5.2 = r6)
    (h7 : d.targetGroupSynthesizer.SynthesizeSDKTargetGroups r6.2 = r7)
    (hresults : results =
      [⟨Stage.SynthesizeTriggeredTargetGroupsCreation, r1.1⟩, ⟨Stage.TargetsSynthesize, r2.1⟩,
       ⟨Stage.ServiceSynthesize, r3.1⟩, ⟨Stage.ListenerSynthesize, r4.1⟩,
       ⟨Stage.RuleSynthesize, r5.1⟩, ⟨Stage.SynthesizeTriggeredTargetGroupsDeletion, r6.1⟩,
       ⟨Stage.SynthesizeSDKTargetGroups, r7.1⟩]) :
    ((∀ c ∈ results, c.result = none) →
        (Deploy d st).err = none ∧ (Deploy d st).log = results) ∧
      (∀ k s e, results[k]? = some ⟨s, some e⟩ →
        (∀ c ∈ results.take k, c.result = none) →
        (Deploy d st).err = some e ∧ (Deploy d st).log = results.take (k + 1)) ∧
      ((Deploy d st).err = none ↔ ∀ c ∈ results, c.result = none) ∧
      (Deploy d st).log.map (fun c => c.stage) = stages.take (Deploy d st).log.length ∧
      ((Deploy d st).log.map (fun c => c.stage)).Nodup ∧
      (∀ c ∈ (Deploy d st).log.dropLast, c.result = none) ∧
      (∀ e, (Deploy d st).err = some e →
        ∃ s, (Deploy d st).log.getLast? = some ⟨s, some e⟩) := by
  have hD : Deploy d st = runStages (stageCalls d) ⟨none, st, []⟩ := rfl
  have hT : threadResults (stageCalls d) st = results := by
    subst h1 h2 h3 h4 h5 h6 h7 hresults
    rfl
  obtain ⟨hA, hB⟩ := runStages_spec (stageCalls d) (⟨none, st, []⟩ : Run σ ε) rfl
  simp only [hT, List.nil_append] at hA hB
  rw [← hD] at hA hB
  refine ⟨hA, hB, ⟨?_, fun hall => (hA hall).1⟩, ?_⟩
  · intro herr
    rcases first_failure results with hall | ⟨k, s, e, hk, hbefore⟩
    · exact hall
    · rw [(hB k s e hk hbefore).1] at herr
      cases herr
  · rcases Deploy_stops d st with ⟨g1, g2⟩ | ⟨k, s, e, g1, g2, g3⟩
    · rw [g1, g2]
      simp [stages]
    · have hk := stages_index_lt k s g1
      rw [g2, g3]
      interval_cases k <;> simp [stages] at g1 <;> subst g1 <;> simp [stages]

/-- C3, witness: with synthesizers whose listener stage fails, `Deploy` invokes
target-group creation, targets, service and listener, returns the listener's
error, and invokes neither the rule stage nor the two target-group stages that
follow. -/
theorem Deploy_stage_order_witness :
    (Deploy listenerFails 0).err = some "listener failed" ∧
      (Deploy listenerFails 0).log =
        [⟨Stage.SynthesizeTriggeredTargetGroupsCreation, none⟩, ⟨Stage.TargetsSynthesize, none⟩,
         ⟨Stage.ServiceSynthesize, none⟩, ⟨Stage.ListenerSynthesize, some "listener failed"⟩] :=
  (Deploy_stage_order listenerFails 0 (none, 1) (none, 2) (none, 3) (some "listener failed", 4)
    (none, 5) (none, 6) (none, 7) _ rfl rfl rfl rfl rfl rfl rfl rfl).2.1 3
      Stage.ListenerSynthesize "listener failed" rfl (by decide)

/-- C4, counterexample: every stage before the garbage-collection sweep returns
nil, the sweep returns an error, and `Deploy` returns that error, not nil. -/
theorem Deploy_sweep_failure_is_returned :
    (Deploy sweepFails 0).log =
        [⟨Stage.SynthesizeTriggeredTargetGroupsCreation, none⟩,
         ⟨Stage.TargetsSynthesize, none⟩, ⟨Stage.ServiceSynthesize, none⟩,
         ⟨Stage.ListenerSynthesize, none⟩, ⟨Stage.RuleSynthesize, none⟩,
         ⟨Stage.SynthesizeTriggeredTargetGroupsDeletion, none⟩,
         ⟨Stage.SynthesizeSDKTargetGroups, some "sweep failed"⟩] ∧
      (Deploy sweepFails 0).err = some "sweep failed" ∧
      ¬ (Deploy sweepFails 0).err = none := by
  refine ⟨rfl, rfl, ?_⟩
  intro h
  cases h

/-- C4, amended: in every run of `Deploy` in which all stages before the sweep
return nil, the sweep `SynthesizeSDKTargetGroups` is invoked as the seventh
stage and `Deploy` returns exactly what the sweep returned: nil when the sweep
returns nil, the sweep's error when it fails. -/
theorem Deploy_returns_sweep_result {σ ε : Type} (d : Synthesizers σ ε) (st : σ)
    (h : ∀ c ∈ (Deploy d st).log,
      c.stage ≠ Stage.SynthesizeSDKTargetGroups → c.result = none) :
    (Deploy d st).log =
      (stages.take 6).map (fun s => ⟨s, none⟩) ++
        [⟨Stage.SynthesizeSDKTargetGroups, (Deploy d st).err⟩] := by
  rcases Deploy_stops d st with ⟨h1, h2⟩ | ⟨k, s, e, h1, h2, h3⟩
  · rw [h1, h2]
    simp [stages]
  · have hk := stages_index_lt k s h1
    have hlast : (⟨s, some e⟩ : StageCall ε) ∈ (Deploy d st).log := by
      rw [h3]
      simp
    have hs := h _ hlast
    rw [h2, h3]
    interval_cases k <;> simp [stages] at h1 <;> subst h1 <;> simp [stages] at hs ⊢

/-- Witness for the amended C4: the run in which only the sweep fails. -/
theorem Deploy_returns_sweep_result_witness :
    (∀ c ∈ (Deploy sweepFails 0).log,
        c.stage ≠ Stage.SynthesizeSDKTargetGroups → c.result = none) ∧
      (Deploy sweepFails 0).log =
        (stages.take 6).map (fun s => ⟨s, none⟩) ++
          [⟨Stage.SynthesizeSDKTargetGroups, (Deploy sweepFails 0).err⟩] :=
  have h : ∀ c ∈ (Deploy sweepFails 0).log,
      c.stage ≠ Stage.SynthesizeSDKTargetGroups → c.result = none := by decide
  ⟨h, Deploy_returns_sweep_result sweepFails 0 h⟩

end latticeServiceStackDeployer

/-! ## Theorems: the target-group manager -/

namespace defaultTargetGroupManager

open vpclattice

/-- C5: when the listed target group bearing the derived name is in state
CreateInProgress or DeleteInProgress, `Create` returns the retryable error
`errors.New(LATTICE_RETRY)` with empty ARN and ID, and the listing is the only
remote call: no create, update or delete call is issued. -/
theorem Create_in_transition_retries (getLatticeTGName : model.TargetGroup → String)
    (lattice : Lattice) (targetGroup : model.TargetGroup)
    (summaries : List TargetGroupSummary) (summary : TargetGroupSummary)
    (hlist : lattice.ListTargetGroupsAsList = Except.ok summaries)
    (hmatch : summaries.find? (fun s => s.Name == getLatticeTGName targetGroup) = some summary)
    (hstate : summary.Status = TargetGroupStatus.CreateInProgress ∨
      summary.Status = TargetGroupStatus.DeleteInProgress) :
    ∃ run, Create getLatticeTGName lattice targetGroup = some run ∧
      run.err = some (Error.New LATTICE_RETRY) ∧
      run.status.TargetGroupARN = "" ∧ run.status.TargetGroupID = "" ∧
      run.calls = [RemoteCall.ListTargetGroupsAsList] ∧
      RemoteCall.CreateTargetGroupWithContext ∉ run.calls ∧
      (∀ hc, RemoteCall.UpdateTargetGroupWithContext hc ∉ run.calls) ∧
      RemoteCall.DeleteTargetGroupWithContext ∉ run.calls := by
  have hrun : Create getLatticeTGName lattice targetGroup =
      some ⟨emptyStatus, some (Error.New LATTICE_RETRY), [RemoteCall.ListTargetGroupsAsList]⟩ := by
    rcases hstate with h | h <;> simp only [Create, hlist, hmatch, h]
  refine ⟨_, hrun, rfl, rfl, rfl, rfl, ?_, ?_, ?_⟩ <;> simp

/-- Witness for C5: the target group "test" listed in state DeleteInProgress. -/
theorem Create_in_transition_retries_witness :
    ∃ run, Create testName (latticeWith vpclattice.TargetGroupStatus.DeleteInProgress)
        testTargetGroup = some run ∧
      run.err = some (Error.New LATTICE_RETRY) ∧
      run.status.TargetGroupARN = "" ∧ run.status.TargetGroupID = "" ∧
      run.calls = [RemoteCall.ListTargetGroupsAsList] ∧
      RemoteCall.CreateTargetGroupWithContext ∉ run.calls ∧
      (∀ hc, RemoteCall.UpdateTargetGroupWithContext hc ∉ run.calls) ∧
      RemoteCall.DeleteTargetGroupWithContext ∉ run.calls :=
  Create_in_transition_retries testName
    (latticeWith vpclattice.TargetGroupStatus.DeleteInProgress) testTargetGroup
    (listingWith vpclattice.TargetGroupStatus.DeleteInProgress)
    ⟨"12345678912345678912", "12345678912345678912", "test",
      vpclattice.TargetGroupStatus.DeleteInProgress⟩
    rfl (by decide) (Or.inr rfl)

theorem deleteTargetGroup_calls (lattice : Lattice) (calls : List RemoteCall) :
    (deleteTargetGroup lattice calls).calls =
      calls ++ [RemoteCall.DeleteTargetGroupWithContext] := by
  unfold deleteTargetGroup
  rcases lattice.DeleteTargetGroupWithContext with _ | e
  · rfl
  · by_cases hnf : isResourceNotFound e = true <;> simp [hnf]

theorem any_not_unused_iff (targets : List vpclattice.TargetSummary) :
    targets.any (fun t => t.Status.isSome && t.Status != some vpclattice.TargetStatus.Unused)
        = true ↔
      ∃ t ∈ targets, ∃ st, t.Status = some st ∧ st ≠ vpclattice.TargetStatus.Unused := by
  simp only [List.any_eq_true, Bool.and_eq_true]
  constructor
  · rintro ⟨t, ht, h1, h2⟩
    rcases hs : t.Status with _ | st
    · rw [hs] at h1
      cases h1
    · refine ⟨t, ht, st, hs, ?_⟩
      rintro rfl
      rw [hs] at h2
      simp at h2
  · rintro ⟨t, ht, st, hs, hne⟩
    refine ⟨t, ht, by simp [hs], ?_⟩
    rw [hs]
    simpa using hne

/-- C6: `Delete` does not invoke the remote DeleteTargetGroup operation when some
listed target has a status other than Unused (a nil status is no status), nor
when a deregister call was issued and its output reports a non-empty
Unsuccessful list; in both cases it returns `errors.New(LATTICE_RETRY)`, and in
the first case the listing is the only remote call, so no deregister call is
issued either. -/
theorem Delete_waits_for_drain (deregisterEmpty : Bool) (lattice : Lattice)
    (targetGroup : model.TargetGroup) (targets : List TargetSummary)
    (hlist : lattice.ListTargetsAsList = Except.ok targets)
    (h : (∃ t ∈ targets, ∃ st, t.Status = some st ∧ st ≠ TargetStatus.Unused) ∨
      (RemoteCall.DeregisterTargetsWithContext ∈
          (Delete deregisterEmpty lattice targetGroup).calls ∧
        ∃ out, lattice.DeregisterTargetsWithContext = Except.ok out ∧
          out.Unsuccessful ≠ [])) :
    (Delete deregisterEmpty lattice targetGroup).err = some (Error.New LATTICE_RETRY) ∧
      RemoteCall.DeleteTargetGroupWithContext ∉
        (Delete deregisterEmpty lattice targetGroup).calls ∧
      ((∃ t ∈ targets, ∃ st, t.Status = some st ∧ st ≠ TargetStatus.Unused) →
        (Delete deregisterEmpty lattice targetGroup).calls = [RemoteCall.ListTargetsAsList]) := by
  by_cases hany : targets.any
      (fun t => t.Status.isSome && t.Status != some TargetStatus.Unused) = true
  · have hrun : Delete deregisterEmpty lattice targetGroup =
        ⟨some (Error.New LATTICE_RETRY), [RemoteCall.ListTargetsAsList]⟩ := by
      simp only [Delete, hlist, hany, if_true]
    rw [hrun]
    exact ⟨rfl, by simp, fun _ => rfl⟩
  · have hnone : ¬ ∃ t ∈ targets, ∃ st, t.Status = some st ∧ st ≠ TargetStatus.Unused :=
      fun hex => hany ((any_not_unused_iff targets).mpr hex)
    rcases h with h | ⟨hcall, out, hout, hun⟩
    · exact absurd h hnone
    · by_cases hskip : (targets.isEmpty && !deregisterEmpty) = true
      · exfalso
        have hrun : Delete deregisterEmpty lattice targetGroup =
            deleteTargetGroup lattice [RemoteCall.ListTargetsAsList] := by
          simp only [Delete, hlist, hany, hskip, if_true]
          simp
        rw [hrun, deleteTargetGroup_calls] at hcall
        simp at hcall
      · have hne : out.Unsuccessful.isEmpty = false := by
          cases hu : out.Unsuccessful with
          | nil => exact absurd hu hun
          | cons a l => rfl
        have hrun : Delete deregisterEmpty lattice targetGroup =
            ⟨some (Error.New LATTICE_RETRY),
              [RemoteCall.ListTargetsAsList, RemoteCall.DeregisterTargetsWithContext]⟩ := by
          simp only [Delete, hlist, hany, hskip, hout, hne]
          simp
        rw [hrun]
        exact ⟨rfl, by simp, fun hex => absurd hex hnone⟩

/-- Witness for C6: a single Healthy target (first case) and a deregistration
reported unsuccessful (second case). -/
theorem Delete_waits_for_drain_witness :
    ((Delete true latticeHealthyTarget testTargetGroup).err = some (Error.New LATTICE_RETRY) ∧
      RemoteCall.DeleteTargetGroupWithContext ∉
        (Delete true latticeHealthyTarget testTargetGroup).calls ∧
      (Delete true latticeHealthyTarget testTargetGroup).calls =
        [RemoteCall.ListTargetsAsList]) ∧
    ((Delete false latticeDeregisterUnsuccessful testTargetGroup).err =
        some (Error.New LATTICE_RETRY) ∧
      RemoteCall.DeleteTargetGroupWithContext ∉
        (Delete false latticeDeregisterUnsuccessful testTargetGroup).calls) :=
  have h1 : ∃ t ∈ [targetWith (some vpclattice.TargetStatus.Healthy)], ∃ st,
      t.Status = some st ∧ st ≠ vpclattice.TargetStatus.Unused :=
    ⟨_, List.mem_singleton.mpr rfl, vpclattice.TargetStatus.Healthy, rfl, by decide⟩
  have r1 := Delete_waits_for_drain true latticeHealthyTarget testTargetGroup
    [targetWith (some vpclattice.TargetStatus.Healthy)] rfl (Or.inl h1)
  have r2 := Delete_waits_for_drain false latticeDeregisterUnsuccessful testTargetGroup
    [targetWith none] rfl
    (Or.inr ⟨by decide, ⟨[], [⟨none, none, "123.456.7.890", 80⟩]⟩, rfl, by decide⟩)
  ⟨⟨r1.1, r1.2.1, r1.2.2 h1⟩, r2.1, r2.2.1⟩

theorem isResourceNotFound_iff (e : Error) :
    isResourceNotFound e = true ↔
      ∃ message, e = Error.awserr vpclattice.ErrCodeResourceNotFoundException message := by
  cases e with
  | New text => simp [isResourceNotFound]
  | awserr code message => simp [isResourceNotFound]

/-- C7: when the listing succeeds with every target drained (status Unused or
nil) and the deregistration succeeds with no unsuccessful entries, `Delete`
issues the remote delete; it returns nil when that call succeeds and also when
it fails with the code ResourceNotFoundException, and it returns any other
error of that call unchanged. -/
theorem Delete_not_found_is_success (deregisterEmpty : Bool) (lattice : Lattice)
    (targetGroup : model.TargetGroup) (targets : List TargetSummary)
    (out : DeregisterTargetsOutput)
    (hlist : lattice.ListTargetsAsList = Except.ok targets)
    (hdrained : ∀ t ∈ targets, t.Status = none ∨ t.Status = some TargetStatus.Unused)
    (hdereg : lattice.DeregisterTargetsWithContext = Except.ok out)
    (hunsuccessful : out.Unsuccessful = []) :
    RemoteCall.DeleteTargetGroupWithContext ∈
        (Delete deregisterEmpty lattice targetGroup).calls ∧
      (lattice.DeleteTargetGroupWithContext = none →
        (Delete deregisterEmpty lattice targetGroup).err = none) ∧
      (∀ message, lattice.DeleteTargetGroupWithContext =
          some (Error.awserr ErrCodeResourceNotFoundException message) →
        (Delete deregisterEmpty lattice targetGroup).err = none) ∧
      (∀ e, lattice.DeleteTargetGroupWithContext = some e →
        (∀ message, e ≠ Error.awserr ErrCodeResourceNotFoundException message) →
        (Delete deregisterEmpty lattice targetGroup).err = some e) := by
  have hany : ¬ targets.any
      (fun t => t.Status.isSome && t.Status != some TargetStatus.Unused) = true := by
    rw [any_not_unused_iff]
    rintro ⟨t, ht, st, hs, hne⟩
    rcases hdrained t ht with h | h
    · rw [h] at hs
      cases hs
    · rw [h] at hs
      injection hs with hs
      exact hne hs.symm
  have hempty : out.Unsuccessful.isEmpty = true := by
    rw [hunsuccessful]
    rfl
  have hrun : ∃ calls, Delete deregisterEmpty lattice targetGroup =
      deleteTargetGroup lattice calls := by
    by_cases hskip : (targets.isEmpty && !deregisterEmpty) = true
    · refine ⟨[RemoteCall.ListTargetsAsList], ?_⟩
      simp only [Delete, hlist, hany, hskip, if_true]
      simp
    · refine ⟨[RemoteCall.ListTargetsAsList, RemoteCall.DeregisterTargetsWithContext], ?_⟩
      simp only [Delete, hlist, hany, hskip, hdereg, hempty]
      simp
  obtain ⟨calls, hrun⟩ := hrun
  rw [hrun]
  refine ⟨by simp [deleteTargetGroup_calls], ?_, ?_, ?_⟩
  · intro hd
    simp [deleteTargetGroup, hd]
  · intro message hd
    simp [deleteTargetGroup, hd, isResourceNotFound]
  · intro e hd hother
    have hnf : ¬ isResourceNotFound e = true := by
      rw [isResourceNotFound_iff]
      rintro ⟨message, rfl⟩
      exact hother message rfl
    simp [deleteTargetGroup, hd, hnf]

/-- Witness for C7: one target without status, deregistered successfully, and a
remote delete answering ResourceNotFoundException. -/
theorem Delete_not_found_is_success_witness :
    RemoteCall.DeleteTargetGroupWithContext ∈
        (Delete true latticeDeleteNotFound testTargetGroup).calls ∧
      (Delete true latticeDeleteNotFound testTargetGroup).err = none :=
  have r := Delete_not_found_is_success true latticeDeleteNotFound testTargetGroup
    [targetWith none] ⟨[], []⟩ rfl (by decide) rfl rfl
  ⟨r.1, r.2.2.1 "" rfl⟩

theorem create_calls (lattice : Lattice) (run : CreateRun) (h : create lattice = some run) :
    run.calls =
      [RemoteCall.ListTargetGroupsAsList, RemoteCall.CreateTargetGroupWithContext] := by
  unfold create at h
  rcases hc : lattice.CreateTargetGroupWithContext with e | out
  · rw [hc] at h
    simp only [Option.some.injEq] at h
    rw [← h]
  · rw [hc] at h
    simp only at h
    split at h <;>
      first
        | (simp only [Option.some.injEq] at h; rw [← h])
        | cases h

/-- C8: when the listing holds no target group bearing the derived name, or the
one bearing it is in state CreateFailed, `Create` issues the listing and then
one remote create call; if the create output is Active it returns the output's
ARN and ID with no error; if the output is CreateInProgress, CreateFailed or
DeleteInProgress it returns the retryable error with empty ARN and ID. -/
theorem Create_absent_or_failed_creates (getLatticeTGName : model.TargetGroup → String)
    (lattice : Lattice) (targetGroup : model.TargetGroup)
    (summaries : List TargetGroupSummary)
    (hlist : lattice.ListTargetGroupsAsList = Except.ok summaries)
    (hmatch : summaries.find? (fun s => s.Name == getLatticeTGName targetGroup) = none ∨
      ∃ summary, summaries.find? (fun s => s.Name == getLatticeTGName targetGroup) =
          some summary ∧ summary.Status = TargetGroupStatus.CreateFailed) :
    (∀ run, Create getLatticeTGName lattice targetGroup = some run →
        run.calls =
          [RemoteCall.ListTargetGroupsAsList, RemoteCall.CreateTargetGroupWithContext]) ∧
      (∀ out, lattice.CreateTargetGroupWithContext = Except.ok out →
        out.Status = TargetGroupStatus.Active →
        Create getLatticeTGName lattice targetGroup =
          some ⟨⟨out.Arn, out.Id⟩, none,
            [RemoteCall.ListTargetGroupsAsList, RemoteCall.CreateTargetGroupWithContext]⟩) ∧
      (∀ out, lattice.CreateTargetGroupWithContext = Except.ok out →
        out.Status = TargetGroupStatus.CreateInProgress ∨
          out.Status = TargetGroupStatus.CreateFailed ∨
          out.Status = TargetGroupStatus.DeleteInProgress →
        Create getLatticeTGName lattice targetGroup =
          some ⟨⟨"", ""⟩, some (Error.New LATTICE_RETRY),
            [RemoteCall.ListTargetGroupsAsList, RemoteCall.CreateTargetGroupWithContext]⟩) := by
  have hrun : Create getLatticeTGName lattice targetGroup = create lattice := by
    rcases hmatch with h | ⟨summary, h, hs⟩
    · simp only [Create, hlist, h]
    · simp only [Create, hlist, h, hs]
  rw [hrun]
  refine ⟨fun run h => create_calls lattice run h, ?_, ?_⟩
  · intro out hout hs
    simp only [create, hout, hs]
  · intro out hout hs
    rcases hs with hs | hs | hs <;> simp only [create, hout, hs] <;> rfl

/-- Witness for C8: "test" is listed in state CreateFailed and the create call
yields an Active target group. -/
theorem Create_absent_or_failed_creates_witness :
    Create testName (latticeWith vpclattice.TargetGroupStatus.CreateFailed) testTargetGroup =
      some ⟨⟨"12345678912345678912", "12345678912345678912"⟩, none,
        [RemoteCall.ListTargetGroupsAsList, RemoteCall.CreateTargetGroupWithContext]⟩ :=
  (Create_absent_or_failed_creates testName
    (latticeWith vpclattice.TargetGroupStatus.CreateFailed) testTargetGroup
    (listingWith vpclattice.TargetGroupStatus.CreateFailed) rfl
    (Or.inr ⟨⟨"12345678912345678912", "12345678912345678912", "test",
      vpclattice.TargetGroupStatus.CreateFailed⟩, by decide, rfl⟩)).2.1
    ⟨"12345678912345678912", "12345678912345678912", "test",
      vpclattice.TargetGroupStatus.Active⟩ rfl rfl

/-- C9: when the listed target group bearing the derived name is Active,
`Create` issues no remote create call; after the listing it issues one remote
update call carrying the desired health-check configuration, or the default for
the protocol version when the desired one is nil; if the update succeeds it
returns the matched summary's ARN and ID with no error, and if the update fails
it returns a non-nil error. -/
theorem Create_active_reconciles_health_check
    (getLatticeTGName : model.TargetGroup → String)
    (lattice : Lattice) (targetGroup : model.TargetGroup)
    (summaries : List TargetGroupSummary) (summary : TargetGroupSummary)
    (hlist : lattice.ListTargetGroupsAsList = Except.ok summaries)
    (hmatch : summaries.find? (fun s => s.Name == getLatticeTGName targetGroup) = some summary)
    (hstate : summary.Status = TargetGroupStatus.Active) :
    ∃ run, Create getLatticeTGName lattice targetGroup = some run ∧
      run.calls = [RemoteCall.ListTargetGroupsAsList,
        RemoteCall.UpdateTargetGroupWithContext
          (targetGroup.Spec.Config.HealthCheckConfig.getD
            (getDefaultHealthCheckConfig targetGroup.Spec.Config.ProtocolVersion))] ∧
      RemoteCall.CreateTargetGroupWithContext ∉ run.calls ∧
      (lattice.UpdateTargetGroupWithContext
          (targetGroup.Spec.Config.HealthCheckConfig.getD
            (getDefaultHealthCheckConfig targetGroup.Spec.Config.ProtocolVersion)) = none →
        run.err = none ∧ run.status = ⟨summary.Arn, summary.Id⟩) ∧
      (lattice.UpdateTargetGroupWithContext
          (targetGroup.Spec.Config.HealthCheckConfig.getD
            (getDefaultHealthCheckConfig targetGroup.Spec.Config.ProtocolVersion)) ≠ none →
        run.err ≠ none) := by
  have hrun : Create getLatticeTGName lattice targetGroup =
      some (update lattice targetGroup summary) := by
    simp only [Create, hlist, hmatch, hstate]
  have hhc : (match targetGroup.Spec.Config.HealthCheckConfig with
      | some hc => hc
      | none => getDefaultHealthCheckConfig targetGroup.Spec.Config.ProtocolVersion) =
      targetGroup.Spec.Config.HealthCheckConfig.getD
        (getDefaultHealthCheckConfig targetGroup.Spec.Config.ProtocolVersion) := by
    cases targetGroup.Spec.Config.HealthCheckConfig <;> rfl
  refine ⟨_, hrun, ?_, ?_, ?_, ?_⟩
  · simp only [update, hhc]
    split <;> rfl
  · simp only [update, hhc]
    split <;> simp
  · intro hu
    simp [update, hhc, hu]
  · intro hu
    simp only [update, hhc]
    split
    · simp
    · rename_i hnone
      exact absurd hnone hu

/-- Witness for C9: "test" is listed Active, the desired health check is nil and
the update succeeds. -/
theorem Create_active_reconciles_health_check_witness :
    ∃ run, Create testName (latticeWith vpclattice.TargetGroupStatus.Active)
        testTargetGroup = some run ∧
      run.calls = [RemoteCall.ListTargetGroupsAsList,
        RemoteCall.UpdateTargetGroupWithContext
          (getDefaultHealthCheckConfig model.ProtocolVersion.unset)] ∧
      run.err = none ∧
      run.status = ⟨"12345678912345678912", "12345678912345678912"⟩ :=
  have r := Create_active_reconciles_health_check testName
    (latticeWith vpclattice.TargetGroupStatus.Active) testTargetGroup
    (listingWith vpclattice.TargetGroupStatus.Active)
    ⟨"12345678912345678912", "12345678912345678912", "test",
      vpclattice.TargetGroupStatus.Active⟩ rfl (by decide) rfl
  r.elim fun run h => ⟨run, h.1, h.2.1, (h.2.2.2.1 rfl).1, (h.2.2.2.1 rfl).2⟩

/-- C10: the default health-check configuration for each target-group protocol
version: enabled for HTTP1 and for the unset version, disabled for HTTP2 and
GRPC; health-check protocol version HTTP1 for HTTP1, unset and GRPC, HTTP2 for
HTTP2; in all four cases interval, timeout and both thresholds are 0, the
matcher is HTTP code "200", the path is "/", the port is unset and the protocol
is HTTP. -/
theorem getDefaultHealthCheckConfig_table :
    getDefaultHealthCheckConfig model.ProtocolVersion.HTTP1 =
        ⟨some true, some 0, some 0, some 0, some 0, some ⟨some "200"⟩, some "/", none,
          some "HTTP", some HealthCheckProtocolVersion.HTTP1⟩ ∧
      getDefaultHealthCheckConfig model.ProtocolVersion.unset =
        ⟨some true, some 0, some 0, some 0, some 0, some ⟨some "200"⟩, some "/", none,
          some "HTTP", some HealthCheckProtocolVersion.HTTP1⟩ ∧
      getDefaultHealthCheckConfig model.ProtocolVersion.HTTP2 =
        ⟨some false, some 0, some 0, some 0, some 0, some ⟨some "200"⟩, some "/", none,
          some "HTTP", some HealthCheckProtocolVersion.HTTP2⟩ ∧
      getDefaultHealthCheckConfig model.ProtocolVersion.GRPC =
        ⟨some false, some 0, some 0, some 0, some 0, some ⟨some "200"⟩, some "/", none,
          some "HTTP", some HealthCheckProtocolVersion.HTTP1⟩ ∧
      ∀ v, (getDefaultHealthCheckConfig v).HealthCheckIntervalSeconds = some 0 ∧
        (getDefaultHealthCheckConfig v).HealthCheckTimeoutSeconds = some 0 ∧
        (getDefaultHealthCheckConfig v).HealthyThresholdCount = some 0 ∧
        (getDefaultHealthCheckConfig v).UnhealthyThresholdCount = some 0 ∧
        (getDefaultHealthCheckConfig v).Matcher = some ⟨some "200"⟩ ∧
        (getDefaultHealthCheckConfig v).Path = some "/" ∧
        (getDefaultHealthCheckConfig v).Port = none ∧
        (getDefaultHealthCheckConfig v).Protocol = some "HTTP" :=
  ⟨rfl, rfl, rfl, rfl, fun _ => ⟨rfl, rfl, rfl, rfl, rfl, rfl, rfl, rfl⟩⟩

end defaultTargetGroupManager

/-! ## Theorems: the targets model builder -/

namespace gateway

theorem foldl_append_flatMap {α β : Type} (f : α → List β) (l : List α) (init : List β) :
    l.foldl (fun acc x => acc ++ f x) init = init ++ l.flatMap f := by
  induction l generalizing init with
  | nil => simp
  | cons x rest ih => simp [ih, List.append_assoc]

theorem foldl_filter_append {α β : Type} (keep : α → Bool) (g : α → β) (l : List α)
    (init : List β) :
    l.foldl (fun acc x => if keep x = true then acc ++ [g x] else acc) init =
      init ++ (l.filter keep).map g := by
  induction l generalizing init with
  | nil => simp
  | cons x rest ih =>
    by_cases hk : keep x = true
    · simp [ih, hk, List.append_assoc]
    · simp [ih, hk]

theorem targetsLoop_eq (servicePortNames : List String) (skipMatch : Bool)
    (subsets : List corev1.EndpointSubset) :
    targetsLoop servicePortNames skipMatch subsets =
      endpointTargets (fun port => decide (port.Name ∈ servicePortNames ∨ skipMatch = true))
        subsets := by
  unfold targetsLoop endpointTargets
  have inner : ∀ (endPoint : corev1.EndpointSubset) (address : corev1.EndpointAddress)
      (init : List model.Target),
      endPoint.Ports.foldl
        (fun targetList port =>
          if port.Name ∈ servicePortNames ∨ skipMatch = true then
            targetList ++ [(⟨address.IP, port.Port⟩ : model.Target)]
          else targetList) init =
      init ++ (endPoint.Ports.filter
        (fun port => decide (port.Name ∈ servicePortNames ∨ skipMatch = true))).map
          (fun port => (⟨address.IP, port.Port⟩ : model.Target)) := by
    intro endPoint address init
    have h := foldl_filter_append
      (fun port : corev1.EndpointPort => decide (port.Name ∈ servicePortNames ∨ skipMatch = true))
      (fun port => (⟨address.IP, port.Port⟩ : model.Target)) endPoint.Ports init
    simpa using h
  simp only [inner]
  have middle : ∀ (endPoint : corev1.EndpointSubset) (init : List model.Target),
      endPoint.Addresses.foldl
        (fun targetList address =>
          targetList ++ (endPoint.Ports.filter
            (fun port => decide (port.Name ∈ servicePortNames ∨ skipMatch = true))).map
              (fun port => (⟨address.IP, port.Port⟩ : model.Target))) init =
      init ++ endPoint.Addresses.flatMap (fun address =>
        (endPoint.Ports.filter
          (fun port => decide (port.Name ∈ servicePortNames ∨ skipMatch = true))).map
            (fun port => (⟨address.IP, port.Port⟩ : model.Target))) := by
    intro endPoint init
    exact foldl_append_flatMap _ _ _
  simp only [middle]
  rw [foldl_append_flatMap]
  simp

theorem servicePortsLoop_fold (definedPorts : List Int) (ports : List corev1.ServicePort)
    (acc : List String × Bool) :
    (∀ name, name ∈ (ports.foldl
        (fun acc port =>
          if port.Port ∈ definedPorts then
            if port.Name ≠ "" then (acc.1 ++ [port.Name], acc.2)
            else (acc.1, true)
          else acc) acc).1 ↔
      name ∈ acc.1 ∨ ∃ p ∈ ports, p.Port ∈ definedPorts ∧ p.Name ≠ "" ∧ p.Name = name) ∧
    ((ports.foldl
        (fun acc port =>
          if port.Port ∈ definedPorts then
            if port.Name ≠ "" then (acc.1 ++ [port.Name], acc.2)
            else (acc.1, true)
          else acc) acc).2 = true ↔
      acc.2 = true ∨ ∃ p ∈ ports, p.Port ∈ definedPorts ∧ p.Name = "") := by
  induction ports generalizing acc with
  | nil => simp
  | cons port rest ih =>
    simp only [List.foldl_cons]
    by_cases hd : port.Port ∈ definedPorts
    · by_cases hn : port.Name = ""
      · have := ih (acc.1, true)
        simp only [hd, hn, if_true, ne_eq, not_true_eq_false, if_false]
        refine ⟨fun name => ?_, ?_⟩
        · rw [this.1 name]
          simp only [List.mem_cons, exists_eq_or_imp, hn]
          simp
        · rw [this.2]
          simp [hd, hn]
      · have := ih (acc.1 ++ [port.Name], acc.2)
        simp only [hd, hn, if_true, ne_eq, not_false_eq_true]
        refine ⟨fun name => ?_, ?_⟩
        · rw [this.1 name]
          simp only [List.mem_append, List.mem_cons, List.not_mem_nil, or_false,
            exists_eq_or_imp, hd, hn, not_false_eq_true, true_and]
          constructor
          · rintro ((h | h) | h)
            · exact Or.inl h
            · exact Or.inr (Or.inl h.symm)
            · exact Or.inr (Or.inr h)
          · rintro (h | h | h)
            · exact Or.inl (Or.inl h)
            · exact Or.inl (Or.inr h.symm)
            · exact Or.inr h
        · rw [this.2]
          simp [hn]
    · have := ih acc
      simp only [hd, if_false]
      refine ⟨fun name => ?_, ?_⟩
      · rw [this.1 name]
        simp [hd]
      · rw [this.2]
        simp [hd]

theorem servicePortsLoop_names (definedPorts : List Int) (ports : List corev1.ServicePort)
    (name : String) :
    name ∈ (servicePortsLoop definedPorts ports).1 ↔
      ∃ p ∈ ports, p.Port ∈ definedPorts ∧ p.Name ≠ "" ∧ p.Name = name := by
  have h := (servicePortsLoop_fold definedPorts ports ([], false)).1 name
  simpa [servicePortsLoop] using h

theorem servicePortsLoop_skip (definedPorts : List Int) (ports : List corev1.ServicePort) :
    (servicePortsLoop definedPorts ports).2 = true ↔
      ∃ p ∈ ports, p.Port ∈ definedPorts ∧ p.Name = "" := by
  have h := (servicePortsLoop_fold definedPorts ports ([], false)).2
  simpa [servicePortsLoop] using h

theorem mem_endpointTargets (keep : corev1.EndpointPort → Bool)
    (subsets : List corev1.EndpointSubset) (target : model.Target) :
    target ∈ endpointTargets keep subsets ↔
      ∃ endPoint ∈ subsets, ∃ address ∈ endPoint.Addresses, ∃ port ∈ endPoint.Ports,
        keep port = true ∧ target = ⟨address.IP, port.Port⟩ := by
  simp only [endpointTargets, List.mem_flatMap, List.mem_map, List.mem_filter]
  constructor
  · rintro ⟨endPoint, he, address, ha, port, ⟨hp, hk⟩, rfl⟩
    exact ⟨endPoint, he, address, ha, port, hp, hk, rfl⟩
  · rintro ⟨endPoint, he, address, ha, port, hp, hk, rfl⟩
    exact ⟨endPoint, he, address, ha, port, ⟨hp, hk⟩, rfl⟩

theorem referenced_guard (tg : latticestore.TargetGroup)
    (href : tg.ByBackendRef = true ∨ tg.ByServiceExport = true) :
    (!tg.ByBackendRef && !tg.ByServiceExport) = false := by
  rcases href with h | h <;> simp [h]

theorem buildLatticeTargets_live (t : latticeTargetsModelBuildTask)
    (tg : latticestore.TargetGroup) (svc : corev1.Service) (endpoints : corev1.Endpoints)
    (htg : t.datastore.GetTargetGroup (t.datastore.TargetGroupName t.tgName t.tgNamespace)
      t.routeName false = Except.ok tg)
    (href : tg.ByBackendRef = true ∨ tg.ByServiceExport = true)
    (hsvc : t.client.GetService ⟨t.tgNamespace, t.tgName⟩ = Except.ok svc)
    (hlive : corev1.IsZero svc.DeletionTimestamp = true)
    (hendpoints : t.client.GetEndpoints ⟨t.tgNamespace, t.tgName⟩ = Except.ok endpoints) :
    buildLatticeTargets t =
      emitTargets t (t.datastore.TargetGroupName t.tgName t.tgNamespace)
        (targetsLoop
          (servicePortsLoop (readDefinedPorts t tg ⟨t.tgNamespace, t.tgName⟩).1 svc.Ports).1
          (if (readDefinedPorts t tg ⟨t.tgNamespace, t.tgName⟩).1.length = 0 then true
            else (servicePortsLoop (readDefinedPorts t tg ⟨t.tgNamespace, t.tgName⟩).1
              svc.Ports).2)
          endpoints.Subsets)
        (ClientGet.Service ⟨t.tgNamespace, t.tgName⟩ ::
          (readDefinedPorts t tg ⟨t.tgNamespace, t.tgName⟩).2 ++
            [ClientGet.Endpoints ⟨t.tgNamespace, t.tgName⟩]) := by
  simp only [buildLatticeTargets, htg, referenced_guard tg href, hsvc, hlive, hendpoints]
  rfl

theorem buildLatticeTargets_deleted (t : latticeTargetsModelBuildTask)
    (tg : latticestore.TargetGroup) (svc : corev1.Service)
    (htg : t.datastore.GetTargetGroup (t.datastore.TargetGroupName t.tgName t.tgNamespace)
      t.routeName false = Except.ok tg)
    (href : tg.ByBackendRef = true ∨ tg.ByServiceExport = true)
    (hsvc : t.client.GetService ⟨t.tgNamespace, t.tgName⟩ = Except.ok svc)
    (hdeleted : corev1.IsZero svc.DeletionTimestamp = false) :
    buildLatticeTargets t =
      emitTargets t (t.datastore.TargetGroupName t.tgName t.tgNamespace) []
        (ClientGet.Service ⟨t.tgNamespace, t.tgName⟩ ::
          (readDefinedPorts t tg ⟨t.tgNamespace, t.tgName⟩).2) := by
  simp only [buildLatticeTargets, htg, referenced_guard tg href, hsvc, hdeleted]
  rfl

theorem readDefinedPorts_reads (t : latticeTargetsModelBuildTask)
    (tg : latticestore.TargetGroup) (key : types.NamespacedName) :
    ∀ read ∈ (readDefinedPorts t tg key).2, read = ClientGet.ServiceExport key := by
  intro read hread
  unfold readDefinedPorts at hread
  split at hread
  · split at hread <;> simpa using hread
  · split at hread <;> simp at hread

/-- C11: when the ledger has no target-group entry for the key
(TargetGroupName(service name, service namespace), route name, false), `Build`
returns a nil stack, nil Targets and a non-nil error, and it makes no cluster
read: neither the Service nor the Endpoints is read. -/
theorem Build_without_ledger_entry (b : LatticeTargetsModelBuilder)
    (service : corev1.Service) (routeName : String) (e : Error)
    (hmissing : b.datastore.GetTargetGroup
      (b.datastore.TargetGroupName service.Name service.Namespace) routeName false =
        Except.error e) :
    (Build b service routeName).stack = none ∧
      (Build b service routeName).targets = none ∧
      (Build b service routeName).err ≠ none ∧
      (Build b service routeName).reads = [] := by
  simp [Build, run, buildLatticeTargets, hmissing]

/-- Witness for C11: a ledger without entries. -/
theorem Build_without_ledger_entry_witness :
    (Build ⟨exampleClient namedService, exampleDatastore none⟩ namedService "route").stack =
        none ∧
      (Build ⟨exampleClient namedService, exampleDatastore none⟩ namedService "route").targets =
        none ∧
      (Build ⟨exampleClient namedService, exampleDatastore none⟩ namedService "route").err ≠
        none ∧
      (Build ⟨exampleClient namedService, exampleDatastore none⟩ namedService "route").reads =
        [] :=
  Build_without_ledger_entry ⟨exampleClient namedService, exampleDatastore none⟩ namedService
    "route" (Error.New "target group not found") rfl

/-- C12: when the Service's target group is in the ledger with ByBackendRef =
false and ByServiceExport = false, `Build` returns a non-nil error and no
Targets resource (and no stack), whatever the cluster holds; the cluster is not
even read. -/
theorem Build_unreferenced_target_group (b : LatticeTargetsModelBuilder)
    (service : corev1.Service) (routeName : String) (tg : latticestore.TargetGroup)
    (hentry : b.datastore.GetTargetGroup
      (b.datastore.TargetGroupName service.Name service.Namespace) routeName false =
        Except.ok tg)
    (hbackend : tg.ByBackendRef = false) (hexport : tg.ByServiceExport = false) :
    (Build b service routeName).err ≠ none ∧
      (Build b service routeName).targets = none ∧
      (Build b service routeName).stack = none ∧
      (Build b service routeName).reads = [] := by
  simp [Build, run, buildLatticeTargets, hentry, hbackend, hexport]

/-- Witness for C12: a ledger entry referenced by nothing. -/
theorem Build_unreferenced_target_group_witness :
    (Build ⟨exampleClient namedService, exampleDatastore (some ⟨false, false⟩)⟩ namedService
        "route").err ≠ none ∧
      (Build ⟨exampleClient namedService, exampleDatastore (some ⟨false, false⟩)⟩ namedService
        "route").targets = none :=
  have r := Build_unreferenced_target_group
    ⟨exampleClient namedService, exampleDatastore (some ⟨false, false⟩)⟩ namedService "route"
    ⟨false, false⟩ rfl rfl rfl
  ⟨r.1, r.2.1⟩

theorem emitTargets_targets (t : latticeTargetsModelBuildTask) (tgName : String)
    (targetList : List model.Target) (reads : List ClientGet) :
    (emitTargets t tgName targetList reads).err = none ∧
      (emitTargets t tgName targetList reads).task.latticeTargets =
        some ⟨tgName, ⟨t.tgName, t.tgNamespace, t.routeName, targetList⟩⟩ ∧
      (emitTargets t tgName targetList reads).task.stack.resources =
        t.stack.resources ++ [⟨tgName, ⟨t.tgName, t.tgNamespace, t.routeName, targetList⟩⟩] ∧
      (emitTargets t tgName targetList reads).reads = reads :=
  ⟨rfl, rfl, rfl, rfl⟩

/-- C13: for a Service not marked for deletion whose ports are all named and a
non-empty set of defined ports, the build succeeds and the built TargetIPList is
exactly the list of (address IP, endpoint port number) pairs, over every
endpoint subset, whose endpoint port name is the name of some Service port whose
number is in the defined set; pairs with any other port name are left out. -/
theorem buildLatticeTargets_named_ports (t : latticeTargetsModelBuildTask)
    (tg : latticestore.TargetGroup) (svc : corev1.Service) (endpoints : corev1.Endpoints)
    (definedPorts : List Int)
    (htg : t.datastore.GetTargetGroup (t.datastore.TargetGroupName t.tgName t.tgNamespace)
      t.routeName false = Except.ok tg)
    (href : tg.ByBackendRef = true ∨ tg.ByServiceExport = true)
    (hsvc : t.client.GetService ⟨t.tgNamespace, t.tgName⟩ = Except.ok svc)
    (hlive : corev1.IsZero svc.DeletionTimestamp = true)
    (hendpoints : t.client.GetEndpoints ⟨t.tgNamespace, t.tgName⟩ = Except.ok endpoints)
    (hports : (readDefinedPorts t tg ⟨t.tgNamespace, t.tgName⟩).1 = definedPorts)
    (hdefined : definedPorts ≠ [])
    (hnamed : ∀ p ∈ svc.Ports, p.Name ≠ "") :
    (buildLatticeTargets t).err = none ∧
      ∃ targets, (buildLatticeTargets t).task.latticeTargets = some targets ∧
        targets.Spec.TargetIPList =
          endpointTargets
            (fun port => decide (∃ sp ∈ svc.Ports, sp.Port ∈ definedPorts ∧ sp.Name = port.Name))
            endpoints.Subsets ∧
        ∀ target, target ∈ targets.Spec.TargetIPList ↔
          ∃ endPoint ∈ endpoints.Subsets, ∃ address ∈ endPoint.Addresses,
            ∃ port ∈ endPoint.Ports,
              (∃ sp ∈ svc.Ports, sp.Port ∈ definedPorts ∧ sp.Name = port.Name) ∧
                target = ⟨address.IP, port.Port⟩ := by
  have hrun := buildLatticeTargets_live t tg svc endpoints htg href hsvc hlive hendpoints
  rw [hports] at hrun
  have hlen : ¬ definedPorts.length = 0 := by
    intro h
    exact hdefined (List.length_eq_zero.mp h)
  have hskip : (servicePortsLoop definedPorts svc.Ports).2 = false := by
    rcases hflag : (servicePortsLoop definedPorts svc.Ports).2 with _ | _
    · rfl
    · obtain ⟨p, hp, _, hname⟩ := (servicePortsLoop_skip definedPorts svc.Ports).mp hflag
      exact absurd hname (hnamed p hp)
  have hkeep : (fun port : corev1.EndpointPort =>
      decide (port.Name ∈ (servicePortsLoop definedPorts svc.Ports).1 ∨ false = true)) =
      (fun port =>
        decide (∃ sp ∈ svc.Ports, sp.Port ∈ definedPorts ∧ sp.Name = port.Name)) := by
    funext port
    rw [decide_eq_decide, servicePortsLoop_names]
    constructor
    · rintro (⟨sp, hsp, hd, _, hn⟩ | h)
      · exact ⟨sp, hsp, hd, hn⟩
      · cases h
    · rintro ⟨sp, hsp, hd, hn⟩
      exact Or.inl ⟨sp, hsp, hd, hnamed sp hsp, hn⟩
  have hlist : targetsLoop (servicePortsLoop definedPorts svc.Ports).1
      (if definedPorts.length = 0 then true else (servicePortsLoop definedPorts svc.Ports).2)
      endpoints.Subsets =
      endpointTargets
        (fun port => decide (∃ sp ∈ svc.Ports, sp.Port ∈ definedPorts ∧ sp.Name = port.Name))
        endpoints.Subsets := by
    rw [if_neg hlen, hskip, targetsLoop_eq, hkeep]
  rw [hrun, hlist]
  refine ⟨rfl, _, rfl, rfl, ?_⟩
  intro target
  show target ∈ endpointTargets _ endpoints.Subsets ↔ _
  rw [mem_endpointTargets]
  simp only [decide_eq_true_eq]

/-- Witness for C13: the ports "http" (80) and "metrics" (9090) are named, the
backend reference asks for port 80, so only the "http" endpoint ports remain. -/
theorem buildLatticeTargets_named_ports_witness :
    (buildLatticeTargets (exampleTask namedService (some ⟨true, false⟩) 80)).err = none ∧
      ∃ targets,
        (buildLatticeTargets (exampleTask namedService (some ⟨true, false⟩) 80)).task.latticeTargets
          = some targets ∧
        targets.Spec.TargetIPList = [⟨"10.0.0.1", 8080⟩, ⟨"10.0.0.2", 8080⟩] :=
  have r := buildLatticeTargets_named_ports (exampleTask namedService (some ⟨true, false⟩) 80)
    ⟨true, false⟩ namedService exampleEndpoints [80] rfl (Or.inl rfl) rfl rfl rfl rfl
    (by decide) (by decide)
  ⟨r.1, r.2.elim fun targets h => ⟨targets, h.1, h.2.1.trans (by decide)⟩⟩

/-- C14: when the set of defined ports is empty and the Service is not marked
for deletion, the build succeeds and the built TargetIPList holds every
(address IP, endpoint port number) pair of every endpoint subset, whatever the
port names of the Service and of the endpoints. -/
theorem buildLatticeTargets_no_port_filter (t : latticeTargetsModelBuildTask)
    (tg : latticestore.TargetGroup) (svc : corev1.Service) (endpoints : corev1.Endpoints)
    (htg : t.datastore.GetTargetGroup (t.datastore.TargetGroupName t.tgName t.tgNamespace)
      t.routeName false = Except.ok tg)
    (href : tg.ByBackendRef = true ∨ tg.ByServiceExport = true)
    (hsvc : t.client.GetService ⟨t.tgNamespace, t.tgName⟩ = Except.ok svc)
    (hlive : corev1.IsZero svc.DeletionTimestamp = true)
    (hendpoints : t.client.GetEndpoints ⟨t.tgNamespace, t.tgName⟩ = Except.ok endpoints)
    (hnone : (readDefinedPorts t tg ⟨t.tgNamespace, t.tgName⟩).1 = []) :
    (buildLatticeTargets t).err = none ∧
      ∃ targets, (buildLatticeTargets t).task.latticeTargets = some targets ∧
        targets.Spec.TargetIPList = endpointTargets (fun _ => true) endpoints.Subsets ∧
        ∀ endPoint ∈ endpoints.Subsets, ∀ address ∈ endPoint.Addresses,
          ∀ port ∈ endPoint.Ports,
            (⟨address.IP, port.Port⟩ : model.Target) ∈ targets.Spec.TargetIPList := by
  have hrun := buildLatticeTargets_live t tg svc endpoints htg href hsvc hlive hendpoints
  rw [hnone] at hrun
  have hlist : targetsLoop (servicePortsLoop [] svc.Ports).1
      (if ([] : List Int).length = 0 then true else (servicePortsLoop [] svc.Ports).2)
      endpoints.Subsets = endpointTargets (fun _ => true) endpoints.Subsets := by
    rw [targetsLoop_eq]
    simp
  rw [hrun, hlist]
  refine ⟨rfl, _, rfl, rfl, ?_⟩
  intro endPoint he address ha port hp
  exact (mem_endpointTargets _ _ _).mpr ⟨endPoint, he, address, ha, port, hp, rfl, rfl⟩

/-- Witness for C14: a backend reference without port (0) on a Service with
named ports keeps all four pairs. -/
theorem buildLatticeTargets_no_port_filter_witness :
    (buildLatticeTargets (exampleTask namedService (some ⟨true, false⟩) 0)).err = none ∧
      ∃ targets,
        (buildLatticeTargets (exampleTask namedService (some ⟨true, false⟩) 0)).task.latticeTargets
          = some targets ∧
        targets.Spec.TargetIPList =
          [⟨"10.0.0.1", 8080⟩, ⟨"10.0.0.1", 9090⟩, ⟨"10.0.0.2", 8080⟩, ⟨"10.0.0.2", 9090⟩] :=
  have r := buildLatticeTargets_no_port_filter (exampleTask namedService (some ⟨true, false⟩) 0)
    ⟨true, false⟩ namedService exampleEndpoints rfl (Or.inl rfl) rfl rfl rfl rfl
  ⟨r.1, r.2.elim fun targets h => ⟨targets, h.1, h.2.1.trans (by decide)⟩⟩

/-- C15, counterexample: a Service not marked for deletion exposes the single
unnamed port 80 and the backend reference asks for port 100; the build succeeds
with an empty TargetIPList although the endpoints hold the pair
("10.0.0.1", 8080). -/
theorem buildLatticeTargets_unnamed_port_filtered :
    unnamedService.Ports = [⟨"", 80⟩] ∧
      corev1.IsZero unnamedService.DeletionTimestamp = true ∧
      (unnamedTask 100).client.GetService ⟨"default", "svc"⟩ = Except.ok unnamedService ∧
      (unnamedTask 100).client.GetEndpoints ⟨"default", "svc"⟩ =
        Except.ok ⟨[⟨[⟨"10.0.0.1"⟩], [⟨"", 8080⟩]⟩]⟩ ∧
      (buildLatticeTargets (unnamedTask 100)).err = none ∧
      (buildLatticeTargets (unnamedTask 100)).task.latticeTargets =
        some ⟨"k8s-svc-default", ⟨"svc", "default", "route", []⟩⟩ :=
  ⟨rfl, rfl, rfl, rfl, by decide, by decide⟩

/-- C15, amended: for a Service not marked for deletion that exposes a single
unnamed port, when the set of defined ports is empty or contains that port's
number, the build succeeds and the built TargetIPList holds every (address IP,
endpoint port number) pair of every endpoint subset. -/
theorem buildLatticeTargets_single_unnamed_port (t : latticeTargetsModelBuildTask)
    (tg : latticestore.TargetGroup) (svc : corev1.Service) (endpoints : corev1.Endpoints)
    (definedPorts : List Int) (number : Int)
    (htg : t.datastore.GetTargetGroup (t.datastore.TargetGroupName t.tgName t.tgNamespace)
      t.routeName false = Except.ok tg)
    (href : tg.ByBackendRef = true ∨ tg.ByServiceExport = true)
    (hsvc : t.client.GetService ⟨t.tgNamespace, t.tgName⟩ = Except.ok svc)
    (hlive : corev1.IsZero svc.DeletionTimestamp = true)
    (hendpoints : t.client.GetEndpoints ⟨t.tgNamespace, t.tgName⟩ = Except.ok endpoints)
    (hports : (readDefinedPorts t tg ⟨t.tgNamespace, t.tgName⟩).1 = definedPorts)
    (hsingle : svc.Ports = [⟨"", number⟩])
    (hmatch : definedPorts = [] ∨ number ∈ definedPorts) :
    (buildLatticeTargets t).err = none ∧
      ∃ targets, (buildLatticeTargets t).task.latticeTargets = some targets ∧
        targets.Spec.TargetIPList = endpointTargets (fun _ => true) endpoints.Subsets ∧
        ∀ endPoint ∈ endpoints.Subsets, ∀ address ∈ endPoint.Addresses,
          ∀ port ∈ endPoint.Ports,
            (⟨address.IP, port.Port⟩ : model.Target) ∈ targets.Spec.TargetIPList := by
  have hrun := buildLatticeTargets_live t tg svc endpoints htg href hsvc hlive hendpoints
  rw [hports] at hrun
  have hskip : (if definedPorts.length = 0 then true
      else (servicePortsLoop definedPorts svc.Ports).2) = true := by
    rcases hmatch with h | h
    · simp [h]
    · have hflag : (servicePortsLoop definedPorts svc.Ports).2 = true :=
        (servicePortsLoop_skip definedPorts svc.Ports).mpr
          ⟨⟨"", number⟩, by simp [hsingle], h, rfl⟩
      simp [hflag]
  have hlist : targetsLoop (servicePortsLoop definedPorts svc.Ports).1
      (if definedPorts.length = 0 then true else (servicePortsLoop definedPorts svc.Ports).2)
      endpoints.Subsets = endpointTargets (fun _ => true) endpoints.Subsets := by
    rw [hskip, targetsLoop_eq]
    simp
  rw [hrun, hlist]
  refine ⟨rfl, _, rfl, rfl, ?_⟩
  intro endPoint he address ha port hp
  exact (mem_endpointTargets _ _ _).mpr ⟨endPoint, he, address, ha, port, hp, rfl, rfl⟩

/-- Witness for the amended C15: the single unnamed port 80 is the port the
backend reference asks for. -/
theorem buildLatticeTargets_single_unnamed_port_witness :
    (buildLatticeTargets (unnamedTask 80)).err = none ∧
      ∃ targets, (buildLatticeTargets (unnamedTask 80)).task.latticeTargets = some targets ∧
        targets.Spec.TargetIPList = [⟨"10.0.0.1", 8080⟩] :=
  have r := buildLatticeTargets_single_unnamed_port (unnamedTask 80) ⟨true, false⟩
    unnamedService ⟨[⟨[⟨"10.0.0.1"⟩], [⟨"", 8080⟩]⟩]⟩ [80] 80 rfl (Or.inl rfl) rfl rfl rfl rfl
    rfl (Or.inr (by decide))
  ⟨r.1, r.2.elim fun targets h => ⟨targets, h.1, h.2.1.trans (by decide)⟩⟩

/-- C16: for a Service with a non-zero deletion timestamp whose target group is
in the ledger and referenced, the build succeeds without reading the Endpoints
object and still emits a Targets resource, added to the stack, whose
TargetIPList is empty and whose Name, Namespace and RouteName are the task's
target-group name, namespace and route name. -/
theorem buildLatticeTargets_deleted_service (t : latticeTargetsModelBuildTask)
    (tg : latticestore.TargetGroup) (svc : corev1.Service)
    (htg : t.datastore.GetTargetGroup (t.datastore.TargetGroupName t.tgName t.tgNamespace)
      t.routeName false = Except.ok tg)
    (href : tg.ByBackendRef = true ∨ tg.ByServiceExport = true)
    (hsvc : t.client.GetService ⟨t.tgNamespace, t.tgName⟩ = Except.ok svc)
    (hdeleted : corev1.IsZero svc.DeletionTimestamp = false) :
    (buildLatticeTargets t).err = none ∧
      (∀ key, ClientGet.Endpoints key ∉ (buildLatticeTargets t).reads) ∧
      (buildLatticeTargets t).task.latticeTargets =
        some ⟨t.datastore.TargetGroupName t.tgName t.tgNamespace,
          ⟨t.tgName, t.tgNamespace, t.routeName, []⟩⟩ ∧
      (⟨t.datastore.TargetGroupName t.tgName t.tgNamespace,
          ⟨t.tgName, t.tgNamespace, t.routeName, []⟩⟩ : model.Targets) ∈
        (buildLatticeTargets t).task.stack.resources := by
  rw [buildLatticeTargets_deleted t tg svc htg href hsvc hdeleted]
  have h := emitTargets_targets t (t.datastore.TargetGroupName t.tgName t.tgNamespace) []
    (ClientGet.Service ⟨t.tgNamespace, t.tgName⟩ ::
      (readDefinedPorts t tg ⟨t.tgNamespace, t.tgName⟩).2)
  refine ⟨h.1, ?_, h.2.1, ?_⟩
  · intro key hmem
    rw [h.2.2.2] at hmem
    rcases List.mem_cons.mp hmem with hc | hc
    · cases hc
    · have := readDefinedPorts_reads t tg _ _ hc
      cases this
  · rw [h.2.2.1]
    simp

/-- Witness for C16: a Service marked for deletion, referenced by an export. -/
theorem buildLatticeTargets_deleted_service_witness :
    (buildLatticeTargets (exampleTask deletedService (some ⟨false, true⟩) 0)).err = none ∧
      (buildLatticeTargets (exampleTask deletedService (some ⟨false, true⟩) 0)).reads =
        [ClientGet.Service ⟨"default", "svc"⟩, ClientGet.ServiceExport ⟨"default", "svc"⟩] ∧
      (buildLatticeTargets (exampleTask deletedService (some ⟨false, true⟩) 0)).task.latticeTargets
        = some ⟨"k8s-svc-default", ⟨"svc", "default", "route", []⟩⟩ :=
  have r := buildLatticeTargets_deleted_service
    (exampleTask deletedService (some ⟨false, true⟩) 0) ⟨false, true⟩ deletedService rfl
    (Or.inr rfl) rfl rfl
  ⟨r.1, by decide, r.2.2.1⟩

theorem endpointTargets_none (subsets : List corev1.EndpointSubset) :
    endpointTargets (fun _ => false) subsets = [] := by
  apply List.eq_nil_iff_forall_not_mem.mpr
  intro target hmem
  obtain ⟨_, _, _, _, _, _, hk, _⟩ := (mem_endpointTargets _ _ _).mp hmem
  cases hk

/-- C17: for a target group referenced by a backend reference and not by a
service export, when the backend-reference port is defined (non-zero) and is
the port number of no Service port, the build succeeds (the Service being read,
and the Endpoints too unless the Service is marked for deletion) and the built
TargetIPList is empty, whatever the Endpoints hold. -/
theorem buildLatticeTargets_unmatched_backend_port (t : latticeTargetsModelBuildTask)
    (tg : latticestore.TargetGroup) (svc : corev1.Service)
    (htg : t.datastore.GetTargetGroup (t.datastore.TargetGroupName t.tgName t.tgNamespace)
      t.routeName false = Except.ok tg)
    (hbackend : tg.ByBackendRef = true) (hexport : tg.ByServiceExport = false)
    (hsvc : t.client.GetService ⟨t.tgNamespace, t.tgName⟩ = Except.ok svc)
    (hread : corev1.IsZero svc.DeletionTimestamp = true →
      ∃ endpoints, t.client.GetEndpoints ⟨t.tgNamespace, t.tgName⟩ = Except.ok endpoints)
    (hport : t.backendRefPort ≠ 0)
    (hunmatched : ∀ p ∈ svc.Ports, p.Port ≠ t.backendRefPort) :
    (buildLatticeTargets t).err = none ∧
      ∃ targets, (buildLatticeTargets t).task.latticeTargets = some targets ∧
        targets.Spec.TargetIPList = [] := by
  have hports : (readDefinedPorts t tg ⟨t.tgNamespace, t.tgName⟩).1 = [t.backendRefPort] := by
    simp [readDefinedPorts, hbackend, hexport, undefinedPort, hport]
  have hnames : (servicePortsLoop [t.backendRefPort] svc.Ports).1 = [] := by
    apply List.eq_nil_iff_forall_not_mem.mpr
    intro name hmem
    obtain ⟨p, hp, hd, _, _⟩ := (servicePortsLoop_names _ _ _).mp hmem
    exact hunmatched p hp (List.mem_singleton.mp hd)
  have hskip : (servicePortsLoop [t.backendRefPort] svc.Ports).2 = false := by
    rcases hflag : (servicePortsLoop [t.backendRefPort] svc.Ports).2 with _ | _
    · rfl
    · obtain ⟨p, hp, hd, _⟩ := (servicePortsLoop_skip _ _).mp hflag
      exact absurd (List.mem_singleton.mp hd) (hunmatched p hp)
  rcases hzero : corev1.IsZero svc.DeletionTimestamp with _ | _
  · rw [buildLatticeTargets_deleted t tg svc htg (Or.inl hbackend) hsvc hzero]
    exact ⟨rfl, _, rfl, rfl⟩
  · obtain ⟨endpoints, hendpoints⟩ := hread hzero
    have hrun := buildLatticeTargets_live t tg svc endpoints htg (Or.inl hbackend) hsvc hzero
      hendpoints
    rw [hports, hnames, hskip] at hrun
    have hlist : targetsLoop [] (if [t.backendRefPort].length = 0 then true else false)
        endpoints.Subsets = [] := by
      rw [targetsLoop_eq]
      simpa using endpointTargets_none endpoints.Subsets
    rw [hrun, hlist]
    exact ⟨rfl, _, rfl, rfl⟩

/-- Witness for C17: the backend reference asks for port 100, which the Service
("http" 80, "metrics" 9090) does not expose. -/
theorem buildLatticeTargets_unmatched_backend_port_witness :
    (buildLatticeTargets (exampleTask namedService (some ⟨true, false⟩) 100)).err = none ∧
      ∃ targets,
        (buildLatticeTargets
          (exampleTask namedService (some ⟨true, false⟩) 100)).task.latticeTargets =
            some targets ∧
        targets.Spec.TargetIPList = [] :=
  buildLatticeTargets_unmatched_backend_port (exampleTask namedService (some ⟨true, false⟩) 100)
    ⟨true, false⟩ namedService rfl rfl rfl rfl (fun _ => ⟨exampleEndpoints, rfl⟩) (by decide)
    (by decide)

end gateway

/-! ## Theorems: `pkg/aws/cloud.go` -/

namespace aws

theorem containsManagedBy_iff (c : defaultCloud) (tags : Tags) :
    c.ContainsManagedBy tags = true ↔ tags TagManagedBy = some (some c.managedByTag) := by
  unfold defaultCloud.ContainsManagedBy
  rcases h : tags TagManagedBy with _ | _ | tag
  · simp
  · simp
  · simp

/-- C18, counterexample: merged with a tag map that carries the managed-by tag
of another cluster, the default tags lose this cloud's managed-by tag. -/
theorem DefaultTagsMergedWith_overridden :
    (NewDefaultCloud exampleLattice exampleConfig).DefaultTagsMergedWith foreignTags
        TagManagedBy = some (some "444455556666/other/vpc-2") ∧
      (NewDefaultCloud exampleLattice exampleConfig).ContainsManagedBy
        ((NewDefaultCloud exampleLattice exampleConfig).DefaultTagsMergedWith foreignTags) =
          false := by
  constructor <;> decide

/-- C18, amended: the provided tags override the defaults, so
`ContainsManagedBy(DefaultTagsMergedWith(tags))` is true exactly when `tags` has
no ManagedBy key or has it with this cloud's managed-by value; every key of
`tags` keeps its value and the ManagedBy key is added when `tags` lacks it. -/
theorem DefaultTagsMergedWith_managed (lattice : Lattice) (cfg : CloudConfig) (tags : Tags) :
    ((NewDefaultCloud lattice cfg).ContainsManagedBy
        ((NewDefaultCloud lattice cfg).DefaultTagsMergedWith tags) = true ↔
      tags TagManagedBy = none ∨
        tags TagManagedBy = some (some (getManagedByTag cfg))) ∧
      (∀ key value, tags key = some value →
        (NewDefaultCloud lattice cfg).DefaultTagsMergedWith tags key = some value) ∧
      (tags TagManagedBy = none →
        (NewDefaultCloud lattice cfg).DefaultTagsMergedWith tags TagManagedBy =
          some (some (getManagedByTag cfg))) := by
  refine ⟨?_, ?_, ?_⟩
  · rw [containsManagedBy_iff]
    simp only [defaultCloud.DefaultTagsMergedWith, mapsCopy, defaultCloud.DefaultTags,
      Tags.set, NewDefaultCloud]
    rcases h : tags TagManagedBy with _ | value
    · simp
    · simp
  · intro key value h
    simp [defaultCloud.DefaultTagsMergedWith, mapsCopy, h]
  · intro h
    simp [defaultCloud.DefaultTagsMergedWith, mapsCopy, h, defaultCloud.DefaultTags, Tags.set,
      NewDefaultCloud]

/-- C19: `ContainsManagedBy(tags)` is true if and only if `tags` has the key
application-networking.k8s.aws/ManagedBy with a non-nil value equal to this
cloud's managed-by value AccountId/ClusterName/VpcId; a missing key, a nil value
and the (different) managed-by value of another cluster all give false, and
`DefaultTags()` satisfies it. -/
theorem ContainsManagedBy_spec (lattice : Lattice) (cfg : CloudConfig) (tags : Tags) :
    ((NewDefaultCloud lattice cfg).ContainsManagedBy tags = true ↔
      tags "application-networking.k8s.aws/ManagedBy" =
        some (some (cfg.AccountId ++ "/" ++ cfg.ClusterName ++ "/" ++ cfg.VpcId))) ∧
      (tags "application-networking.k8s.aws/ManagedBy" = none →
        (NewDefaultCloud lattice cfg).ContainsManagedBy tags = false) ∧
      (tags "application-networking.k8s.aws/ManagedBy" = some none →
        (NewDefaultCloud lattice cfg).ContainsManagedBy tags = false) ∧
      (∀ other : CloudConfig, getManagedByTag other ≠ getManagedByTag cfg →
        tags "application-networking.k8s.aws/ManagedBy" = some (some (getManagedByTag other)) →
        (NewDefaultCloud lattice cfg).ContainsManagedBy tags = false) ∧
      (NewDefaultCloud lattice cfg).ContainsManagedBy
        (NewDefaultCloud lattice cfg).DefaultTags = true := by
  have hkey : TagManagedBy = "application-networking.k8s.aws/ManagedBy" := by decide
  have hiff := containsManagedBy_iff (NewDefaultCloud lattice cfg) tags
  rw [hkey] at hiff
  have hfalse : ∀ value, tags "application-networking.k8s.aws/ManagedBy" = value →
      value ≠ some (some (getManagedByTag cfg)) →
      (NewDefaultCloud lattice cfg).ContainsManagedBy tags = false := by
    intro value hv hne
    rcases hc : (NewDefaultCloud lattice cfg).ContainsManagedBy tags with _ | _
    · rfl
    · exact absurd (hv.symm.trans (hiff.mp hc)) hne
  refine ⟨hiff, fun h => hfalse _ h (by simp), fun h => hfalse _ h (by simp), ?_, ?_⟩
  · intro other hne h
    exact hfalse _ h (fun heq => hne (Option.some.inj (Option.some.inj heq)))
  · rw [containsManagedBy_iff]
    simp [defaultCloud.DefaultTags, Tags.set]

end aws

/-! ## Theorems: `latticeTargetGroupStackDeployer.Deploy` -/

namespace latticeTargetGroupStackDeployer

open StackDeployer

/-- C20: let `r1`, `r2`, `r3`, `r4` be what TargetGroup.Synthesize,
Targets.Synthesize, Targets.PostSynthesize and TargetGroup.PostSynthesize
return when called in that order, each from the world its predecessor left.
`Deploy` makes these calls in that order (index 0 is the target-group
synthesizer, index 1 the targets synthesizer), stops at the first of them that
returns an error, makes no call after it and returns that error; when all four
return nil it has made all four and returns nil; and it returns nil only then. -/
theorem Deploy_two_synthesizers {σ ε : Type}
    (targetGroupSynthesizer targetsSynthesizer : ResourceSynthesizer σ ε) (st : σ)
    (r1 r2 r3 r4 : Option ε × σ)
    (h1 : targetGroupSynthesizer.Synthesize st = r1)
    (h2 : targetsSynthesizer.Synthesize r1.2 = r2)
    (h3 : targetsSynthesizer.PostSynthesize r2.2 = r3)
    (h4 : targetGroupSynthesizer.PostSynthesize r3.2 = r4) :
    (∀ e, r1.1 = some e →
        Deploy targetGroupSynthesizer targetsSynthesizer st =
          ⟨some e, r1.2, [⟨Call.Synthesize 0, some e⟩]⟩) ∧
      (∀ e, r1.1 = none → r2.1 = some e →
        Deploy targetGroupSynthesizer targetsSynthesizer st =
          ⟨some e, r2.2, [⟨Call.Synthesize 0, none⟩, ⟨Call.Synthesize 1, some e⟩]⟩) ∧
      (∀ e, r1.1 = none → r2.1 = none → r3.1 = some e →
        Deploy targetGroupSynthesizer targetsSynthesizer st =
          ⟨some e, r3.2, [⟨Call.Synthesize 0, none⟩, ⟨Call.Synthesize 1, none⟩,
            ⟨Call.PostSynthesize 1, some e⟩]⟩) ∧
      (∀ e, r1.1 = none → r2.1 = none → r3.1 = none → r4.1 = some e →
        Deploy targetGroupSynthesizer targetsSynthesizer st =
          ⟨some e, r4.2, [⟨Call.Synthesize 0, none⟩, ⟨Call.Synthesize 1, none⟩,
            ⟨Call.PostSynthesize 1, none⟩, ⟨Call.PostSynthesize 0, some e⟩]⟩) ∧
      (r1.1 = none → r2.1 = none → r3.1 = none → r4.1 = none →
        Deploy targetGroupSynthesizer targetsSynthesizer st =
          ⟨none, r4.2, [⟨Call.Synthesize 0, none⟩, ⟨Call.Synthesize 1, none⟩,
            ⟨Call.PostSynthesize 1, none⟩, ⟨Call.PostSynthesize 0, none⟩]⟩) ∧
      ((Deploy targetGroupSynthesizer targetsSynthesizer st).err = none ↔
        r1.1 = none ∧ r2.1 = none ∧ r3.1 = none ∧ r4.1 = none) := by
  obtain ⟨e1, s1⟩ := r1
  obtain ⟨e2, s2⟩ := r2
  obtain ⟨e3, s3⟩ := r3
  obtain ⟨e4, s4⟩ := r4
  simp only at h2 h3 h4
  rcases e1 with _ | e1
  · rcases e2 with _ | e2
    · rcases e3 with _ | e3
      · rcases e4 with _ | e4
        · simp [Deploy, deploy, synthesizeLoop, postSynthesizeLoop, h1, h2, h3, h4]
        · simp [Deploy, deploy, synthesizeLoop, postSynthesizeLoop, h1, h2, h3, h4]
      · simp [Deploy, deploy, synthesizeLoop, postSynthesizeLoop, h1, h2, h3]
    · simp [Deploy, deploy, synthesizeLoop, h1, h2]
  · simp [Deploy, deploy, synthesizeLoop, h1]

/-- C20, witness: with a targets synthesizer whose `PostSynthesize` fails,
`Deploy` calls TargetGroup.Synthesize, Targets.Synthesize and
Targets.PostSynthesize, returns the error of the third call, and never calls
TargetGroup.PostSynthesize. -/
theorem Deploy_two_synthesizers_witness :
    Deploy countingTargetGroupSynthesizer failingTargetsSynthesizer 0 =
      ⟨some "targets post failed", 23,
        [⟨Call.Synthesize 0, none⟩, ⟨Call.Synthesize 1, none⟩,
         ⟨Call.PostSynthesize 1, some "targets post failed"⟩]⟩ :=
  (Deploy_two_synthesizers countingTargetGroupSynthesizer failingTargetsSynthesizer 0
    (none, 1) (none, 3) (some "targets post failed", 23) (none, 33)
    rfl rfl rfl rfl).2.2.1 "targets post failed" rfl rfl rfl

end latticeTargetGroupStackDeployer

/-! ## Theorems: the targets model builder, continued -/

namespace gateway

theorem buildLatticeTargets_skipMatch (t : latticeTargetsModelBuildTask)
    (tg : latticestore.TargetGroup) (svc : corev1.Service) (endpoints : corev1.Endpoints)
    (htg : t.datastore.GetTargetGroup (t.datastore.TargetGroupName t.tgName t.tgNamespace)
      t.routeName false = Except.ok tg)
    (href : tg.ByBackendRef = true ∨ tg.ByServiceExport = true)
    (hsvc : t.client.GetService ⟨t.tgNamespace, t.tgName⟩ = Except.ok svc)
    (hlive : corev1.IsZero svc.DeletionTimestamp = true)
    (hendpoints : t.client.GetEndpoints ⟨t.tgNamespace, t.tgName⟩ = Except.ok endpoints)
    (hskip : (if (readDefinedPorts t tg ⟨t.tgNamespace, t.tgName⟩).1.length = 0 then true
      else (servicePortsLoop (readDefinedPorts t tg ⟨t.tgNamespace, t.tgName⟩).1
        svc.Ports).2) = true) :
    (buildLatticeTargets t).err = none ∧
      (buildLatticeTargets t).task.latticeTargets =
        some ⟨t.datastore.TargetGroupName t.tgName t.tgNamespace,
          ⟨t.tgName, t.tgNamespace, t.routeName,
            endpointTargets (fun _ => true) endpoints.Subsets⟩⟩ ∧
      (buildLatticeTargets t).task.stack.resources =
        t.stack.resources ++ [⟨t.datastore.TargetGroupName t.tgName t.tgNamespace,
          ⟨t.tgName, t.tgNamespace, t.routeName,
            endpointTargets (fun _ => true) endpoints.Subsets⟩⟩] := by
  have hrun := buildLatticeTargets_live t tg svc endpoints htg href hsvc hlive hendpoints
  rw [hskip, targetsLoop_eq] at hrun
  have hkeep : (fun port : corev1.EndpointPort =>
      decide (port.Name ∈ (servicePortsLoop (readDefinedPorts t tg
        ⟨t.tgNamespace, t.tgName⟩).1 svc.Ports).1 ∨ true = true)) = (fun _ => true) := by
    funext port
    simp
  rw [hkeep] at hrun
  rw [hrun]
  exact ⟨rfl, rfl, rfl⟩

/-- C22: for a Service not marked for deletion, when some Service port whose
number is in the set of defined ports is unnamed, the build succeeds and the
built TargetIPList holds every (address IP, endpoint port number) pair of every
endpoint subset, whatever the endpoint port names. -/
theorem buildLatticeTargets_unnamed_defined_port (t : latticeTargetsModelBuildTask)
    (tg : latticestore.TargetGroup) (svc : corev1.Service) (endpoints : corev1.Endpoints)
    (definedPorts : List Int)
    (htg : t.datastore.GetTargetGroup (t.datastore.TargetGroupName t.tgName t.tgNamespace)
      t.routeName false = Except.ok tg)
    (href : tg.ByBackendRef = true ∨ tg.ByServiceExport = true)
    (hsvc : t.client.GetService ⟨t.tgNamespace, t.tgName⟩ = Except.ok svc)
    (hlive : corev1.IsZero svc.DeletionTimestamp = true)
    (hendpoints : t.client.GetEndpoints ⟨t.tgNamespace, t.tgName⟩ = Except.ok endpoints)
    (hports : (readDefinedPorts t tg ⟨t.tgNamespace, t.tgName⟩).1 = definedPorts)
    (hunnamed : ∃ p ∈ svc.Ports, p.Port ∈ definedPorts ∧ p.Name = "") :
    (buildLatticeTargets t).err = none ∧
      ∃ targets, (buildLatticeTargets t).task.latticeTargets = some targets ∧
        targets.Spec.TargetIPList = endpointTargets (fun _ => true) endpoints.Subsets ∧
        ∀ endPoint ∈ endpoints.Subsets, ∀ address ∈ endPoint.Addresses,
          ∀ port ∈ endPoint.Ports,
            (⟨address.IP, port.Port⟩ : model.Target) ∈ targets.Spec.TargetIPList := by
  have hflag : (servicePortsLoop definedPorts svc.Ports).2 = true :=
    (servicePortsLoop_skip definedPorts svc.Ports).mpr hunnamed
  have hskip : (if (readDefinedPorts t tg ⟨t.tgNamespace, t.tgName⟩).1.length = 0 then true
      else (servicePortsLoop (readDefinedPorts t tg ⟨t.tgNamespace, t.tgName⟩).1
        svc.Ports).2) = true := by
    rw [hports, hflag]
    simp
  have h := buildLatticeTargets_skipMatch t tg svc endpoints htg href hsvc hlive hendpoints hskip
  refine ⟨h.1, _, h.2.1, rfl, ?_⟩
  intro endPoint he address ha port hp
  exact (mem_endpointTargets _ _ _).mpr ⟨endPoint, he, address, ha, port, hp, rfl, rfl⟩

/-- Witness for C22: the Service exposes the unnamed port 80, which the backend
reference asks for; the endpoint port is kept whatever its name. -/
theorem buildLatticeTargets_unnamed_defined_port_witness :
    (buildLatticeTargets (exampleTask unnamedService (some ⟨true, false⟩) 80)).err = none ∧
      ∃ targets,
        (buildLatticeTargets
          (exampleTask unnamedService (some ⟨true, false⟩) 80)).task.latticeTargets =
            some targets ∧
        targets.Spec.TargetIPList =
          [⟨"10.0.0.1", 8080⟩, ⟨"10.0.0.1", 9090⟩, ⟨"10.0.0.2", 8080⟩, ⟨"10.0.0.2", 9090⟩] :=
  have r := buildLatticeTargets_unnamed_defined_port
    (exampleTask unnamedService (some ⟨true, false⟩) 80) ⟨true, false⟩ unnamedService
    exampleEndpoints [80] rfl (Or.inl rfl) rfl rfl rfl rfl
    ⟨⟨"", 80⟩, by decide, by decide, rfl⟩
  ⟨r.1, r.2.elim fun targets h => ⟨targets, h.1, h.2.1.trans (by decide)⟩⟩

theorem Build_eq (b : LatticeTargetsModelBuilder) (service : corev1.Service)
    (routeName : String) :
    Build b service routeName =
      match (run (taskOf b service routeName)).err with
      | some _ =>
        ⟨none, none, some corev1.ErrIntOverflowGenerated, (run (taskOf b service routeName)).reads⟩
      | none =>
        ⟨some (run (taskOf b service routeName)).task.stack,
          (run (taskOf b service routeName)).task.latticeTargets, none,
          (run (taskOf b service routeName)).reads⟩ := rfl

/-- C24: `Build` runs its task with backendRefPort = 0, so for a target group
referenced by a backend reference and not by a service export, and a Service
not marked for deletion, `Build` succeeds and the TargetIPList of the Targets it
returns holds every (address IP, endpoint port number) pair of the Endpoints,
whatever the names and numbers of the Service's ports. -/
theorem Build_backend_reference_keeps_all (b : LatticeTargetsModelBuilder)
    (service : corev1.Service) (routeName : String) (tg : latticestore.TargetGroup)
    (svc : corev1.Service) (endpoints : corev1.Endpoints)
    (htg : b.datastore.GetTargetGroup
      (b.datastore.TargetGroupName service.Name service.Namespace) routeName false =
        Except.ok tg)
    (hbackend : tg.ByBackendRef = true) (hexport : tg.ByServiceExport = false)
    (hsvc : b.client.GetService ⟨service.Namespace, service.Name⟩ = Except.ok svc)
    (hlive : corev1.IsZero svc.DeletionTimestamp = true)
    (hendpoints : b.client.GetEndpoints ⟨service.Namespace, service.Name⟩ =
      Except.ok endpoints) :
    (taskOf b service routeName).backendRefPort = 0 ∧
      (Build b service routeName).err = none ∧
      ∃ targets, (Build b service routeName).targets = some targets ∧
        targets.Spec.TargetIPList = endpointTargets (fun _ => true) endpoints.Subsets ∧
        ∀ endPoint ∈ endpoints.Subsets, ∀ address ∈ endPoint.Addresses,
          ∀ port ∈ endPoint.Ports,
            (⟨address.IP, port.Port⟩ : model.Target) ∈ targets.Spec.TargetIPList := by
  have hports : (readDefinedPorts (taskOf b service routeName) tg
      ⟨service.Namespace, service.Name⟩).1 = [] := by
    simp [readDefinedPorts, hexport, taskOf, undefinedPort]
  have h := buildLatticeTargets_skipMatch (taskOf b service routeName) tg svc endpoints htg
    (Or.inl hbackend) hsvc hlive hendpoints
    (by
      show (if (readDefinedPorts (taskOf b service routeName) tg
        ⟨service.Namespace, service.Name⟩).1.length = 0 then true else _) = true
      rw [hports]
      rfl)
  have herr : (run (taskOf b service routeName)).err = none := h.1
  refine ⟨rfl, ?_, ?_⟩
  · rw [Build_eq, herr]
  · refine ⟨⟨b.datastore.TargetGroupName service.Name service.Namespace,
      ⟨service.Name, service.Namespace, routeName,
        endpointTargets (fun _ => true) endpoints.Subsets⟩⟩, ?_, rfl, ?_⟩
    · rw [Build_eq, herr]
      exact h.2.1
    · intro endPoint he address ha port hp
      exact (mem_endpointTargets _ _ _).mpr ⟨endPoint, he, address, ha, port, hp, rfl, rfl⟩

/-- Witness for C24: a Service with the named ports 80 and 9090, referenced by a
backend reference. -/
theorem Build_backend_reference_keeps_all_witness :
    (Build ⟨exampleClient namedService, exampleDatastore (some ⟨true, false⟩)⟩ namedService
        "route").err = none ∧
      ∃ targets,
        (Build ⟨exampleClient namedService, exampleDatastore (some ⟨true, false⟩)⟩ namedService
          "route").targets = some targets ∧
        targets.Spec.TargetIPList =
          [⟨"10.0.0.1", 8080⟩, ⟨"10.0.0.1", 9090⟩, ⟨"10.0.0.2", 8080⟩, ⟨"10.0.0.2", 9090⟩] :=
  have r := Build_backend_reference_keeps_all
    ⟨exampleClient namedService, exampleDatastore (some ⟨true, false⟩)⟩ namedService "route"
    ⟨true, false⟩ namedService exampleEndpoints rfl rfl rfl rfl rfl rfl
  ⟨r.2.1, r.2.2.elim fun targets h => ⟨targets, h.1, h.2.1.trans (by decide)⟩⟩

theorem append_ne_of_head (c d : Char) (a b : String) (s : String) (hcd : c ≠ d)
    (ha : a.data.head? = some c) (hb : b.data.head? = some d) : a ++ s ≠ b := by
  intro h
  have h1 : (a ++ s).data.head? = some d := by
    rw [h]
    exact hb
  rw [String.data_append] at h1
  cases hdata : a.data with
  | nil =>
    rw [hdata] at ha
    cases ha
  | cons x xs =>
    rw [hdata] at ha h1
    simp at ha h1
    exact hcd (ha.symm.trans h1)

theorem task_error_ne_overflow (t : latticeTargetsModelBuildTask) (e : Error)
    (h : (buildLatticeTargets t).err = some e) : e ≠ corev1.ErrIntOverflowGenerated := by
  have hB : ∀ (a s : String), a.data.head? = some 'B' →
      Error.New (a ++ s) ≠ corev1.ErrIntOverflowGenerated := by
    intro a s ha heq
    have hne := append_ne_of_head 'B' 'p' a "proto: integer overflow" s (by decide) ha rfl
    exact hne (Error.New.inj heq)
  have hb : ∀ (a s : String), a.data.head? = some 'b' →
      Error.New (a ++ s) ≠ corev1.ErrIntOverflowGenerated := by
    intro a s ha heq
    have hne := append_ne_of_head 'b' 'p' a "proto: integer overflow" s (by decide) ha rfl
    exact hne (Error.New.inj heq)
  rcases htg : t.datastore.GetTargetGroup (t.datastore.TargetGroupName t.tgName t.tgNamespace)
      t.routeName false with e0 | tg
  · simp only [buildLatticeTargets, htg, Option.some.injEq] at h
    rw [← h, String.append_assoc, String.append_assoc, String.append_assoc]
    exact hB _ _ rfl
  · by_cases hguard : (!tg.ByBackendRef && !tg.ByServiceExport) = true
    · simp only [buildLatticeTargets, htg, hguard, if_true, Option.some.injEq] at h
      rw [← h, String.append_assoc, String.append_assoc, String.append_assoc]
      exact hB _ _ rfl
    · rcases hsvc : t.client.GetService ⟨t.tgNamespace, t.tgName⟩ with e1 | svc
      · simp only [buildLatticeTargets, htg, hguard, Bool.false_eq_true, if_false, hsvc, Option.some.injEq] at h
        rw [← h, String.append_assoc]
        exact hB _ _ rfl
      · by_cases hlive : corev1.IsZero svc.DeletionTimestamp = true
        · rcases hendpoints : t.client.GetEndpoints ⟨t.tgNamespace, t.tgName⟩ with e2 | endpoints
          · simp only [buildLatticeTargets, htg, hguard, Bool.false_eq_true, if_false, hsvc, hlive, if_true,
              hendpoints, Option.some.injEq] at h
            rw [← h, String.append_assoc]
            exact hb _ _ rfl
          · simp only [buildLatticeTargets, htg, hguard, Bool.false_eq_true, if_false, hsvc, hlive, if_true,
              hendpoints] at h
            exact absurd h (by simp [emitTargets])
        · simp only [buildLatticeTargets, htg, hguard, Bool.false_eq_true, if_false, hsvc, hlive] at h
          exact absurd h (by simp [emitTargets])

/-- C26: whenever the targets build task fails, `Build` returns the fixed triple
(nil stack, nil Targets, corev1.ErrIntOverflowGenerated), which is never the
task's own error; `Build` returns a nil error exactly when the task succeeds;
and each cause makes it fail: the target group missing from the ledger, the
target group referenced by nothing, the Service not readable, the Endpoints of
a Service not marked for deletion not readable. -/
theorem Build_fixed_error (b : LatticeTargetsModelBuilder) (service : corev1.Service)
    (routeName : String) :
    ((run (taskOf b service routeName)).err ≠ none →
        (Build b service routeName).stack = none ∧
        (Build b service routeName).targets = none ∧
        (Build b service routeName).err = some corev1.ErrIntOverflowGenerated) ∧
      (∀ e, (run (taskOf b service routeName)).err = some e →
        (Build b service routeName).err ≠ some e) ∧
      ((Build b service routeName).err = none ↔
        (run (taskOf b service routeName)).err = none) ∧
      (∀ e, b.datastore.GetTargetGroup
          (b.datastore.TargetGroupName service.Name service.Namespace) routeName false =
            Except.error e →
        (run (taskOf b service routeName)).err ≠ none) ∧
      (∀ tg, b.datastore.GetTargetGroup
          (b.datastore.TargetGroupName service.Name service.Namespace) routeName false =
            Except.ok tg →
        ((tg.ByBackendRef = false ∧ tg.ByServiceExport = false) ∨
          (∃ e, b.client.GetService ⟨service.Namespace, service.Name⟩ = Except.error e) ∨
          (∃ svc e, b.client.GetService ⟨service.Namespace, service.Name⟩ = Except.ok svc ∧
            corev1.IsZero svc.DeletionTimestamp = true ∧
            b.client.GetEndpoints ⟨service.Namespace, service.Name⟩ = Except.error e)) →
        (run (taskOf b service routeName)).err ≠ none) := by
  refine ⟨?_, ?_, ?_, ?_, ?_⟩
  · intro hfail
    rw [Build_eq]
    rcases herr : (run (taskOf b service routeName)).err with _ | e
    · exact absurd herr hfail
    · exact ⟨rfl, rfl, rfl⟩
  · intro e herr hsame
    rw [Build_eq, herr] at hsame
    simp only [Option.some.injEq] at hsame
    exact task_error_ne_overflow _ e herr hsame.symm
  · rw [Build_eq]
    rcases herr : (run (taskOf b service routeName)).err with _ | e <;> simp
  · intro e hmissing
    simp [run, buildLatticeTargets, taskOf, hmissing]
  · intro tg hentry hcause
    rcases hcause with ⟨h1, h2⟩ | ⟨e, hsvc⟩ | ⟨svc, e, hsvc, hlive, hendpoints⟩
    · simp [run, buildLatticeTargets, taskOf, hentry, h1, h2]
    · by_cases hguard : (!tg.ByBackendRef && !tg.ByServiceExport) = true
      · simp [run, buildLatticeTargets, taskOf, hentry, hguard]
      · simp [run, buildLatticeTargets, taskOf, hentry, hguard, hsvc]
    · by_cases hguard : (!tg.ByBackendRef && !tg.ByServiceExport) = true
      · simp [run, buildLatticeTargets, taskOf, hentry, hguard]
      · simp [run, buildLatticeTargets, taskOf, hentry, hguard, hsvc, hlive, hendpoints]

theorem foldl_filterMap_append {α β : Type} (f : α → Option β) (l : List α) (init : List β) :
    l.foldl
        (fun acc x =>
          match f x with
          | none => acc
          | some y => acc ++ [y]) init =
      init ++ l.filterMap f := by
  induction l generalizing init with
  | nil => simp
  | cons x rest ih =>
    rcases hx : f x with _ | y
    · simp [ih, hx]
    · simp [ih, hx, List.append_assoc]

theorem exportDefinedPorts_eq (serviceExport : mcsv1alpha1.ServiceExport) :
    exportDefinedPorts serviceExport =
      (strings.Split ((serviceExport.Annotations portAnnotationsKey).getD "")).filterMap
        strconv.ParseInt := by
  unfold exportDefinedPorts
  simp only
  have key := foldl_filterMap_append strconv.ParseInt
    (strings.Split ((serviceExport.Annotations portAnnotationsKey).getD "")) []
  rw [List.nil_append] at key
  convert key using 2
  funext definedPorts entry
  cases strconv.ParseInt entry <;> rfl

theorem ParseInt_range (s : String) (v : Int) (h : strconv.ParseInt s = some v) :
    -2147483648 ≤ v ∧ v ≤ 2147483647 := by
  unfold strconv.ParseInt at h
  simp only at h
  split_ifs at h <;> cases h <;> assumption

section SplitAtCommas

open strings

theorem splitComma_piece (w tail : List Char) (hw : ',' ∉ w) :
    splitComma (w ++ ',' :: tail) = w :: splitComma tail := by
  induction w with
  | nil => simp [splitComma]
  | cons c w ih =>
    have hc : c ≠ ',' := fun h => hw (by simp [h])
    have hw2 : ',' ∉ w := fun h => hw (List.mem_cons_of_mem _ h)
    simp [splitComma, hc, ih hw2]

theorem splitComma_last (w : List Char) (hw : ',' ∉ w) : splitComma w = [w] := by
  induction w with
  | nil => rfl
  | cons c w ih =>
    have hc : c ≠ ',' := fun h => hw (by simp [h])
    have hw2 : ',' ∉ w := fun h => hw (List.mem_cons_of_mem _ h)
    simp [splitComma, hc, ih hw2]

theorem splitComma_join (w : List Char) (rest : List (List Char)) (hw : ',' ∉ w)
    (hrest : ∀ a ∈ rest, ',' ∉ a) :
    splitComma (w ++ rest.flatMap (fun a => ',' :: a)) = w :: rest := by
  induction rest generalizing w with
  | nil => simpa using splitComma_last w hw
  | cons a rest ih =>
    have h := ih a (hrest a (List.mem_cons_self _ _))
      (fun b hb => hrest b (List.mem_cons_of_mem _ hb))
    simp only [List.flatMap_cons, List.cons_append]
    rw [splitComma_piece w _ hw, h]

theorem join_splitComma (cs : List Char) :
    ∃ w rest, splitComma cs = w :: rest ∧ ',' ∉ w ∧ (∀ a ∈ rest, ',' ∉ a) ∧
      cs = w ++ rest.flatMap (fun a => ',' :: a) := by
  induction cs with
  | nil => exact ⟨[], [], rfl, by simp, by simp, rfl⟩
  | cons c cs ih =>
    obtain ⟨w, rest, hs, hw, hrest, hcs⟩ := ih
    by_cases hc : c = ','
    · refine ⟨[], w :: rest, by simp [splitComma, hc, hs], by simp, ?_, ?_⟩
      · intro a ha
        rcases List.mem_cons.1 ha with rfl | ha
        · exact hw
        · exact hrest a ha
      · simp only [List.flatMap_cons, List.nil_append, List.cons_append]
        rw [← hcs, hc]
    · refine ⟨c :: w, rest, by simp [splitComma, hc, hs], ?_, hrest, ?_⟩
      · intro h
        rcases List.mem_cons.1 h with h | h
        · exact hc h.symm
        · exact hw h
      · simp only [List.cons_append]
        rw [← hcs]

theorem intercalate_go_data (acc sep : String) (l : List String) :
    (String.intercalate.go acc sep l).data =
      acc.data ++ l.flatMap (fun a => sep.data ++ a.data) := by
  induction l generalizing acc with
  | nil => simp [String.intercalate.go]
  | cons a rest ih =>
    simp [String.intercalate.go, ih, String.data_append, List.append_assoc]

theorem intercalate_comma_data (e : String) (es : List String) :
    (",".intercalate (e :: es)).data =
      e.data ++ (es.map String.data).flatMap (fun a => ',' :: a) := by
  show (String.intercalate.go e "," es).data = _
  rw [intercalate_go_data]
  congr 1
  induction es with
  | nil => rfl
  | cons a rest ih =>
    simp only [List.flatMap_cons, List.map_cons, ih]
    rfl

theorem Split_intercalate (entries : List String) (hne : entries ≠ [])
    (hfree : ∀ e ∈ entries, ',' ∉ e.toList) :
    Split (",".intercalate entries) = entries := by
  rcases entries with _ | ⟨e, es⟩
  · exact absurd rfl hne
  · unfold Split
    show List.map String.mk (splitComma (",".intercalate (e :: es)).data) = _
    rw [intercalate_comma_data, splitComma_join]
    · simp only [List.map_cons, List.map_map]
      have hmk : (String.mk ∘ String.data) = id := rfl
      rw [hmk, List.map_id]
    · exact hfree e (List.mem_cons_self _ _)
    · intro a ha
      obtain ⟨b, hb, rfl⟩ := List.mem_map.1 ha
      exact hfree b (List.mem_cons_of_mem _ hb)

theorem intercalate_Split (s : String) :
    Split s ≠ [] ∧ (∀ e ∈ Split s, ',' ∉ e.toList) ∧ s = ",".intercalate (Split s) := by
  obtain ⟨w, rest, hs, hw, hrest, hcs⟩ := join_splitComma s.toList
  have hS : Split s = String.mk w :: rest.map String.mk := by
    unfold Split
    rw [hs]
    rfl
  refine ⟨by simp [hS], ?_, ?_⟩
  · intro e he
    rw [hS] at he
    rcases List.mem_cons.1 he with rfl | he
    · exact hw
    · obtain ⟨a, ha, rfl⟩ := List.mem_map.1 he
      exact hrest a ha
  · apply String.ext
    rw [hS, intercalate_comma_data]
    simp only [List.map_map]
    have : (String.data ∘ String.mk) = id := rfl
    rw [this, List.map_id]
    exact hcs
end SplitAtCommas

/-- C29: for a target group referenced by a service export whose export is
readable, write the export's multicluster.x-k8s.io/port entry (the empty string
when it is missing) as comma-free pieces joined by commas, which is always
possible and in one way only. The defined ports are then the values of those
pieces that parse as base-10 signed 32-bit integers, in the order of the pieces;
pieces that do not parse are skipped, a missing entry gives the empty set, the
backend-reference port plays no part, and the build still succeeds when the
Service and (unless it is marked for deletion) the Endpoints are readable. -/
theorem readDefinedPorts_of_export (t : latticeTargetsModelBuildTask)
    (tg : latticestore.TargetGroup) (serviceExport : mcsv1alpha1.ServiceExport)
    (hexport : tg.ByServiceExport = true)
    (hread : t.client.GetServiceExport ⟨t.tgNamespace, t.tgName⟩ = Except.ok serviceExport) :
    (∃ entries : List String, entries ≠ [] ∧ (∀ e ∈ entries, ',' ∉ e.toList) ∧
        (serviceExport.Annotations "multicluster.x-k8s.io/port").getD "" =
          ",".intercalate entries) ∧
      (∀ entries : List String, entries ≠ [] → (∀ e ∈ entries, ',' ∉ e.toList) →
        (serviceExport.Annotations "multicluster.x-k8s.io/port").getD "" =
          ",".intercalate entries →
        (readDefinedPorts t tg ⟨t.tgNamespace, t.tgName⟩).1 =
            entries.filterMap strconv.ParseInt ∧
          ∀ p, p ∈ (readDefinedPorts t tg ⟨t.tgNamespace, t.tgName⟩).1 ↔
            ∃ entry ∈ entries, strconv.ParseInt entry = some p) ∧
      (∀ p ∈ (readDefinedPorts t tg ⟨t.tgNamespace, t.tgName⟩).1,
        -2147483648 ≤ p ∧ p ≤ 2147483647) ∧
      (serviceExport.Annotations "multicluster.x-k8s.io/port" = none →
        (readDefinedPorts t tg ⟨t.tgNamespace, t.tgName⟩).1 = []) ∧
      (∀ port, (readDefinedPorts { t with backendRefPort := port } tg
          ⟨t.tgNamespace, t.tgName⟩).1 =
        (readDefinedPorts t tg ⟨t.tgNamespace, t.tgName⟩).1) ∧
      (∀ svc, t.datastore.GetTargetGroup (t.datastore.TargetGroupName t.tgName t.tgNamespace)
          t.routeName false = Except.ok tg →
        t.client.GetService ⟨t.tgNamespace, t.tgName⟩ = Except.ok svc →
        (corev1.IsZero svc.DeletionTimestamp = true →
          ∃ endpoints, t.client.GetEndpoints ⟨t.tgNamespace, t.tgName⟩ = Except.ok endpoints) →
        (buildLatticeTargets t).err = none) := by
  have hkey : portAnnotationsKey = "multicluster.x-k8s.io/port" := rfl
  have hports : (readDefinedPorts t tg ⟨t.tgNamespace, t.tgName⟩).1 =
      (strings.Split ((serviceExport.Annotations "multicluster.x-k8s.io/port").getD "")).filterMap
        strconv.ParseInt := by
    rw [← hkey, ← exportDefinedPorts_eq]
    simp only [readDefinedPorts, hexport, if_true, hread]
  refine ⟨?_, ?_, ?_, ?_, ?_, ?_⟩
  · exact ⟨_, intercalate_Split _⟩
  · intro entries hne hfree hjoin
    have hsplit := Split_intercalate entries hne hfree
    rw [← hjoin] at hsplit
    rw [hports, hsplit]
    exact ⟨rfl, fun p => List.mem_filterMap⟩
  · intro p hp
    rw [hports, List.mem_filterMap] at hp
    obtain ⟨entry, _, hparse⟩ := hp
    exact ParseInt_range entry p hparse
  · intro hmissing
    rw [hports, hmissing]
    decide
  · intro port
    simp only [readDefinedPorts, hexport, if_true]
  · intro svc htg hsvc hendpoints
    rcases hzero : corev1.IsZero svc.DeletionTimestamp with _ | _
    · rw [buildLatticeTargets_deleted t tg svc htg (Or.inr hexport) hsvc hzero]
      rfl
    · obtain ⟨endpoints, he⟩ := hendpoints hzero
      rw [buildLatticeTargets_live t tg svc endpoints htg (Or.inr hexport) hsvc hzero he]
      rfl

/-- C29, witness: the export's port entry is "80,http, 81,+443,,99999999999,-1";
of its seven pieces only "80", "+443" and "-1" parse, so the defined ports are
80, 443 and -1, in that order, and the backend-reference port 9090 is not among
them. -/
theorem readDefinedPorts_of_export_witness :
    (readDefinedPorts mixedPortsTask ⟨false, true⟩ ⟨"default", "svc"⟩).1 = [80, 443, -1] :=
  ((readDefinedPorts_of_export mixedPortsTask ⟨false, true⟩ mixedPortsExport rfl rfl).2.1
    ["80", "http", " 81", "+443", "", "99999999999", "-1"] (by decide) (by decide)
    (by decide)).1.trans (by decide)

end gateway

/-! ## Theorems: `defaultCloud.IsArnManaged` -/

namespace aws

/-- C30: `IsArnManaged` never returns an error: when listing the tags of the
resource fails it returns (false, nil), and when the listing succeeds it returns
(ContainsManagedBy(listed tags), nil). -/
theorem IsArnManaged_never_fails (c : defaultCloud) (arn : String) :
    (c.IsArnManaged arn).2 = none ∧
      (∀ e, c.lattice.ListTagsForResource arn = Except.error e →
        c.IsArnManaged arn = (false, none)) ∧
      (∀ tags, c.lattice.ListTagsForResource arn = Except.ok tags →
        c.IsArnManaged arn = (c.ContainsManagedBy tags, none)) := by
  refine ⟨?_, ?_, ?_⟩
  · unfold defaultCloud.IsArnManaged
    rcases c.lattice.ListTagsForResource arn with e | tags <;> rfl
  · intro e h
    simp only [defaultCloud.IsArnManaged, h]
  · intro tags h
    simp only [defaultCloud.IsArnManaged, h]

end aws

/-! ## Theorems: `latticeTargetsStackDeployer.Deploy` -/

namespace latticeTargetsStackDeployer

theorem copyTargets_nil : copyTargets = [] := rfl

theorem deployLoop_create_failed {σ ε : Type} (d : Deployer σ ε) (targets : model.Targets)
    (rest : List model.Targets) (st st1 : σ) (e : ε)
    (hc : d.collaborators.Create targets st = (some e, st1)) :
    deployLoop d (targets :: rest) st =
      ⟨(deployLoop d rest st1).outcome, (deployLoop d rest st1).state,
        Step.Create targets (some e) :: (deployLoop d rest st1).log⟩ := by
  simp only [deployLoop, hc]

theorem deployLoop_updated {σ ε : Type} (d : Deployer σ ε) (targets : model.Targets)
    (rest : List model.Targets) (st st1 st2 : σ)
    (hc : d.collaborators.Create targets st = (none, st1))
    (hu : d.collaborators.UpdateTargetsForTargetGroup
      (d.collaborators.TargetGroupName targets.Spec.Name targets.Spec.Namespace)
      targets.Spec.RouteName [] st1 = (none, st2)) :
    deployLoop d (targets :: rest) st =
      ⟨(deployLoop d rest st2).outcome, (deployLoop d rest st2).state,
        Step.Create targets none ::
          Step.UpdateTargetsForTargetGroup
            (d.collaborators.TargetGroupName targets.Spec.Name targets.Spec.Namespace)
            targets.Spec.RouteName [] none :: (deployLoop d rest st2).log⟩ := by
  simp only [deployLoop, hc, copyTargets_nil, hu]

theorem deployLoop_update_logged {σ ε : Type} (d : Deployer σ ε) (targets : model.Targets)
    (rest : List model.Targets) (st st1 st2 : σ) (e : ε) (logger : gwlog.Logger)
    (hc : d.collaborators.Create targets st = (none, st1))
    (hu : d.collaborators.UpdateTargetsForTargetGroup
      (d.collaborators.TargetGroupName targets.Spec.Name targets.Spec.Namespace)
      targets.Spec.RouteName [] st1 = (some e, st2))
    (hl : d.log = some logger) :
    deployLoop d (targets :: rest) st =
      ⟨(deployLoop d rest st2).outcome, (deployLoop d rest st2).state,
        Step.Create targets none ::
          Step.UpdateTargetsForTargetGroup
            (d.collaborators.TargetGroupName targets.Spec.Name targets.Spec.Namespace)
            targets.Spec.RouteName [] (some e) ::
          Step.Errorf "Failed to update targets for target group %s due to %s"
            (some (d.collaborators.TargetGroupName targets.Spec.Name targets.Spec.Namespace)) e ::
          (deployLoop d rest st2).log⟩ := by
  simp only [deployLoop, hc, copyTargets_nil, hu, hl]

theorem deployLoop_update_panics {σ ε : Type} (d : Deployer σ ε) (targets : model.Targets)
    (rest : List model.Targets) (st st1 st2 : σ) (e : ε)
    (hc : d.collaborators.Create targets st = (none, st1))
    (hu : d.collaborators.UpdateTargetsForTargetGroup
      (d.collaborators.TargetGroupName targets.Spec.Name targets.Spec.Namespace)
      targets.Spec.RouteName [] st1 = (some e, st2))
    (hl : d.log = none) :
    deployLoop d (targets :: rest) st =
      ⟨Outcome.panicked, st2,
        [Step.Create targets none,
          Step.UpdateTargetsForTargetGroup
            (d.collaborators.TargetGroupName targets.Spec.Name targets.Spec.Namespace)
            targets.Spec.RouteName [] (some e)]⟩ := by
  simp only [deployLoop, hc, copyTargets_nil, hu, hl]

/-- The four ways one round of the loop can go. -/
theorem deployLoop_cons {σ ε : Type} (d : Deployer σ ε) (targets : model.Targets)
    (rest : List model.Targets) (st : σ) :
    (∃ e st1, d.collaborators.Create targets st = (some e, st1) ∧
        deployLoop d (targets :: rest) st =
          ⟨(deployLoop d rest st1).outcome, (deployLoop d rest st1).state,
            Step.Create targets (some e) :: (deployLoop d rest st1).log⟩) ∨
      (∃ st1 st2, d.collaborators.Create targets st = (none, st1) ∧
        d.collaborators.UpdateTargetsForTargetGroup
          (d.collaborators.TargetGroupName targets.Spec.Name targets.Spec.Namespace)
          targets.Spec.RouteName [] st1 = (none, st2) ∧
        deployLoop d (targets :: rest) st =
          ⟨(deployLoop d rest st2).outcome, (deployLoop d rest st2).state,
            Step.Create targets none ::
              Step.UpdateTargetsForTargetGroup
                (d.collaborators.TargetGroupName targets.Spec.Name targets.Spec.Namespace)
                targets.Spec.RouteName [] none :: (deployLoop d rest st2).log⟩) ∨
      (∃ st1 st2 e, d.collaborators.Create targets st = (none, st1) ∧
        d.collaborators.UpdateTargetsForTargetGroup
          (d.collaborators.TargetGroupName targets.Spec.Name targets.Spec.Namespace)
          targets.Spec.RouteName [] st1 = (some e, st2) ∧ d.log ≠ none ∧
        deployLoop d (targets :: rest) st =
          ⟨(deployLoop d rest st2).outcome, (deployLoop d rest st2).state,
            Step.Create targets none ::
              Step.UpdateTargetsForTargetGroup
                (d.collaborators.TargetGroupName targets.Spec.Name targets.Spec.Namespace)
                targets.Spec.RouteName [] (some e) ::
              Step.Errorf "Failed to update targets for target group %s due to %s"
                (some (d.collaborators.TargetGroupName targets.Spec.Name targets.Spec.Namespace))
                e :: (deployLoop d rest st2).log⟩) ∨
      (∃ st1 st2 e, d.collaborators.Create targets st = (none, st1) ∧
        d.collaborators.UpdateTargetsForTargetGroup
          (d.collaborators.TargetGroupName targets.Spec.Name targets.Spec.Namespace)
          targets.Spec.RouteName [] st1 = (some e, st2) ∧ d.log = none ∧
        deployLoop d (targets :: rest) st =
          ⟨Outcome.panicked, st2,
            [Step.Create targets none,
              Step.UpdateTargetsForTargetGroup
                (d.collaborators.TargetGroupName targets.Spec.Name targets.Spec.Namespace)
                targets.Spec.RouteName [] (some e)]⟩) := by
  rcases hc : d.collaborators.Create targets st with ⟨_ | e, st1⟩
  · rcases hu : d.collaborators.UpdateTargetsForTargetGroup
        (d.collaborators.TargetGroupName targets.Spec.Name targets.Spec.Namespace)
        targets.Spec.RouteName [] st1 with ⟨_ | e, st2⟩
    · exact Or.inr (Or.inl ⟨st1, st2, rfl, hu, deployLoop_updated d targets rest st st1 st2 hc hu⟩)
    · rcases hl : d.log with _ | logger
      · exact Or.inr (Or.inr (Or.inr ⟨st1, st2, e, rfl, hu, rfl,
          deployLoop_update_panics d targets rest st st1 st2 e hc hu hl⟩))
      · exact Or.inr (Or.inr (Or.inl ⟨st1, st2, e, rfl, hu, by simp,
          deployLoop_update_logged d targets rest st st1 st2 e logger hc hu hl⟩))
  · exact Or.inl ⟨e, st1, rfl, deployLoop_create_failed d targets rest st st1 e hc⟩

theorem deployLoop_ledgerUpdates {σ ε : Type} (d : Deployer σ ε)
    (resTargets : List model.Targets) (st : σ) :
    ledgerUpdates (deployLoop d resTargets st).log =
      (created (deployLoop d resTargets st).log).map (ledgerUpdateOf d) := by
  induction resTargets generalizing st with
  | nil => rfl
  | cons targets rest ih =>
    rcases deployLoop_cons d targets rest st with ⟨e, st1, _, h⟩ | ⟨st1, st2, _, _, h⟩ |
      ⟨st1, st2, e, _, _, _, h⟩ | ⟨st1, st2, e, _, _, _, h⟩
    · have g := ih st1
      rw [h]
      simp only [ledgerUpdates, created, List.filterMap_cons] at g ⊢
      exact g
    · have g := ih st2
      rw [h]
      simp only [ledgerUpdates, created, List.filterMap_cons, List.map_cons] at g ⊢
      rw [g]
      rfl
    · have g := ih st2
      rw [h]
      simp only [ledgerUpdates, created, List.filterMap_cons, List.map_cons] at g ⊢
      rw [g]
      rfl
    · rw [h]
      rfl

theorem deployLoop_createCalls_prefix {σ ε : Type} (d : Deployer σ ε)
    (resTargets : List model.Targets) (st : σ) :
    ∃ rest, resTargets = createCalls (deployLoop d resTargets st).log ++ rest := by
  induction resTargets generalizing st with
  | nil => exact ⟨[], rfl⟩
  | cons targets rest ih =>
    rcases deployLoop_cons d targets rest st with ⟨e, st1, _, h⟩ | ⟨st1, st2, _, _, h⟩ |
      ⟨st1, st2, e, _, _, _, h⟩ | ⟨st1, st2, e, _, _, _, h⟩
    · obtain ⟨tail, g⟩ := ih st1
      refine ⟨tail, ?_⟩
      rw [h]
      simp only [createCalls, List.filterMap_cons, List.cons_append] at g ⊢
      rw [← g]
    · obtain ⟨tail, g⟩ := ih st2
      refine ⟨tail, ?_⟩
      rw [h]
      simp only [createCalls, List.filterMap_cons, List.cons_append] at g ⊢
      rw [← g]
    · obtain ⟨tail, g⟩ := ih st2
      refine ⟨tail, ?_⟩
      rw [h]
      simp only [createCalls, List.filterMap_cons, List.cons_append] at g ⊢
      rw [← g]
    · refine ⟨rest, ?_⟩
      rw [h]
      rfl

theorem deployLoop_createCalls {σ ε : Type} (d : Deployer σ ε)
    (resTargets : List model.Targets) (st : σ)
    (hrun : (deployLoop d resTargets st).outcome ≠ Outcome.panicked) :
    (deployLoop d resTargets st).outcome = Outcome.returned none ∧
      createCalls (deployLoop d resTargets st).log = resTargets := by
  induction resTargets generalizing st with
  | nil => exact ⟨rfl, rfl⟩
  | cons targets rest ih =>
    rcases deployLoop_cons d targets rest st with ⟨e, st1, _, h⟩ | ⟨st1, st2, _, _, h⟩ |
      ⟨st1, st2, e, _, _, _, h⟩ | ⟨st1, st2, e, _, _, _, h⟩
    · rw [h] at hrun ⊢
      obtain ⟨g1, g2⟩ := ih st1 hrun
      refine ⟨g1, ?_⟩
      simp only [createCalls, List.filterMap_cons] at g2 ⊢
      rw [g2]
    · rw [h] at hrun ⊢
      obtain ⟨g1, g2⟩ := ih st2 hrun
      refine ⟨g1, ?_⟩
      simp only [createCalls, List.filterMap_cons] at g2 ⊢
      rw [g2]
    · rw [h] at hrun ⊢
      obtain ⟨g1, g2⟩ := ih st2 hrun
      refine ⟨g1, ?_⟩
      simp only [createCalls, List.filterMap_cons] at g2 ⊢
      rw [g2]
    · rw [h] at hrun
      exact absurd rfl hrun

theorem deployLoop_panicked {σ ε : Type} (d : Deployer σ ε)
    (resTargets : List model.Targets) (st : σ) :
    (deployLoop d resTargets st).outcome = Outcome.panicked ↔
      d.log = none ∧ ∃ tgName routeName targetList e,
        Step.UpdateTargetsForTargetGroup tgName routeName targetList (some e) ∈
          (deployLoop d resTargets st).log := by
  induction resTargets generalizing st with
  | nil => simp [deployLoop]
  | cons targets rest ih =>
    rcases deployLoop_cons d targets rest st with ⟨e, st1, _, h⟩ | ⟨st1, st2, _, _, h⟩ |
      ⟨st1, st2, e, _, _, _, h⟩ | ⟨st1, st2, e, _, _, hl, h⟩
    · rw [h]
      simpa using ih st1
    · rw [h]
      simpa using ih st2
    · rename_i hl
      rw [h]
      constructor
      · intro hp
        exact absurd ((ih st2).1 hp).1 hl
      · intro hp
        exact absurd hp.1 hl
    · rw [h]
      simp [hl]

theorem deployLoop_create_results {σ ε : Type} (d : Deployer σ ε)
    (resTargets : List model.Targets) (st : σ) :
    ∀ targets err, Step.Create targets err ∈ (deployLoop d resTargets st).log →
      targets ∈ resTargets ∧ ∃ s, (d.collaborators.Create targets s).1 = err := by
  induction resTargets generalizing st with
  | nil =>
    intro targets err h
    simp [deployLoop] at h
  | cons targets rest ih =>
    intro t err hmem
    rcases deployLoop_cons d targets rest st with ⟨e, st1, hc, h⟩ | ⟨st1, st2, hc, _, h⟩ |
      ⟨st1, st2, e, hc, _, _, h⟩ | ⟨st1, st2, e, hc, _, _, h⟩
    · rw [h] at hmem
      rcases List.mem_cons.1 hmem with heq | hmem
      · injection heq with h1 h2
        subst h1 h2
        exact ⟨List.mem_cons_self _ _, st, by rw [hc]⟩
      · obtain ⟨g1, g2⟩ := ih st1 t err hmem
        exact ⟨List.mem_cons_of_mem _ g1, g2⟩
    · rw [h] at hmem
      rcases List.mem_cons.1 hmem with heq | hmem
      · injection heq with h1 h2
        subst h1 h2
        exact ⟨List.mem_cons_self _ _, st, by rw [hc]⟩
      · rcases List.mem_cons.1 hmem with heq | hmem
        · cases heq
        · obtain ⟨g1, g2⟩ := ih st2 t err hmem
          exact ⟨List.mem_cons_of_mem _ g1, g2⟩
    · rw [h] at hmem
      rcases List.mem_cons.1 hmem with heq | hmem
      · injection heq with h1 h2
        subst h1 h2
        exact ⟨List.mem_cons_self _ _, st, by rw [hc]⟩
      · rcases List.mem_cons.1 hmem with heq | hmem
        · cases heq
        · rcases List.mem_cons.1 hmem with heq | hmem
          · cases heq
          · obtain ⟨g1, g2⟩ := ih st2 t err hmem
            exact ⟨List.mem_cons_of_mem _ g1, g2⟩
    · rw [h] at hmem
      rcases List.mem_cons.1 hmem with heq | hmem
      · injection heq with h1 h2
        subst h1 h2
        exact ⟨List.mem_cons_self _ _, st, by rw [hc]⟩
      · simp at hmem

theorem deployLoop_update_follows_create {σ ε : Type} (d : Deployer σ ε)
    (resTargets : List model.Targets) (st : σ) :
    ∀ tgName routeName targetList err,
      Step.UpdateTargetsForTargetGroup tgName routeName targetList err ∈
          (deployLoop d resTargets st).log →
        targetList = [] ∧
          (∃ s, (d.collaborators.UpdateTargetsForTargetGroup tgName routeName [] s).1 = err) ∧
          ∃ targets ∈ resTargets, Step.Create targets none ∈ (deployLoop d resTargets st).log ∧
            tgName = d.collaborators.TargetGroupName targets.Spec.Name targets.Spec.Namespace ∧
            routeName = targets.Spec.RouteName := by
  induction resTargets generalizing st with
  | nil =>
    intro tgName routeName targetList err h
    simp [deployLoop] at h
  | cons targets rest ih =>
    intro tgName routeName targetList err hmem
    rcases deployLoop_cons d targets rest st with ⟨e, st1, hc, h⟩ | ⟨st1, st2, hc, hu, h⟩ |
      ⟨st1, st2, e, hc, hu, _, h⟩ | ⟨st1, st2, e, hc, hu, _, h⟩
    · rw [h] at hmem ⊢
      rcases List.mem_cons.1 hmem with heq | hmem
      · cases heq
      · obtain ⟨hl, hs, t2, ht2, hin, hk, hr⟩ := ih st1 _ _ _ _ hmem
        exact ⟨hl, hs, t2, List.mem_cons_of_mem _ ht2, List.mem_cons_of_mem _ hin, hk, hr⟩
    · rw [h] at hmem ⊢
      rcases List.mem_cons.1 hmem with heq | hmem
      · cases heq
      · rcases List.mem_cons.1 hmem with heq | hmem
        · injection heq with h1 h2 h3 h4
          subst h1 h2 h3 h4
          exact ⟨rfl, ⟨st1, by rw [hu]⟩, targets, List.mem_cons_self _ _,
            List.mem_cons_self _ _, rfl, rfl⟩
        · obtain ⟨hl, hs, t2, ht2, hin, hk, hr⟩ := ih st2 _ _ _ _ hmem
          exact ⟨hl, hs, t2, List.mem_cons_of_mem _ ht2,
            List.mem_cons_of_mem _ (List.mem_cons_of_mem _ hin), hk, hr⟩
    · rw [h] at hmem ⊢
      rcases List.mem_cons.1 hmem with heq | hmem
      · cases heq
      · rcases List.mem_cons.1 hmem with heq | hmem
        · injection heq with h1 h2 h3 h4
          subst h1 h2 h3 h4
          exact ⟨rfl, ⟨st1, by rw [hu]⟩, targets, List.mem_cons_self _ _,
            List.mem_cons_self _ _, rfl, rfl⟩
        · rcases List.mem_cons.1 hmem with heq | hmem
          · cases heq
          · obtain ⟨hl, hs, t2, ht2, hin, hk, hr⟩ := ih st2 _ _ _ _ hmem
            exact ⟨hl, hs, t2, List.mem_cons_of_mem _ ht2,
              List.mem_cons_of_mem _ (List.mem_cons_of_mem _ (List.mem_cons_of_mem _ hin)),
              hk, hr⟩
    · rw [h] at hmem ⊢
      rcases List.mem_cons.1 hmem with heq | hmem
      · cases heq
      · rcases List.mem_cons.1 hmem with heq | hmem
        · injection heq with h1 h2 h3 h4
          subst h1 h2 h3 h4
          exact ⟨rfl, ⟨st1, by rw [hu]⟩, targets, List.mem_cons_self _ _,
            List.mem_cons_self _ _, rfl, rfl⟩
        · simp at hmem

theorem created_eq_filter {σ ε : Type} (d : Deployer σ ε) (resTargets : List model.Targets)
    (st : σ) (ok : model.Targets → Bool)
    (hcreate : ∀ targets s, (d.collaborators.Create targets s).1 = none ↔ ok targets = true) :
    created (deployLoop d resTargets st).log =
      (createCalls (deployLoop d resTargets st).log).filter ok := by
  induction resTargets generalizing st with
  | nil => rfl
  | cons targets rest ih =>
    rcases deployLoop_cons d targets rest st with ⟨e, st1, hc, h⟩ | ⟨st1, st2, hc, _, h⟩ |
      ⟨st1, st2, e, hc, _, _, h⟩ | ⟨st1, st2, e, hc, _, _, h⟩
    · have hok : ok targets = false := by
        rcases hk : ok targets with _ | _
        · rfl
        · have := (hcreate targets st).2 hk
          rw [hc] at this
          cases this
      have g := ih st1
      rw [h]
      simp only [created, createCalls, List.filterMap_cons] at g ⊢
      rw [List.filter_cons_of_neg (by simp [hok]), g]
    · have hok : ok targets = true := (hcreate targets st).1 (by rw [hc])
      have g := ih st2
      rw [h]
      simp only [created, createCalls, List.filterMap_cons] at g ⊢
      rw [List.filter_cons_of_pos hok, g]
    · have hok : ok targets = true := (hcreate targets st).1 (by rw [hc])
      have g := ih st2
      rw [h]
      simp only [created, createCalls, List.filterMap_cons] at g ⊢
      rw [List.filter_cons_of_pos hok, g]
    · have hok : ok targets = true := (hcreate targets st).1 (by rw [hc])
      rw [h]
      simp only [created, createCalls, List.filterMap_cons, List.filterMap_nil]
      rw [List.filter_cons_of_pos hok]
      rfl

/-- The four ways `Deploy` can start: the listing succeeds; it fails and is
logged; it fails and `d.log` is nil. -/
theorem Deploy_cases {σ ε : Type} (d : Deployer σ ε) (stack : core.Stack) (st : σ) :
    ((d.collaborators.ListResources stack).2 = none ∧
        Deploy d stack st = deployLoop d (d.collaborators.ListResources stack).1 st) ∨
      (∃ e, (d.collaborators.ListResources stack).2 = some e ∧ d.log ≠ none ∧
        Deploy d stack st =
          ⟨(deployLoop d (d.collaborators.ListResources stack).1 st).outcome,
            (deployLoop d (d.collaborators.ListResources stack).1 st).state,
            Step.Errorf "Failed to list targets due to %s" none e ::
              (deployLoop d (d.collaborators.ListResources stack).1 st).log⟩) ∨
      (∃ e, (d.collaborators.ListResources stack).2 = some e ∧ d.log = none ∧
        Deploy d stack st = ⟨Outcome.panicked, st, []⟩) := by
  rcases hlist : d.collaborators.ListResources stack with ⟨resTargets, _ | e⟩
  · left
    simp only [Deploy, hlist]
    exact ⟨trivial, trivial⟩
  · rcases hl : d.log with _ | logger
    · right
      right
      exact ⟨e, rfl, rfl, by simp only [Deploy, hlist, hl]⟩
    · right
      left
      exact ⟨e, rfl, by simp, by simp only [Deploy, hlist, hl]⟩

theorem NewTargetsStackDeployer_log {σ ε : Type} (logger : gwlog.Logger)
    (collaborators : Collaborators σ ε) :
    (NewTargetsStackDeployer logger collaborators).log = none := rfl

/-- With `d.log` set, `Deploy` returns nil and invokes `Create` once for each
listed Targets resource, in stack order, whatever fails on the way. -/
theorem Deploy_with_logger {σ ε : Type} (d : Deployer σ ε) (stack : core.Stack) (st : σ)
    (hlog : d.log ≠ none) :
    (Deploy d stack st).outcome = Outcome.returned none ∧
      createCalls (Deploy d stack st).log = (d.collaborators.ListResources stack).1 := by
  have hloop : (deployLoop d (d.collaborators.ListResources stack).1 st).outcome ≠
      Outcome.panicked := fun hp => hlog ((deployLoop_panicked d _ st).1 hp).1
  rcases Deploy_cases d stack st with ⟨_, h⟩ | ⟨e, _, _, h⟩ | ⟨e, _, hl, _⟩
  · rw [h]
    exact deployLoop_createCalls d _ st hloop
  · rw [h]
    exact deployLoop_createCalls d _ st hloop
  · exact absurd hl hlog

/-- `Deploy` panics exactly when `d.log` is nil and either the listing of the
stack or a ledger update returned an error. -/
theorem Deploy_panicked_iff {σ ε : Type} (d : Deployer σ ε) (stack : core.Stack) (st : σ) :
    (Deploy d stack st).outcome = Outcome.panicked ↔
      d.log = none ∧ ((d.collaborators.ListResources stack).2 ≠ none ∨
        ∃ tgName routeName targetList e,
          Step.UpdateTargetsForTargetGroup tgName routeName targetList (some e) ∈
            (Deploy d stack st).log) := by
  rcases Deploy_cases d stack st with ⟨hlist, h⟩ | ⟨e, hlist, hl, h⟩ | ⟨e, hlist, hl, h⟩
  · rw [h, deployLoop_panicked, hlist]
    simp
  · rw [h]
    constructor
    · intro hp
      exact absurd ((deployLoop_panicked d _ st).1 hp).1 hl
    · intro hp
      exact absurd hp.1 hl
  · rw [h, hlist]
    simp [hl]

/-- A run of `Deploy` that does not panic returns nil. -/
theorem Deploy_returned {σ ε : Type} (d : Deployer σ ε) (stack : core.Stack) (st : σ)
    (hrun : (Deploy d stack st).outcome ≠ Outcome.panicked) :
    (Deploy d stack st).outcome = Outcome.returned none := by
  rcases Deploy_cases d stack st with ⟨_, h⟩ | ⟨e, _, _, h⟩ | ⟨e, _, _, h⟩
  · rw [h] at hrun ⊢
    exact (deployLoop_createCalls d _ st hrun).1
  · rw [h] at hrun ⊢
    exact (deployLoop_createCalls d _ st hrun).1
  · rw [h] at hrun
    exact absurd rfl hrun

/-- C27: in every run of `Deploy`, each ledger update passes an empty target
list, passes the key TargetGroupName(spec name, spec namespace) and the route
name of a listed Targets resource whose `targetsManager.Create` returned nil in
this run, and records what the ledger returned; the updates are, in order, one
per resource whose `Create` returned nil; every recorded `Create` is a call of
`targetsManager.Create` on a listed resource with the result that call gave;
`Create` is invoked on an initial segment of the listed resources, on all of
them unless the run panics. When `ok` tells for which resources `Create` returns
nil, the updates are exactly those of the resources satisfying `ok` among the
ones reached, and among all listed ones unless the run panics. The run panics
exactly when `d.log` is nil and the listing of the stack or a ledger update
returned an error; otherwise it returns nil. -/
theorem Deploy_ledger_updates {σ ε : Type} (d : Deployer σ ε) (stack : core.Stack)
    (st : σ) :
    ((Deploy d stack st).outcome = Outcome.panicked ↔
        d.log = none ∧ ((d.collaborators.ListResources stack).2 ≠ none ∨
          ∃ tgName routeName targetList e,
            Step.UpdateTargetsForTargetGroup tgName routeName targetList (some e) ∈
              (Deploy d stack st).log)) ∧
      ((Deploy d stack st).outcome ≠ Outcome.panicked →
        (Deploy d stack st).outcome = Outcome.returned none) ∧
      (∀ tgName routeName targetList err,
        Step.UpdateTargetsForTargetGroup tgName routeName targetList err ∈
            (Deploy d stack st).log →
          targetList = [] ∧
            (∃ s, (d.collaborators.UpdateTargetsForTargetGroup tgName routeName [] s).1 = err) ∧
            ∃ targets ∈ (d.collaborators.ListResources stack).1,
              Step.Create targets none ∈ (Deploy d stack st).log ∧
                tgName =
                  d.collaborators.TargetGroupName targets.Spec.Name targets.Spec.Namespace ∧
                routeName = targets.Spec.RouteName) ∧
      ledgerUpdates (Deploy d stack st).log =
        (created (Deploy d stack st).log).map (fun targets =>
          (d.collaborators.TargetGroupName targets.Spec.Name targets.Spec.Namespace,
            targets.Spec.RouteName, ([] : List latticestore.Target))) ∧
      (∀ targets err, Step.Create targets err ∈ (Deploy d stack st).log →
        targets ∈ (d.collaborators.ListResources stack).1 ∧
          ∃ s, (d.collaborators.Create targets s).1 = err) ∧
      (∃ rest, (d.collaborators.ListResources stack).1 =
        createCalls (Deploy d stack st).log ++ rest) ∧
      ((Deploy d stack st).outcome ≠ Outcome.panicked →
        createCalls (Deploy d stack st).log = (d.collaborators.ListResources stack).1) ∧
      (∀ ok : model.Targets → Bool,
        (∀ targets s, (d.collaborators.Create targets s).1 = none ↔ ok targets = true) →
        ledgerUpdates (Deploy d stack st).log =
            ((createCalls (Deploy d stack st).log).filter ok).map (fun targets =>
              (d.collaborators.TargetGroupName targets.Spec.Name targets.Spec.Namespace,
                targets.Spec.RouteName, ([] : List latticestore.Target))) ∧
          ((Deploy d stack st).outcome ≠ Outcome.panicked →
            ledgerUpdates (Deploy d stack st).log =
              ((d.collaborators.ListResources stack).1.filter ok).map (fun targets =>
                (d.collaborators.TargetGroupName targets.Spec.Name targets.Spec.Namespace,
                  targets.Spec.RouteName, ([] : List latticestore.Target))))) := by
  refine ⟨Deploy_panicked_iff d stack st, Deploy_returned d stack st, ?_⟩
  have key : ∀ r : Run σ ε,
      (r = deployLoop d (d.collaborators.ListResources stack).1 st ∨
        ∃ e, r = ⟨(deployLoop d (d.collaborators.ListResources stack).1 st).outcome,
          (deployLoop d (d.collaborators.ListResources stack).1 st).state,
          Step.Errorf "Failed to list targets due to %s" none e ::
            (deployLoop d (d.collaborators.ListResources stack).1 st).log⟩) →
      r.outcome = (deployLoop d (d.collaborators.ListResources stack).1 st).outcome ∧
        (∀ step, (∀ f n e, step ≠ Step.Errorf f n e) →
          (step ∈ r.log ↔
            step ∈ (deployLoop d (d.collaborators.ListResources stack).1 st).log)) ∧
        ledgerUpdates r.log =
          ledgerUpdates (deployLoop d (d.collaborators.ListResources stack).1 st).log ∧
        created r.log = created (deployLoop d (d.collaborators.ListResources stack).1 st).log ∧
        createCalls r.log =
          createCalls (deployLoop d (d.collaborators.ListResources stack).1 st).log := by
    intro r hr
    rcases hr with rfl | ⟨e, rfl⟩
    · exact ⟨rfl, fun _ _ => Iff.rfl, rfl, rfl, rfl⟩
    · refine ⟨rfl, ?_, rfl, rfl, rfl⟩
      intro step hstep
      constructor
      · intro hmem
        rcases List.mem_cons.1 hmem with heq | hmem
        · exact absurd heq (hstep _ _ _)
        · exact hmem
      · exact fun hmem => List.mem_cons_of_mem _ hmem
  rcases Deploy_cases d stack st with ⟨_, h⟩ | ⟨e, _, _, h⟩ | ⟨e, _, _, h⟩
  case inr.inr =>
    rw [h]
    refine ⟨?_, rfl, ?_, ⟨_, rfl⟩, fun hp => absurd rfl hp, ?_⟩
    · intro tgName routeName targetList err hmem
      cases hmem
    · intro targets err hmem
      cases hmem
    · intro ok _
      exact ⟨rfl, fun hp => absurd rfl hp⟩
  all_goals
    obtain ⟨houtcome, hmem, hledger, hcreated, hcalls⟩ := key (Deploy d stack st)
      (by first | exact Or.inl h | exact Or.inr ⟨e, h⟩)
    rw [houtcome, hledger, hcreated, hcalls]
    refine ⟨?_, deployLoop_ledgerUpdates d _ st, ?_, deployLoop_createCalls_prefix d _ st,
      fun hp => (deployLoop_createCalls d _ st hp).2, ?_⟩
    · intro tgName routeName targetList err hin
      rw [hmem _ (by intro f n e hne; cases hne)] at hin
      obtain ⟨g1, g2, targets, g3, g4, g5, g6⟩ :=
        deployLoop_update_follows_create d _ st tgName routeName targetList err hin
      refine ⟨g1, g2, targets, g3, ?_, g5, g6⟩
      rw [hmem _ (by intro f n e hne; cases hne)]
      exact g4
    · intro targets err hin
      rw [hmem _ (by intro f n e hne; cases hne)] at hin
      exact deployLoop_create_results d _ st targets err hin
    · intro ok hcreate
      have hfilter := created_eq_filter d (d.collaborators.ListResources stack).1 st ok hcreate
      have hupdates := deployLoop_ledgerUpdates d (d.collaborators.ListResources stack).1 st
      rw [hfilter] at hupdates
      refine ⟨hupdates, fun hp => ?_⟩
      rw [(deployLoop_createCalls d _ st hp).2] at hupdates
      exact hupdates

/-- C27, witness: the deployer that `NewTargetsStackDeployer` builds, with
`Create` failing for "bad" and every ledger update succeeding; the ledger is
updated for "a" and "c", not for "bad", each time with an empty list although
"a" has a target. -/
theorem Deploy_ledger_updates_witness :
    ledgerUpdates
        (Deploy (NewTargetsStackDeployer ⟨"controller"⟩ createFailsForBad) exampleStack 0).log =
      [("k8s-svc-a-default", "route", []), ("k8s-svc-c-default", "route", [])] :=
  (((Deploy_ledger_updates (NewTargetsStackDeployer ⟨"controller"⟩ createFailsForBad)
      exampleStack 0).2.2.2.2.2.2.2
    (fun targets => decide (targets.id ≠ "bad"))
    (by
      intro targets s
      by_cases h : targets.id = "bad" <;>
        simp [NewTargetsStackDeployer, createFailsForBad, h])).2
    (by decide)).trans (by decide)

/-- C28, the code at two failing inputs, with the deployer that
`NewTargetsStackDeployer` builds. First input: `Create` succeeds for the first
resource and its ledger update fails; `Deploy` panics at `d.log.Errorf` (line
230), having invoked `Create` for the first of the three resources only. Second
input: `ListResources` fails; `Deploy` panics at line 212 before any call. -/
theorem Deploy_panics_with_nil_logger :
    (Deploy (NewTargetsStackDeployer ⟨"controller"⟩ exampleCollaborators) exampleStack
        0).outcome = Outcome.panicked ∧
      (Deploy (NewTargetsStackDeployer ⟨"controller"⟩ exampleCollaborators) exampleStack
        0).log =
        [Step.Create ⟨"a", ⟨"svc-a", "default", "route", [⟨"10.0.0.1", 80⟩]⟩⟩ none,
         Step.UpdateTargetsForTargetGroup "k8s-svc-a-default" "route" []
          (some "update failed")] ∧
      createCalls (Deploy (NewTargetsStackDeployer ⟨"controller"⟩ exampleCollaborators)
        exampleStack 0).log ≠ (exampleCollaborators.ListResources exampleStack).1 ∧
      (Deploy (NewTargetsStackDeployer ⟨"controller"⟩ listingFails) exampleStack 0).outcome =
        Outcome.panicked ∧
      (Deploy (NewTargetsStackDeployer ⟨"controller"⟩ listingFails) exampleStack 0).log = [] := by
  refine ⟨?_, ?_, ?_, ?_, ?_⟩ <;> decide

end latticeTargetsStackDeployer

/-! ## Theorems: `serviceExportReconciler.buildAndDeployModel` -/

namespace serviceExportReconciler

/-- C23: when `modelBuilder.Build` reports an error, `buildAndDeployModel` still
deploys: after the Build call a warning event with reason FailedBuildModel is
recorded, then Marshal and then Deploy are invoked with the stack that Build
returned; Deploy is invoked once, and only events follow it. -/
theorem buildAndDeployModel_deploys_after_build_error {σ S ε : Type}
    (r : Collaborators σ S ε) (srvExport : mcsv1alpha1.ServiceExport) (st : σ) (e : ε)
    (hbuild : (r.Build srvExport st).1.2 = some e) :
    ∃ marshalErr deployErr rest,
      (buildAndDeployModel r srvExport st).log =
        [Step.Build (r.Build srvExport st).1.1 (some e),
         Step.Event "Warning" "FailedBuildModel" ("Failed BuildModel due to " ++ r.errorText e),
         Step.Marshal (r.Build srvExport st).1.1 marshalErr,
         Step.Deploy (r.Build srvExport st).1.1 deployErr] ++ rest ∧
      (∀ step ∈ rest, ∃ eventtype reason message, step = Step.Event eventtype reason message) ∧
      (buildAndDeployModel r srvExport st).err =
        (match deployErr with
        | some de => some de
        | none => marshalErr) := by
  rcases hd : (r.Deploy (r.Build srvExport st).1.1
      (r.Marshal (r.Build srvExport st).1.1 (r.Build srvExport st).2).2).1 with _ | de
  · refine ⟨(r.Marshal (r.Build srvExport st).1.1 (r.Build srvExport st).2).1, none, [], ?_,
      ?_, ?_⟩
    · simp [buildAndDeployModel, hbuild, hd, EventTypeWarning,
        GatewayEventReasonFailedBuildModel]
    · intro step hstep
      cases hstep
    · simp [buildAndDeployModel, hd]
  · refine ⟨(r.Marshal (r.Build srvExport st).1.1 (r.Build srvExport st).2).1, some de,
      [Step.Event "Warning" "FailedDeployModel"
        ("Failed deploy model due to " ++ r.errorText de)], ?_, ?_, ?_⟩
    · simp [buildAndDeployModel, hbuild, hd, EventTypeWarning,
        GatewayEventReasonFailedBuildModel, ServiceExportEventReasonFailedDeployModel]
    · intro step hstep
      rw [List.mem_singleton] at hstep
      exact ⟨_, _, _, hstep⟩
    · simp [buildAndDeployModel, hd]

/-- Witness for C23: Build fails with the stack 7; Marshal and Deploy succeed. -/
theorem buildAndDeployModel_deploys_after_build_error_witness :
    (buildAndDeployModel buildFails exampleExport 0).log =
      [Step.Build 7 (some "build failed"),
       Step.Event "Warning" "FailedBuildModel" "Failed BuildModel due to build failed",
       Step.Marshal 7 none, Step.Deploy 7 none] ∧
      ∃ marshalErr deployErr rest,
        (buildAndDeployModel buildFails exampleExport 0).log =
          [Step.Build (buildFails.Build exampleExport 0).1.1 (some "build failed"),
           Step.Event "Warning" "FailedBuildModel"
            ("Failed BuildModel due to " ++ buildFails.errorText "build failed"),
           Step.Marshal (buildFails.Build exampleExport 0).1.1 marshalErr,
           Step.Deploy (buildFails.Build exampleExport 0).1.1 deployErr] ++ rest :=
  ⟨by decide,
    (buildAndDeployModel_deploys_after_build_error buildFails exampleExport 0 "build failed"
      rfl).elim fun marshalErr h => h.elim fun deployErr h2 => h2.elim fun rest h3 =>
        ⟨marshalErr, deployErr, rest, h3.1⟩⟩

/-- C25: the result of `buildAndDeployModel` is determined by the outcomes of
Marshal and Deploy alone, for every outcome of Build: it is Deploy's error when
Deploy fails, Marshal's error when Deploy succeeds, and nil exactly when both
Marshal and Deploy return nil. -/
theorem buildAndDeployModel_result {σ S ε : Type}
    (r : Collaborators σ S ε) (srvExport : mcsv1alpha1.ServiceExport) (st : σ) :
    (∀ e, (r.Deploy (r.Build srvExport st).1.1
          (r.Marshal (r.Build srvExport st).1.1 (r.Build srvExport st).2).2).1 = some e →
        (buildAndDeployModel r srvExport st).err = some e) ∧
      ((r.Deploy (r.Build srvExport st).1.1
          (r.Marshal (r.Build srvExport st).1.1 (r.Build srvExport st).2).2).1 = none →
        (buildAndDeployModel r srvExport st).err =
          (r.Marshal (r.Build srvExport st).1.1 (r.Build srvExport st).2).1) ∧
      ((buildAndDeployModel r srvExport st).err = none ↔
        (r.Marshal (r.Build srvExport st).1.1 (r.Build srvExport st).2).1 = none ∧
          (r.Deploy (r.Build srvExport st).1.1
            (r.Marshal (r.Build srvExport st).1.1 (r.Build srvExport st).2).2).1 = none) := by
  rcases hd : (r.Deploy (r.Build srvExport st).1.1
      (r.Marshal (r.Build srvExport st).1.1 (r.Build srvExport st).2).2).1 with _ | de
  · simp [buildAndDeployModel, hd]
  · simp [buildAndDeployModel, hd]

end serviceExportReconciler

/-! ## Theorems: the service synthesizer -/

namespace serviceSynthesizer

/-- C21: for a stack holding one Service resource, `Synthesize` calls the
service manager's Delete alone when the spec's IsDeleted is true; otherwise it
calls the manager's Create, never Delete, and then the DNS endpoint manager's
Create exactly when the manager's Create returned nil; it returns nil if and
only if the manager call and, where made, the DNS call returned nil. -/
theorem Synthesize_one_service {σ ε : Type} (m : Managers σ ε) (service : model.Service)
    (st : σ) :
    ∃ run, Synthesize m [service] st = some run ∧
      (service.Spec.IsDeleted = true →
        run.calls = [Call.ServiceManagerDelete service] ∧
          (run.err = none ↔ (m.Delete service st).1 = none)) ∧
      (service.Spec.IsDeleted = false → (m.Create service st).1.2 ≠ none →
        run.calls = [Call.ServiceManagerCreate service] ∧ run.err ≠ none) ∧
      (service.Spec.IsDeleted = false → (m.Create service st).1.2 = none →
        run.calls = [Call.ServiceManagerCreate service, Call.DnsEndpointManagerCreate] ∧
          (run.err = none ↔ (m.DnsCreate service (m.Create service st).2).1 = none)) ∧
      (Call.DnsEndpointManagerCreate ∈ run.calls ↔
        service.Spec.IsDeleted = false ∧ (m.Create service st).1.2 = none) := by
  refine ⟨synthesizeService m service st, rfl, ?_, ?_, ?_, ?_⟩
  · intro hdel
    simp [synthesizeService, hdel]
  · intro hdel hfail
    rcases hc : (m.Create service st).1.2 with _ | e
    · exact absurd hc hfail
    · simp [synthesizeService, hdel, hc]
  · intro hdel hok
    simp [synthesizeService, hdel, hok]
  · rcases hdel : service.Spec.IsDeleted with _ | _
    · rcases hc : (m.Create service st).1.2 with _ | e
      · simp [synthesizeService, hdel, hc]
      · simp [synthesizeService, hdel, hc]
    · simp [synthesizeService, hdel]

end serviceSynthesizer

/-! ## Worked examples -/

namespace latticeTargetsStackDeployer

theorem Deploy_example :
    (Deploy (NewTargetsStackDeployer ⟨"controller"⟩ createFailsForBad) exampleStack 0).outcome =
        Outcome.returned none ∧
      (Deploy (NewTargetsStackDeployer ⟨"controller"⟩ createFailsForBad) exampleStack 0).log =
        [Step.Create ⟨"a", ⟨"svc-a", "default", "route", [⟨"10.0.0.1", 80⟩]⟩⟩ none,
         Step.UpdateTargetsForTargetGroup "k8s-svc-a-default" "route" [] none,
         Step.Create ⟨"bad", ⟨"svc-b", "default", "route", [⟨"10.0.0.2", 80⟩]⟩⟩
          (some "create failed"),
         Step.Create ⟨"c", ⟨"svc-c", "default", "route", []⟩⟩ none,
         Step.UpdateTargetsForTargetGroup "k8s-svc-c-default" "route" [] none] := by
  constructor <;> decide

theorem Deploy_logged_example :
    (Deploy loggingDeployer exampleStack 0).outcome = Outcome.returned none ∧
      (Deploy loggingDeployer exampleStack 0).log =
        [Step.Create ⟨"a", ⟨"svc-a", "default", "route", [⟨"10.0.0.1", 80⟩]⟩⟩ none,
         Step.UpdateTargetsForTargetGroup "k8s-svc-a-default" "route" [] none,
         Step.Create ⟨"bad", ⟨"svc-b", "default", "route", [⟨"10.0.0.2", 80⟩]⟩⟩
          (some "create failed"),
         Step.Create ⟨"c", ⟨"svc-c", "default", "route", []⟩⟩ none,
         Step.UpdateTargetsForTargetGroup "k8s-svc-c-default" "route" [] (some "update failed"),
         Step.Errorf "Failed to update targets for target group %s due to %s"
          (some "k8s-svc-c-default") "update failed"] := by
  constructor <;> decide

end latticeTargetsStackDeployer

namespace serviceSynthesizer

theorem Synthesize_example :
    (Synthesize dnsFails [⟨⟨"service3", "", false⟩⟩] 0).map (fun run => (run.err, run.calls)) =
      some (some "Failed registering DNS",
        [Call.ServiceManagerCreate ⟨⟨"service3", "", false⟩⟩, Call.DnsEndpointManagerCreate]) := by
  decide

end serviceSynthesizer

end LatticeGateway
